import Mathlib

/-! Fallback-domain and load-balancing endpoints of the Cloudflare Go client.

A shallow embedding of `fallback_domain.go`: the two endpoint methods
`ListFallbackDomains` and `UpdateFallbackDomain`, the structs they decode into, and the
part of `encoding/json`, `fmt` and `github.com/pkg/errors` they call.  The load-balancing
endpoints exercised by `load_balancing_test.go` follow, with the requests, bodies and
expected values of that test file.

Go strings are modelled by Lean strings wherever the program only carries them; where the
bytes matter (writing a `FallbackDomain` as JSON and reading it back) they are byte
sequences, with the part of `unicode/utf8` that `encoding/json` calls.

The request layer (`api.makeRequestContext`) and the package constants
`AccountRouteRoot` and `errUnmarshalError` are declared in other files of the package; the
embedding takes them as parameters (`Package`).  The client state the request layer may
read or write (connection pool, rate limiter, the remote server) is an explicit state `σ`
threaded through every call.
-/

set_option autoImplicit false

namespace Cloudflare

/-! ## Go values -/

/-- A Go slice, keeping the difference between the nil slice (`var s []T`) and an
allocated slice (`[]T{...}`, possibly of length 0). -/
inductive Slice (α : Type) where
  | nil
  | elems (xs : List α)
  deriving DecidableEq, Repr

namespace Slice

/-- The elements of a slice; the nil slice has none. -/
def toList {α : Type} : Slice α → List α
  | nil => []
  | elems xs => xs

/-- Go `len(s)`. -/
def len {α : Type} (s : Slice α) : Nat := s.toList.length

/-- Go `s == nil`. -/
def isNil {α : Type} : Slice α → Bool
  | nil => true
  | elems _ => false

end Slice

/-- The caller's `context.Context`.  The file never looks inside it. -/
structure Context where
  token : Nat
  deriving DecidableEq, Repr

/-! ## JSON documents -/

/-- A JSON number literal: an integer literal, or a literal with a fraction or an
exponent part (kept as text). -/
inductive JNumber where
  | int (n : Int)
  | frac (literal : String)
  deriving DecidableEq, Repr

/-- A JSON value.  An object is the list of its members in document order; a key may
occur more than once. -/
inductive JSON where
  | null
  | bool (b : Bool)
  | number (n : JNumber)
  | string (s : String)
  | array (xs : List JSON)
  | object (members : List (String × JSON))

/-- A `[]byte` as `encoding/json` sees it: text that is not valid JSON (this includes the
nil and the empty byte slice), or the text of a JSON value. -/
inductive Bytes where
  | malformed (msg : String)
  | text (v : JSON)

/-- The errors `json.Unmarshal` returns: a `*json.SyntaxError`, or a
`*json.UnmarshalTypeError` naming the kind of JSON value and the Go type it could not be
stored in. -/
inductive JsonError where
  | syntaxError (msg : String)
  | unmarshalTypeError (value : String) (goType : String)
  deriving DecidableEq, Repr

/-- The `Value` string of an `UnmarshalTypeError` for a JSON value. -/
def JSON.kind : JSON → String
  | .null => "null"
  | .bool _ => "bool"
  | .number _ => "number"
  | .string _ => "string"
  | .array _ => "array"
  | .object _ => "object"

/-! ## Structs of the file -/

/-- The Go struct `FallbackDomain`:
`Suffix string`, `Description string`, `DNSServer []string`, tagged
`suffix,omitempty`, `description,omitempty`, `dns_server,omitempty`. -/
structure FallbackDomain where
  Suffix : String
  Description : String
  DNSServer : Slice String
  deriving DecidableEq, Repr

/-- Modelled from the spec: one entry of the envelope's `errors` array,
`{code:int, message:string}` (the declaration is outside this file). -/
structure ResponseInfo where
  Code : Int
  Message : String
  deriving DecidableEq, Repr

/-- Modelled from the spec: the embedded `Response` struct, the envelope fields other than
`result`: `success` (boolean), `errors` (ordered sequence of `{code, message}`), `messages`
(ordered sequence of informational strings).  Its declaration is outside this file. -/
structure Response where
  Success : Bool
  Errors : Slice ResponseInfo
  Messages : Slice String
  deriving DecidableEq, Repr

/-- The Go struct `FallbackDomainResponse`: the embedded `Response` and
`Result []FallbackDomain` tagged `result`. -/
structure FallbackDomainResponse where
  toResponse : Response
  Result : Slice FallbackDomain
  deriving DecidableEq, Repr

/-- The zero value of `FallbackDomain`. -/
def FallbackDomain.zero : FallbackDomain := ⟨"", "", .nil⟩

/-- The zero value of `ResponseInfo`. -/
def ResponseInfo.zero : ResponseInfo := ⟨0, ""⟩

/-- The zero value of `Response`. -/
def Response.zero : Response := ⟨false, .nil, .nil⟩

/-- The value of `var fallbackDomainResponse FallbackDomainResponse`. -/
def FallbackDomainResponse.zero : FallbackDomainResponse := ⟨Response.zero, .nil⟩

/-! ## `encoding/json`: storing a JSON value in a Go value

`json.Unmarshal` first checks that the bytes are valid JSON and touches nothing if they are
not.  It then walks the document in order and stores each value in the Go value it is bound
to.  A value of the wrong kind is skipped: the target keeps what it held, the first such
mismatch is remembered, decoding goes on, and the remembered error is returned at the end.
Every decoder below therefore takes the current Go value and returns the new one together
with the first error met.

The decoders work on the parsed document.  A key that occurs again in one object is stored
into what the earlier occurrence left, as the walk in document order does.  The text of a
number literal and the offset and field path of an error are not represented. -/

/-- What `saveError` keeps: the earliest error. -/
def firstError : Option JsonError → Option JsonError → Option JsonError
  | some e, _ => some e
  | none, e => e

/-- The `UnmarshalTypeError` for JSON value `v` and Go type `goType`. -/
def typeError (v : JSON) (goType : String) : JsonError :=
  .unmarshalTypeError v.kind goType

/-- Case folding of one character of an object key: ASCII letters fold to lower case, and
the two non-ASCII characters that fold to ASCII letters (U+017F to `s`, U+212A to `k`)
fold with them. -/
def foldRune (c : Char) : Char :=
  if c = '\u017f' then 's' else if c = '\u212a' then 'k' else c.toLower

/-- Whether object key `key` is bound to the struct field tagged `tag`: an exact match,
or a match up to case folding. -/
def equalFold (tag key : String) : Bool :=
  key.data.map foldRune == tag.data.map foldRune

/-- Storing into a Go `string`. -/
def decodeString (v : JSON) (cur : String) : String × Option JsonError :=
  match v with
  | .string s => (s, none)
  | .null => (cur, none)
  | _ => (cur, some (typeError v "string"))

/-- Storing into a Go `bool`. -/
def decodeBool (v : JSON) (cur : Bool) : Bool × Option JsonError :=
  match v with
  | .bool b => (b, none)
  | .null => (cur, none)
  | _ => (cur, some (typeError v "bool"))

/-- Storing into a Go `int` (64 bits): the literal must be an integer in range. -/
def decodeInt (v : JSON) (cur : Int) : Int × Option JsonError :=
  match v with
  | .number (.int n) =>
    if -(2 : Int) ^ 63 ≤ n ∧ n < (2 : Int) ^ 63 then (n, none)
    else (cur, some (typeError v "int"))
  | .null => (cur, none)
  | _ => (cur, some (typeError v "int"))

/-- The elements of a JSON array stored one by one: element `i` goes into the slice's
current element `i` when there is one, into a zero element otherwise. -/
def decodeElems {α : Type} (dec : JSON → α → α × Option JsonError) (zero : α) :
    List JSON → List α → List α × Option JsonError
  | [], _ => ([], none)
  | v :: vs, olds =>
    let r := dec v (olds.headD zero)
    let rs := decodeElems dec zero vs olds.tail
    (r.1 :: rs.1, firstError r.2 rs.2)

/-- Storing into a Go slice `[]T`: `null` gives the nil slice, an array gives an allocated
slice of the array's length (length 0 for `[]`), anything else is a type error. -/
def decodeSlice {α : Type} (dec : JSON → α → α × Option JsonError) (zero : α)
    (goType : String) (v : JSON) (cur : Slice α) : Slice α × Option JsonError :=
  match v with
  | .null => (.nil, none)
  | .array xs =>
    let r := decodeElems dec zero xs cur.toList
    (.elems r.1, r.2)
  | _ => (cur, some (typeError v goType))

/-- One member of an object stored into a struct: a member whose key is bound to a field
(`field key = some store`) is stored in it, any other member is skipped. -/
def storeMember {α : Type} (field : String → Option (JSON → α → α × Option JsonError))
    (acc : α × Option JsonError) (m : String × JSON) : α × Option JsonError :=
  match field m.1 with
  | none => acc
  | some store =>
    let r := store m.2 acc.1
    (r.1, firstError acc.2 r.2)

/-- Storing into a Go struct: `null` changes nothing; the members of an object are stored
one after the other in document order; anything else is a type error. -/
def decodeStruct {α : Type} (field : String → Option (JSON → α → α × Option JsonError))
    (goType : String) (v : JSON) (cur : α) : α × Option JsonError :=
  match v with
  | .null => (cur, none)
  | .object members => members.foldl (storeMember field) (cur, none)
  | _ => (cur, some (typeError v goType))

/-- The field of `FallbackDomain` an object key is bound to, as the store into it. -/
def FallbackDomain.field (key : String) :
    Option (JSON → FallbackDomain → FallbackDomain × Option JsonError) :=
  if equalFold "suffix" key then
    some fun v d => let r := decodeString v d.Suffix; ({ d with Suffix := r.1 }, r.2)
  else if equalFold "description" key then
    some fun v d => let r := decodeString v d.Description; ({ d with Description := r.1 }, r.2)
  else if equalFold "dns_server" key then
    some fun v d =>
      let r := decodeSlice decodeString "" "[]string" v d.DNSServer
      ({ d with DNSServer := r.1 }, r.2)
  else none

/-- Storing into a `FallbackDomain`. -/
def decodeFallbackDomain (v : JSON) (cur : FallbackDomain) :
    FallbackDomain × Option JsonError :=
  decodeStruct FallbackDomain.field "cloudflare.FallbackDomain" v cur

/-- The field of `ResponseInfo` an object key is bound to. -/
def ResponseInfo.field (key : String) :
    Option (JSON → ResponseInfo → ResponseInfo × Option JsonError) :=
  if equalFold "code" key then
    some fun v d => let r := decodeInt v d.Code; ({ d with Code := r.1 }, r.2)
  else if equalFold "message" key then
    some fun v d => let r := decodeString v d.Message; ({ d with Message := r.1 }, r.2)
  else none

/-- Storing into a `ResponseInfo`. -/
def decodeResponseInfo (v : JSON) (cur : ResponseInfo) : ResponseInfo × Option JsonError :=
  decodeStruct ResponseInfo.field "cloudflare.ResponseInfo" v cur

/-- The field of `FallbackDomainResponse` an object key is bound to: the promoted fields of
the embedded `Response`, then `Result`. -/
def FallbackDomainResponse.field (key : String) :
    Option (JSON → FallbackDomainResponse → FallbackDomainResponse × Option JsonError) :=
  if equalFold "success" key then
    some fun v d =>
      let r := decodeBool v d.toResponse.Success
      ({ d with toResponse := { d.toResponse with Success := r.1 } }, r.2)
  else if equalFold "errors" key then
    some fun v d =>
      let r := decodeSlice decodeResponseInfo ResponseInfo.zero "[]cloudflare.ResponseInfo" v
        d.toResponse.Errors
      ({ d with toResponse := { d.toResponse with Errors := r.1 } }, r.2)
  else if equalFold "messages" key then
    some fun v d =>
      let r := decodeSlice decodeString "" "[]string" v d.toResponse.Messages
      ({ d with toResponse := { d.toResponse with Messages := r.1 } }, r.2)
  else if equalFold "result" key then
    some fun v d =>
      let r := decodeSlice decodeFallbackDomain FallbackDomain.zero
        "[]cloudflare.FallbackDomain" v d.Result
      ({ d with Result := r.1 }, r.2)
  else none

/-- Go `json.Unmarshal(data, &v)` for `v` of type `FallbackDomainResponse`: the value `v`
holds afterwards and the error returned. -/
def jsonUnmarshal (data : Bytes) (v : FallbackDomainResponse) :
    FallbackDomainResponse × Option JsonError :=
  match data with
  | .malformed msg => (v, some (.syntaxError msg))
  | .text doc =>
    decodeStruct FallbackDomainResponse.field "cloudflare.FallbackDomainResponse" doc v

/-! ## Errors -/

/-- Modelled from the spec: the error values of the request layer, which is outside this
file: `requestError`, a transport-level failure, and `apiError`, a remote-reported failure
carrying the ordered `(code, message)` pairs.  The other two constructors are the Go
`error` values this file itself produces: `json`, an error of `encoding/json`, and
`withMessage`, what `errors.Wrap` builds around a cause. -/
inductive GoError where
  | requestError (cause : String)
  | apiError (errors : List ResponseInfo)
  | json (e : JsonError)
  | withMessage (cause : GoError) (message : String)
  deriving DecidableEq, Repr

/-- Go `errors.Wrap(err, message)` of `github.com/pkg/errors`: nil for a nil `err`,
otherwise `err` annotated with `message`. -/
def errorsWrap (err : Option GoError) (message : String) : Option GoError :=
  match err with
  | none => none
  | some e => some (.withMessage e message)

/-- Whether an error is the request layer's API error. -/
def GoError.isAPIError : GoError → Bool
  | .apiError _ => true
  | _ => false

/-! ## `fmt.Sprintf` -/

/-- The characters `fmt.Sprintf` writes for a format in which `%s` is the only verb and
every operand is a string: each `%s` is replaced by the next operand (`%!s(MISSING)` when
none is left), every other character is copied, and operands left over are reported. -/
def sprintfChars : List Char → List String → List Char
  | [], [] => []
  | [], a :: args =>
    ("%!(EXTRA " ++ ", ".intercalate ((a :: args).map fun x => "string=" ++ x) ++ ")").data
  | [c], args => c :: sprintfChars [] args
  | c :: d :: rest, args =>
    if c = '%' ∧ d = 's' then
      match args with
      | [] => "%!s(MISSING)".data ++ sprintfChars rest []
      | a :: args => a.data ++ sprintfChars rest args
    else c :: sprintfChars (d :: rest) args

/-- Go `fmt.Sprintf(format, args...)` for string operands and the verb `%s`. -/
def Sprintf (format : String) (args : List String) : String :=
  ⟨sprintfChars format.data args⟩

/-! ## The request layer -/

/-- Go `http.MethodGet`. -/
def MethodGet : String := "GET"

/-- Go `http.MethodPut`. -/
def MethodPut : String := "PUT"

/-- The `params interface{}` argument of `makeRequestContext`, as this file passes it: the
untyped `nil`, or a `[]FallbackDomain`. -/
inductive Params where
  | nil
  | fallbackDomains (domains : Slice FallbackDomain)
  deriving DecidableEq, Repr

/-- What this file uses from the rest of the package: the constants `AccountRouteRoot` and
`errUnmarshalError`, and the method `api.makeRequestContext(ctx, method, uri, params)`,
which returns `([]byte, error)` and may read and write the client state `σ`. -/
structure Package (σ : Type) where
  AccountRouteRoot : String
  errUnmarshalError : String
  makeRequestContext :
    Context → String → String → Params → σ → (Bytes × Option GoError) × σ

/-! ## The endpoint methods -/

/-- Go `(api *API) ListFallbackDomains(ctx, accountID)`: the pair it returns and the client
state afterwards. -/
def ListFallbackDomains {σ : Type} (api : Package σ) (ctx : Context) (accountID : String)
    (s : σ) : (Slice FallbackDomain × Option GoError) × σ :=
  let uri := Sprintf "/%s/%s/devices/policy/fallback_domains" [api.AccountRouteRoot, accountID]
  let r := api.makeRequestContext ctx MethodGet uri Params.nil s
  match r.1.2 with
  | some err => ((Slice.elems [], some err), r.2)
  | none =>
    let u := jsonUnmarshal r.1.1 FallbackDomainResponse.zero
    match u.2 with
    | some err => ((Slice.elems [], errorsWrap (some (.json err)) api.errUnmarshalError), r.2)
    | none => ((u.1.Result, none), r.2)

/-- Go `(api *API) UpdateFallbackDomain(ctx, accountID, domains)`: the pair it returns and
the client state afterwards. -/
def UpdateFallbackDomain {σ : Type} (api : Package σ) (ctx : Context) (accountID : String)
    (domains : Slice FallbackDomain) (s : σ) : (Slice FallbackDomain × Option GoError) × σ :=
  let uri := Sprintf "/%s/%s/devices/policy/fallback_domains" [api.AccountRouteRoot, accountID]
  let r := api.makeRequestContext ctx MethodPut uri (Params.fallbackDomains domains) s
  match r.1.2 with
  | some err => ((Slice.elems [], some err), r.2)
  | none =>
    let u := jsonUnmarshal r.1.1 FallbackDomainResponse.zero
    match u.2 with
    | some err => ((Slice.elems [], errorsWrap (some (.json err)) api.errUnmarshalError), r.2)
    | none => ((u.1.Result, none), r.2)

/-! ## Observing the request layer -/

/-- One invocation of `makeRequestContext`: the arguments it was given. -/
structure Call where
  ctx : Context
  method : String
  uri : String
  params : Params
  deriving DecidableEq, Repr

/-- The same client with a request layer that also appends every invocation to a log kept
next to the client state. -/
def Package.recording {σ : Type} (api : Package σ) : Package (σ × List Call) where
  AccountRouteRoot := api.AccountRouteRoot
  errUnmarshalError := api.errUnmarshalError
  makeRequestContext := fun ctx method uri params st =>
    let r := api.makeRequestContext ctx method uri params st.1
    (r.1, (r.2, st.2 ++ [⟨ctx, method, uri, params⟩]))

/-- A stateless client whose request layer hands back the same `([]byte, error)` pair for
every request. -/
def Package.answering (res : Bytes) (err : Option GoError) : Package Unit where
  AccountRouteRoot := "accounts"
  errUnmarshalError := "error unmarshalling the JSON response"
  makeRequestContext := fun _ _ _ _ s => ((res, err), s)

/-- A response body with `success: false`, one entry in `errors` and one fallback domain in
`result`. -/
def failedEnvelope : Bytes :=
  .text (.object
    [("success", .bool false),
     ("errors", .array [.object [("code", .number (.int 1003)),
                                 ("message", .string "Invalid ID")]]),
     ("messages", .array []),
     ("result", .array [.object [("suffix", .string "example.com")]])])

/-- A response body whose second `result` element is a string, not an object: the first
element is stored before the mismatch is met. -/
def halfDecodable : Bytes :=
  .text (.object
    [("success", .bool true),
     ("result", .array [.object [("suffix", .string "example.com")], .string "oops"])])

/-- A page of a longer list of fallback domains served 20 per page: the body carries one
domain and a `result_info` with the given `page`, `count` and `total_count`. -/
def pageBody (page : Nat) (count totalCount : Nat) : Bytes :=
  .text (.object
    [("success", .bool true),
     ("errors", .array []),
     ("messages", .array []),
     ("result", .array [.object [("suffix", .string "example.com")]]),
     ("result_info", .object
        [("page", .number (.int page)), ("per_page", .number (.int 20)),
         ("count", .number (.int count)), ("total_count", .number (.int totalCount))])])

/-- A client whose state counts the requests served and whose request layer answers the
`n`-th request with page `n` of a 2000-item list. -/
def Package.paging : Package Nat where
  AccountRouteRoot := "accounts"
  errUnmarshalError := "error unmarshalling the JSON response"
  makeRequestContext := fun _ _ _ _ served => ((pageBody (served + 1) 1 2000, none), served + 1)

/-! ## Reading a document by its keys

The sequence of `FallbackDomain` values under a body's `result` key, read off the document
by plain key lookup. -/

/-- The string under a key: the string itself, empty when the key is absent or `null`. -/
def readString : Option JSON → String
  | some (.string s) => s
  | _ => ""

/-- The strings under a key holding an array; the nil slice when the key is absent or
`null`. -/
def readStrings : Option JSON → Slice String
  | some (.array xs) => .elems (xs.map fun x => readString (some x))
  | _ => .nil

/-- The `FallbackDomain` an element of `result` spells out. -/
def readFallbackDomain : JSON → FallbackDomain
  | .object members =>
    { Suffix := readString (members.lookup "suffix")
      Description := readString (members.lookup "description")
      DNSServer := readStrings (members.lookup "dns_server") }
  | _ => FallbackDomain.zero

/-- The sequence of `FallbackDomain` values under the body's `result` key: one value per
element of the array, in the array's order. -/
def resultUnderKey : Bytes → Slice FallbackDomain
  | .text (.object members) =>
    match members.lookup "result" with
    | some (.array xs) => .elems (xs.map readFallbackDomain)
    | _ => .nil
  | _ => .nil

/-- The keys of an object that are bound to one of the fields tagged `tags`. -/
def boundKeys (tags : List String) (members : List (String × JSON)) : List String :=
  (members.map Prod.fst).filter fun k => tags.any fun t => equalFold t k

/-- Whether an object names each field by its tag, spelled exactly, and at most once. -/
def plainKeys (tags : List String) (members : List (String × JSON)) : Bool :=
  (boundKeys tags members).all (fun k => decide (k ∈ tags))
    && decide (boundKeys tags members).Nodup

/-- Whether an element of `result` names each field of `FallbackDomain` by its tag, at most
once. -/
def plainDomain : JSON → Bool
  | .object members => plainKeys ["suffix", "description", "dns_server"] members
  | _ => true

/-- Whether a body names each field of `FallbackDomainResponse` by its tag, at most once,
and its `result` elements do the same for `FallbackDomain`. -/
def plainBody : Bytes → Bool
  | .text (.object members) =>
    plainKeys ["success", "errors", "messages", "result"] members
      && (match members.lookup "result" with
          | some (.array xs) => xs.all plainDomain
          | _ => true)
  | _ => true

/-- A response body with two fallback domains, the second with DNS servers. -/
def twoDomains : Bytes :=
  .text (.object
    [("success", .bool true),
     ("errors", .array []),
     ("messages", .array []),
     ("result", .array
        [.object [("suffix", .string "example.com"), ("description", .string "first")],
         .object [("suffix", .string "corp.test"),
                  ("dns_server", .array [.string "10.0.0.1", .string "10.0.0.2"])]])])

/-! ## `encoding/json`: writing a Go value as JSON -/

/-- A struct field written under its key. -/
def member (key : String) (v : JSON) : List (String × JSON) := [(key, v)]

/-- A struct field tagged `omitempty`: left out when its value is empty (false, 0, a nil
pointer, an empty string, a nil or empty slice or map), written under its key otherwise. -/
def omitEmpty (key : String) (empty : Bool) (v : JSON) : List (String × JSON) :=
  if empty then [] else [(key, v)]

/-- A Go slice written as JSON: `null` for the nil slice, an array otherwise. -/
def encodeSlice {α : Type} (enc : α → JSON) : Slice α → JSON
  | .nil => .null
  | .elems xs => .array (xs.map enc)

/-- Go `json.Marshal` of a `FallbackDomain`: the fields in declaration order, each left out
when empty, as all three are tagged `omitempty`.  The strings of the value are taken as
they stand in the document; `marshalFallbackDomain` starts from the bytes Go holds. -/
def encodeFallbackDomain (d : FallbackDomain) : JSON :=
  .object
    (omitEmpty "suffix" (d.Suffix == "") (.string d.Suffix)
      ++ omitEmpty "description" (d.Description == "") (.string d.Description)
      ++ omitEmpty "dns_server" (d.DNSServer.len == 0) (encodeSlice .string d.DNSServer))

/-- The members of a JSON object; none for any other value. -/
def JSON.members : JSON → List (String × JSON)
  | .object ms => ms
  | _ => []

/-- The keys of a JSON object, in document order. -/
def JSON.keys (v : JSON) : List String := v.members.map Prod.fst

/-! ## Values of the load-balancing API

The declarations of `load_balancing.go` are not among the sources; its test file is.  The
definitions of this part are modelled from the spec and from what the test file shows: the
struct literals for the fields, the request and response bodies for the keys. -/

/-- A Go map with string keys (`map[string]T`): the nil map, or its entries, kept sorted by
key with one entry per key, which is also the order `encoding/json` writes them in. -/
inductive GoMap (α : Type) where
  | nil
  | entries (kvs : List (String × α))
  deriving DecidableEq, Repr

/-- The entries of a map; the nil map has none. -/
def GoMap.toList {α : Type} : GoMap α → List (String × α)
  | .nil => []
  | .entries kvs => kvs

/-- Whether key `a` sorts before key `b` (order of the code points, which is the byte order
of the UTF-8 text). -/
def keyLess (a b : String) : Bool :=
  decide (a.data.map Char.toNat < b.data.map Char.toNat)

/-- Go `m[k] = v` on the sorted entries: the entry for `k` is replaced, or put in its
place. -/
def insertEntry {α : Type} (k : String) (v : α) : List (String × α) → List (String × α)
  | [] => [(k, v)]
  | (k', v') :: rest =>
    if k = k' then (k, v) :: rest
    else if keyLess k k' then (k, v) :: (k', v') :: rest
    else (k', v') :: insertEntry k v rest

/-- A Go `float32` or `float64`.  The value is identified by the JSON number literal that
denotes it; rounding to the binary format is not represented. -/
abbrev GoFloat := JNumber

/-- A Go `time.Time`: the fields of the date and time of day, the nanoseconds, and the zone
offset in seconds east of UTC. -/
structure Time where
  year : Nat
  month : Nat
  day : Nat
  hour : Nat
  minute : Nat
  second : Nat
  nanosecond : Nat
  offset : Int
  deriving DecidableEq, Repr

/-- The value of a decimal digit. -/
def digitValue (c : Char) : Option Nat :=
  if '0'.toNat ≤ c.toNat ∧ c.toNat ≤ '9'.toNat then some (c.toNat - '0'.toNat) else none

/-- The character of a decimal digit. -/
def digitChar (d : Nat) : Char := Char.ofNat ('0'.toNat + d % 10)

/-- Reads exactly `n` decimal digits. -/
def readDigits : Nat → Nat → List Char → Option (Nat × List Char)
  | 0, acc, rest => some (acc, rest)
  | n + 1, acc, c :: rest =>
    match digitValue c with
    | some d => readDigits n (acc * 10 + d) rest
    | none => none
  | _ + 1, _, [] => none

/-- Reads the digits of a fraction of a second into nanoseconds: `place` is the value of
the next digit, digits beyond the ninth are dropped. -/
def readFraction : Nat → Nat → List Char → Nat × List Char
  | place, acc, c :: rest =>
    match digitValue c with
    | some d => readFraction (place / 10) (acc + d * place) rest
    | none => (acc, c :: rest)
  | _, acc, [] => (acc, [])

/-- The days of a month. -/
def daysIn (year month : Nat) : Nat :=
  if month = 2 then
    if year % 4 = 0 ∧ (year % 100 ≠ 0 ∨ year % 400 = 0) then 29 else 28
  else if month = 4 ∨ month = 6 ∨ month = 9 ∨ month = 11 then 30
  else 31

/-- Reads the zone of an RFC 3339 timestamp: `Z`, or a sign and `hh:mm`. -/
def readZone : List Char → Option Int
  | ['Z'] => some 0
  | sign :: h1 :: h2 :: ':' :: m1 :: m2 :: [] =>
    match readDigits 2 0 [h1, h2], readDigits 2 0 [m1, m2] with
    | some (h, _), some (m, _) =>
      if h < 24 ∧ m < 60 then
        if sign = '+' then some (Int.ofNat (h * 3600 + m * 60))
        else if sign = '-' then some (-Int.ofNat (h * 3600 + m * 60))
        else none
      else none
    | _, _ => none
  | _ => none

/-- Go `time.Parse(time.RFC3339, s)`: `YYYY-MM-DDTHH:MM:SS`, an optional fraction of a
second, and the zone; `none` when the text is not such a timestamp. -/
def parseRFC3339 (s : String) : Option Time :=
  match readDigits 4 0 s.data with
  | some (year, '-' :: r1) =>
    match readDigits 2 0 r1 with
    | some (month, '-' :: r2) =>
      match readDigits 2 0 r2 with
      | some (day, 'T' :: r3) =>
        match readDigits 2 0 r3 with
        | some (hour, ':' :: r4) =>
          match readDigits 2 0 r4 with
          | some (minute, ':' :: r5) =>
            match readDigits 2 0 r5 with
            | some (second, r6) =>
              let frac : Nat × List Char :=
                match r6 with
                | '.' :: c :: r7 =>
                  if (digitValue c).isSome then readFraction 100000000 0 (c :: r7)
                  else (0, r6)
                | _ => (0, r6)
              match readZone frac.2 with
              | some offset =>
                if 1 ≤ month ∧ month ≤ 12 ∧ 1 ≤ day ∧ day ≤ daysIn year month
                    ∧ hour < 24 ∧ minute < 60 ∧ second < 60 then
                  some ⟨year, month, day, hour, minute, second, frac.1, offset⟩
                else none
              | none => none
            | none => none
          | _ => none
        | _ => none
      | _ => none
    | _ => none
  | _ => none

/-- The decimal digits of `v`, zero-padded to `width` digits, put before `tail`. -/
def padDigits : Nat → Nat → List Char → List Char
  | 0, _, tail => tail
  | width + 1, v, tail => padDigits width (v / 10) (digitChar v :: tail)

/-- The fraction of a second as RFC 3339 prints it: nothing for zero, otherwise a period
and the nine digits of the nanoseconds without trailing zeros. -/
def fractionText (nanosecond : Nat) : List Char :=
  if nanosecond = 0 then []
  else '.' :: ((padDigits 9 nanosecond []).reverse.dropWhile (· = '0')).reverse

/-- Go `t.Format(time.RFC3339Nano)`, what `time.Time` writes as its JSON string. -/
def formatRFC3339 (t : Time) : String :=
  ⟨padDigits 4 t.year [] ++ '-' :: padDigits 2 t.month [] ++ '-' :: padDigits 2 t.day []
    ++ 'T' :: padDigits 2 t.hour [] ++ ':' :: padDigits 2 t.minute []
    ++ ':' :: padDigits 2 t.second [] ++ fractionText t.nanosecond
    ++ (if t.offset = 0 then ['Z']
        else (if t.offset < 0 then '-' else '+')
          :: padDigits 2 (t.offset.natAbs / 3600) []
          ++ ':' :: padDigits 2 (t.offset.natAbs % 3600 / 60) [])⟩

/-- Storing into a Go `float32` or `float64`. -/
def decodeFloat (v : JSON) (cur : GoFloat) : GoFloat × Option JsonError :=
  match v with
  | .number n => (n, none)
  | .null => (cur, none)
  | _ => (cur, some (typeError v "float"))

/-- Storing into a `time.Time`: a string holding an RFC 3339 timestamp. -/
def decodeTime (v : JSON) (cur : Time) : Time × Option JsonError :=
  match v with
  | .string s =>
    match parseRFC3339 s with
    | some t => (t, none)
    | none => (cur, some (typeError v "time.Time"))
  | .null => (cur, none)
  | _ => (cur, some (typeError v "time.Time"))

/-- Storing into a Go pointer `*T`: `null` gives the nil pointer; any other value is stored
into what the pointer points to, a new zero value when the pointer was nil. -/
def decodePtr {α : Type} (dec : JSON → α → α × Option JsonError) (zero : α) (v : JSON)
    (cur : Option α) : Option α × Option JsonError :=
  match v with
  | .null => (none, none)
  | _ =>
    let r := dec v (cur.getD zero)
    (some r.1, r.2)

/-- The members of an object stored one by one into the entries of a map, each value
decoded into a new zero value. -/
def decodeEntries {α : Type} (dec : JSON → α → α × Option JsonError) (zero : α) :
    List (String × JSON) → List (String × α) → List (String × α) × Option JsonError
  | [], kvs => (kvs, none)
  | (k, v) :: ms, kvs =>
    let r := dec v zero
    let rs := decodeEntries dec zero ms (insertEntry k r.1 kvs)
    (rs.1, firstError r.2 rs.2)

/-- Storing into a Go map `map[string]T`: `null` gives the nil map, an object is stored
entry by entry into the map (a new one when it was nil), anything else is a type error. -/
def decodeMap {α : Type} (dec : JSON → α → α × Option JsonError) (zero : α)
    (goType : String) (v : JSON) (cur : GoMap α) : GoMap α × Option JsonError :=
  match v with
  | .null => (.nil, none)
  | .object ms =>
    let r := decodeEntries dec zero ms cur.toList
    (.entries r.1, r.2)
  | _ => (cur, some (typeError v goType))

/-- A Go pointer written as JSON: `null` for nil, the value it points to otherwise. -/
def encodePtr {α : Type} (enc : α → JSON) : Option α → JSON
  | none => .null
  | some a => enc a

/-- A Go map written as JSON: `null` for the nil map, an object with the entries in key
order otherwise. -/
def encodeMap {α : Type} (enc : α → JSON) : GoMap α → JSON
  | .nil => .null
  | .entries kvs => .object (kvs.map fun kv => (kv.1, enc kv.2))

/-- A Go `int` written as JSON. -/
def encodeInt (n : Int) : JSON := .number (.int n)

/-- A `time.Time` written as JSON: the string of its RFC 3339 text. -/
def encodeTime (t : Time) : JSON := .string (formatRFC3339 t)

/-- The zero value of `time.Time`: midnight of January 1 of the year 1, UTC. -/
def Time.zero : Time := ⟨1, 1, 1, 0, 0, 0, 0, 0⟩

/-- Modelled from the spec: the struct `LoadBalancerLoadShedding` of `load_balancing.go`,
which is not among the sources: the fields of the test literals, under the keys of the
`load_shedding` object of the test bodies. -/
structure LoadBalancerLoadShedding where
  DefaultPercent : GoFloat
  DefaultPolicy : String
  SessionPercent : GoFloat
  SessionPolicy : String
  deriving DecidableEq, Repr

/-- The zero value of `LoadBalancerLoadShedding`. -/
def LoadBalancerLoadShedding.zero : LoadBalancerLoadShedding :=
  { DefaultPercent := JNumber.int 0
    DefaultPolicy := ""
    SessionPercent := JNumber.int 0
    SessionPolicy := "" }

/-- Modelled from the spec: a `LoadBalancerLoadShedding` written as JSON, the keys as the
test bodies spell them.  Every key is always written. -/
def encodeLoadBalancerLoadShedding (x : LoadBalancerLoadShedding) : JSON :=
  .object
    (member "default_percent" (JSON.number x.DefaultPercent)
      ++ member "default_policy" (JSON.string x.DefaultPolicy)
      ++ member "session_percent" (JSON.number x.SessionPercent)
      ++ member "session_policy" (JSON.string x.SessionPolicy))

/-- Modelled from the spec: the field of `LoadBalancerLoadShedding` an object key is bound
to, as the store into it. -/
def LoadBalancerLoadShedding.field (key : String) :
    Option (JSON → LoadBalancerLoadShedding → LoadBalancerLoadShedding × Option JsonError) :=
  if equalFold "default_percent" key then
    some fun v d => let r := decodeFloat v d.DefaultPercent; ({ d with DefaultPercent := r.1 }, r.2)
  else if equalFold "default_policy" key then
    some fun v d => let r := decodeString v d.DefaultPolicy; ({ d with DefaultPolicy := r.1 }, r.2)
  else if equalFold "session_percent" key then
    some fun v d => let r := decodeFloat v d.SessionPercent; ({ d with SessionPercent := r.1 }, r.2)
  else if equalFold "session_policy" key then
    some fun v d => let r := decodeString v d.SessionPolicy; ({ d with SessionPolicy := r.1 }, r.2)
  else none

/-- Modelled from the spec: storing a JSON value into a `LoadBalancerLoadShedding`. -/
def decodeLoadBalancerLoadShedding (v : JSON) (cur : LoadBalancerLoadShedding) :
    LoadBalancerLoadShedding × Option JsonError :=
  decodeStruct LoadBalancerLoadShedding.field "cloudflare.LoadBalancerLoadShedding" v cur

/-- Modelled from the spec: the struct `LoadBalancerOriginSteering` of `load_balancing.go`,
which is not among the sources: the field of the test literals, under the key of the
`origin_steering` object of the test bodies. -/
structure LoadBalancerOriginSteering where
  Policy : String
  deriving DecidableEq, Repr

/-- The zero value of `LoadBalancerOriginSteering`. -/
def LoadBalancerOriginSteering.zero : LoadBalancerOriginSteering :=
  { Policy := "" }

/-- Modelled from the spec: a `LoadBalancerOriginSteering` written as JSON, the keys as the
test bodies spell them.  Every key is always written. -/
def encodeLoadBalancerOriginSteering (x : LoadBalancerOriginSteering) : JSON :=
  .object
    (member "policy" (JSON.string x.Policy))

/-- Modelled from the spec: the field of `LoadBalancerOriginSteering` an object key is bound
to, as the store into it. -/
def LoadBalancerOriginSteering.field (key : String) :
    Option (JSON → LoadBalancerOriginSteering →
      LoadBalancerOriginSteering × Option JsonError) :=
  if equalFold "policy" key then
    some fun v d => let r := decodeString v d.Policy; ({ d with Policy := r.1 }, r.2)
  else none

/-- Modelled from the spec: storing a JSON value into a `LoadBalancerOriginSteering`. -/
def decodeLoadBalancerOriginSteering (v : JSON) (cur : LoadBalancerOriginSteering) :
    LoadBalancerOriginSteering × Option JsonError :=
  decodeStruct LoadBalancerOriginSteering.field "cloudflare.LoadBalancerOriginSteering" v cur

/-- Modelled from the spec: the struct `LoadBalancerOrigin` of `load_balancing.go`, which is
not among the sources: the fields of the test literals, under the keys of the `origins`
elements of the test bodies. -/
structure LoadBalancerOrigin where
  Name : String
  Address : String
  Enabled : Bool
  Weight : GoFloat
  Header : GoMap (Slice String)
  deriving DecidableEq, Repr

/-- The zero value of `LoadBalancerOrigin`. -/
def LoadBalancerOrigin.zero : LoadBalancerOrigin :=
  { Name := ""
    Address := ""
    Enabled := false
    Weight := JNumber.int 0
    Header := GoMap.nil }

/-- Modelled from the spec: a `LoadBalancerOrigin` written as JSON, the keys as the test
bodies spell them.  Every key is always written. -/
def encodeLoadBalancerOrigin (x : LoadBalancerOrigin) : JSON :=
  .object
    (member "name" (JSON.string x.Name)
      ++ member "address" (JSON.string x.Address)
      ++ member "enabled" (JSON.bool x.Enabled)
      ++ member "weight" (JSON.number x.Weight)
      ++ member "header" (encodeMap (encodeSlice JSON.string) x.Header))

/-- Modelled from the spec: the field of `LoadBalancerOrigin` an object key is bound to, as
the store into it. -/
def LoadBalancerOrigin.field (key : String) :
    Option (JSON → LoadBalancerOrigin → LoadBalancerOrigin × Option JsonError) :=
  if equalFold "name" key then
    some fun v d => let r := decodeString v d.Name; ({ d with Name := r.1 }, r.2)
  else if equalFold "address" key then
    some fun v d => let r := decodeString v d.Address; ({ d with Address := r.1 }, r.2)
  else if equalFold "enabled" key then
    some fun v d => let r := decodeBool v d.Enabled; ({ d with Enabled := r.1 }, r.2)
  else if equalFold "weight" key then
    some fun v d => let r := decodeFloat v d.Weight; ({ d with Weight := r.1 }, r.2)
  else if equalFold "header" key then
    some fun v d =>
      let r := decodeMap (decodeSlice decodeString "" "[]string") Slice.nil
        "map[string][]string" v d.Header
      ({ d with Header := r.1 }, r.2)
  else none

/-- Modelled from the spec: storing a JSON value into a `LoadBalancerOrigin`. -/
def decodeLoadBalancerOrigin (v : JSON) (cur : LoadBalancerOrigin) :
    LoadBalancerOrigin × Option JsonError :=
  decodeStruct LoadBalancerOrigin.field "cloudflare.LoadBalancerOrigin" v cur

/-- Modelled from the spec: the struct `LoadBalancerPool` of `load_balancing.go`, which is not
among the sources: the fields of the test literals, under the keys of the test bodies.
The optional fields are the pointers (`CreatedOn`, `ModifiedOn`, `Latitude`, `Longitude`,
`LoadShedding`, `OriginSteering`), present or absent. -/
structure LoadBalancerPool where
  ID : String
  CreatedOn : Option Time
  ModifiedOn : Option Time
  Description : String
  Name : String
  Enabled : Bool
  Healthy : Bool
  MinimumOrigins : Int
  Monitor : String
  Latitude : Option GoFloat
  Longitude : Option GoFloat
  LoadShedding : Option LoadBalancerLoadShedding
  OriginSteering : Option LoadBalancerOriginSteering
  Origins : Slice LoadBalancerOrigin
  NotificationEmail : String
  CheckRegions : Slice String
  deriving DecidableEq, Repr

/-- The zero value of `LoadBalancerPool`. -/
def LoadBalancerPool.zero : LoadBalancerPool :=
  { ID := ""
    CreatedOn := none
    ModifiedOn := none
    Description := ""
    Name := ""
    Enabled := false
    Healthy := false
    MinimumOrigins := 0
    Monitor := ""
    Latitude := none
    Longitude := none
    LoadShedding := none
    OriginSteering := none
    Origins := Slice.nil
    NotificationEmail := ""
    CheckRegions := Slice.nil }

/-- Modelled from the spec: a `LoadBalancerPool` written as JSON, the keys as the test bodies
spell them.  An optional field is left out when absent; so are `id`, `minimum_origins` and
`monitor` when empty, as the test bodies show; every other key is always written.  The
members come in the order of the test bodies, which the comparison of the tests ignores. -/
def encodeLoadBalancerPool (x : LoadBalancerPool) : JSON :=
  .object
    (omitEmpty "id" (x.ID == "") (JSON.string x.ID)
      ++ omitEmpty "created_on" x.CreatedOn.isNone (encodePtr encodeTime x.CreatedOn)
      ++ omitEmpty "modified_on" x.ModifiedOn.isNone (encodePtr encodeTime x.ModifiedOn)
      ++ member "description" (JSON.string x.Description)
      ++ member "name" (JSON.string x.Name)
      ++ member "enabled" (JSON.bool x.Enabled)
      ++ member "healthy" (JSON.bool x.Healthy)
      ++ omitEmpty "minimum_origins" (x.MinimumOrigins == 0) (encodeInt x.MinimumOrigins)
      ++ omitEmpty "monitor" (x.Monitor == "") (JSON.string x.Monitor)
      ++ omitEmpty "latitude" x.Latitude.isNone (encodePtr JSON.number x.Latitude)
      ++ omitEmpty "longitude" x.Longitude.isNone (encodePtr JSON.number x.Longitude)
      ++ omitEmpty "load_shedding" x.LoadShedding.isNone
          (encodePtr encodeLoadBalancerLoadShedding x.LoadShedding)
      ++ omitEmpty "origin_steering" x.OriginSteering.isNone
          (encodePtr encodeLoadBalancerOriginSteering x.OriginSteering)
      ++ member "origins" (encodeSlice encodeLoadBalancerOrigin x.Origins)
      ++ member "notification_email" (JSON.string x.NotificationEmail)
      ++ member "check_regions" (encodeSlice JSON.string x.CheckRegions))

/-- Modelled from the spec: the field of `LoadBalancerPool` an object key is bound to, as
the store into it. -/
def LoadBalancerPool.field (key : String) :
    Option (JSON → LoadBalancerPool → LoadBalancerPool × Option JsonError) :=
  if equalFold "id" key then
    some fun v d => let r := decodeString v d.ID; ({ d with ID := r.1 }, r.2)
  else if equalFold "created_on" key then
    some fun v d =>
      let r := decodePtr decodeTime Time.zero v d.CreatedOn
      ({ d with CreatedOn := r.1 }, r.2)
  else if equalFold "modified_on" key then
    some fun v d =>
      let r := decodePtr decodeTime Time.zero v d.ModifiedOn
      ({ d with ModifiedOn := r.1 }, r.2)
  else if equalFold "description" key then
    some fun v d => let r := decodeString v d.Description; ({ d with Description := r.1 }, r.2)
  else if equalFold "name" key then
    some fun v d => let r := decodeString v d.Name; ({ d with Name := r.1 }, r.2)
  else if equalFold "enabled" key then
    some fun v d => let r := decodeBool v d.Enabled; ({ d with Enabled := r.1 }, r.2)
  else if equalFold "healthy" key then
    some fun v d => let r := decodeBool v d.Healthy; ({ d with Healthy := r.1 }, r.2)
  else if equalFold "minimum_origins" key then
    some fun v d => let r := decodeInt v d.MinimumOrigins; ({ d with MinimumOrigins := r.1 }, r.2)
  else if equalFold "monitor" key then
    some fun v d => let r := decodeString v d.Monitor; ({ d with Monitor := r.1 }, r.2)
  else if equalFold "latitude" key then
    some fun v d =>
      let r := decodePtr decodeFloat (JNumber.int 0) v d.Latitude
      ({ d with Latitude := r.1 }, r.2)
  else if equalFold "longitude" key then
    some fun v d =>
      let r := decodePtr decodeFloat (JNumber.int 0) v d.Longitude
      ({ d with Longitude := r.1 }, r.2)
  else if equalFold "load_shedding" key then
    some fun v d =>
      let r := decodePtr decodeLoadBalancerLoadShedding
        LoadBalancerLoadShedding.zero v d.LoadShedding
      ({ d with LoadShedding := r.1 }, r.2)
  else if equalFold "origin_steering" key then
    some fun v d =>
      let r := decodePtr decodeLoadBalancerOriginSteering
        LoadBalancerOriginSteering.zero v d.OriginSteering
      ({ d with OriginSteering := r.1 }, r.2)
  else if equalFold "origins" key then
    some fun v d =>
      let r := decodeSlice decodeLoadBalancerOrigin LoadBalancerOrigin.zero
        "[]cloudflare.LoadBalancerOrigin" v d.Origins
      ({ d with Origins := r.1 }, r.2)
  else if equalFold "notification_email" key then
    some fun v d =>
      let r := decodeString v d.NotificationEmail
      ({ d with NotificationEmail := r.1 }, r.2)
  else if equalFold "check_regions" key then
    some fun v d =>
      let r := decodeSlice decodeString "" "[]string" v d.CheckRegions
      ({ d with CheckRegions := r.1 }, r.2)
  else none

/-- Modelled from the spec: storing a JSON value into a `LoadBalancerPool`. -/
def decodeLoadBalancerPool (v : JSON) (cur : LoadBalancerPool) :
    LoadBalancerPool × Option JsonError :=
  decodeStruct LoadBalancerPool.field "cloudflare.LoadBalancerPool" v cur

/-- Modelled from the spec: the struct `LoadBalancerMonitor` of `load_balancing.go`, which is
not among the sources: the fields of the test literals and `ProbeZone`, under the keys of
the test bodies. -/
structure LoadBalancerMonitor where
  ID : String
  CreatedOn : Option Time
  ModifiedOn : Option Time
  «Type» : String
  Description : String
  Method : String
  Path : String
  Header : GoMap (Slice String)
  Timeout : Int
  Retries : Int
  Interval : Int
  ExpectedBody : String
  ExpectedCodes : String
  FollowRedirects : Bool
  AllowInsecure : Bool
  ProbeZone : String
  deriving DecidableEq, Repr

/-- The zero value of `LoadBalancerMonitor`. -/
def LoadBalancerMonitor.zero : LoadBalancerMonitor :=
  { ID := ""
    CreatedOn := none
    ModifiedOn := none
    «Type» := ""
    Description := ""
    Method := ""
    Path := ""
    Header := GoMap.nil
    Timeout := 0
    Retries := 0
    Interval := 0
    ExpectedBody := ""
    ExpectedCodes := ""
    FollowRedirects := false
    AllowInsecure := false
    ProbeZone := "" }

/-- Modelled from the spec: a `LoadBalancerMonitor` written as JSON, the keys as the test
bodies spell them.  `id`, `created_on` and `modified_on` are left out when unset; every
other key is always written, zero values included, as the test bodies show. -/
def encodeLoadBalancerMonitor (x : LoadBalancerMonitor) : JSON :=
  .object
    (omitEmpty "id" (x.ID == "") (JSON.string x.ID)
      ++ omitEmpty "created_on" x.CreatedOn.isNone (encodePtr encodeTime x.CreatedOn)
      ++ omitEmpty "modified_on" x.ModifiedOn.isNone (encodePtr encodeTime x.ModifiedOn)
      ++ member "type" (JSON.string x.«Type»)
      ++ member "description" (JSON.string x.Description)
      ++ member "method" (JSON.string x.Method)
      ++ member "path" (JSON.string x.Path)
      ++ member "header" (encodeMap (encodeSlice JSON.string) x.Header)
      ++ member "timeout" (encodeInt x.Timeout)
      ++ member "retries" (encodeInt x.Retries)
      ++ member "interval" (encodeInt x.Interval)
      ++ member "expected_body" (JSON.string x.ExpectedBody)
      ++ member "expected_codes" (JSON.string x.ExpectedCodes)
      ++ member "follow_redirects" (JSON.bool x.FollowRedirects)
      ++ member "allow_insecure" (JSON.bool x.AllowInsecure)
      ++ member "probe_zone" (JSON.string x.ProbeZone))

/-- Modelled from the spec: the field of `LoadBalancerMonitor` an object key is bound to, as
the store into it. -/
def LoadBalancerMonitor.field (key : String) :
    Option (JSON → LoadBalancerMonitor → LoadBalancerMonitor × Option JsonError) :=
  if equalFold "id" key then
    some fun v d => let r := decodeString v d.ID; ({ d with ID := r.1 }, r.2)
  else if equalFold "created_on" key then
    some fun v d =>
      let r := decodePtr decodeTime Time.zero v d.CreatedOn
      ({ d with CreatedOn := r.1 }, r.2)
  else if equalFold "modified_on" key then
    some fun v d =>
      let r := decodePtr decodeTime Time.zero v d.ModifiedOn
      ({ d with ModifiedOn := r.1 }, r.2)
  else if equalFold "type" key then
    some fun v d => let r := decodeString v d.«Type»; ({ d with «Type» := r.1 }, r.2)
  else if equalFold "description" key then
    some fun v d => let r := decodeString v d.Description; ({ d with Description := r.1 }, r.2)
  else if equalFold "method" key then
    some fun v d => let r := decodeString v d.Method; ({ d with Method := r.1 }, r.2)
  else if equalFold "path" key then
    some fun v d => let r := decodeString v d.Path; ({ d with Path := r.1 }, r.2)
  else if equalFold "header" key then
    some fun v d =>
      let r := decodeMap (decodeSlice decodeString "" "[]string") Slice.nil
        "map[string][]string" v d.Header
      ({ d with Header := r.1 }, r.2)
  else if equalFold "timeout" key then
    some fun v d => let r := decodeInt v d.Timeout; ({ d with Timeout := r.1 }, r.2)
  else if equalFold "retries" key then
    some fun v d => let r := decodeInt v d.Retries; ({ d with Retries := r.1 }, r.2)
  else if equalFold "interval" key then
    some fun v d => let r := decodeInt v d.Interval; ({ d with Interval := r.1 }, r.2)
  else if equalFold "expected_body" key then
    some fun v d => let r := decodeString v d.ExpectedBody; ({ d with ExpectedBody := r.1 }, r.2)
  else if equalFold "expected_codes" key then
    some fun v d => let r := decodeString v d.ExpectedCodes; ({ d with ExpectedCodes := r.1 }, r.2)
  else if equalFold "follow_redirects" key then
    some fun v d =>
      let r := decodeBool v d.FollowRedirects
      ({ d with FollowRedirects := r.1 }, r.2)
  else if equalFold "allow_insecure" key then
    some fun v d => let r := decodeBool v d.AllowInsecure; ({ d with AllowInsecure := r.1 }, r.2)
  else if equalFold "probe_zone" key then
    some fun v d => let r := decodeString v d.ProbeZone; ({ d with ProbeZone := r.1 }, r.2)
  else none

/-- Modelled from the spec: storing a JSON value into a `LoadBalancerMonitor`. -/
def decodeLoadBalancerMonitor (v : JSON) (cur : LoadBalancerMonitor) :
    LoadBalancerMonitor × Option JsonError :=
  decodeStruct LoadBalancerMonitor.field "cloudflare.LoadBalancerMonitor" v cur

/-- Modelled from the spec: the struct `LoadBalancerRuleOverrides` of `load_balancing.go`,
which is not among the sources: the field of the test literals, under the key of the
`overrides` object of the test bodies. -/
structure LoadBalancerRuleOverrides where
  RegionPools : GoMap (Slice String)
  deriving DecidableEq, Repr

/-- The zero value of `LoadBalancerRuleOverrides`. -/
def LoadBalancerRuleOverrides.zero : LoadBalancerRuleOverrides :=
  { RegionPools := GoMap.nil }

/-- Modelled from the spec: a `LoadBalancerRuleOverrides` written as JSON, the keys as the
test bodies spell them.  Every key is always written. -/
def encodeLoadBalancerRuleOverrides (x : LoadBalancerRuleOverrides) : JSON :=
  .object
    (member "region_pools" (encodeMap (encodeSlice JSON.string) x.RegionPools))

/-- Modelled from the spec: the field of `LoadBalancerRuleOverrides` an object key is bound
to, as the store into it. -/
def LoadBalancerRuleOverrides.field (key : String) :
    Option (JSON → LoadBalancerRuleOverrides → LoadBalancerRuleOverrides × Option JsonError) :=
  if equalFold "region_pools" key then
    some fun v d =>
      let r := decodeMap (decodeSlice decodeString "" "[]string") Slice.nil
        "map[string][]string" v d.RegionPools
      ({ d with RegionPools := r.1 }, r.2)
  else none

/-- Modelled from the spec: storing a JSON value into a `LoadBalancerRuleOverrides`. -/
def decodeLoadBalancerRuleOverrides (v : JSON) (cur : LoadBalancerRuleOverrides) :
    LoadBalancerRuleOverrides × Option JsonError :=
  decodeStruct LoadBalancerRuleOverrides.field "cloudflare.LoadBalancerRuleOverrides" v cur

/-- Modelled from the spec: the struct `LoadBalancerRule` of `load_balancing.go`, which is not
among the sources: the fields of the test literals and the `disabled` and `priority` keys
of the test bodies. -/
structure LoadBalancerRule where
  Name : String
  Condition : String
  Disabled : Bool
  Priority : Int
  Overrides : LoadBalancerRuleOverrides
  deriving DecidableEq, Repr

/-- The zero value of `LoadBalancerRule`. -/
def LoadBalancerRule.zero : LoadBalancerRule :=
  { Name := ""
    Condition := ""
    Disabled := false
    Priority := 0
    Overrides := LoadBalancerRuleOverrides.zero }

/-- Modelled from the spec: a `LoadBalancerRule` written as JSON, the keys as the test
bodies spell them.  Every key is always written. -/
def encodeLoadBalancerRule (x : LoadBalancerRule) : JSON :=
  .object
    (member "name" (JSON.string x.Name)
      ++ member "condition" (JSON.string x.Condition)
      ++ member "disabled" (JSON.bool x.Disabled)
      ++ member "priority" (encodeInt x.Priority)
      ++ member "overrides" (encodeLoadBalancerRuleOverrides x.Overrides))

/-- Modelled from the spec: the field of `LoadBalancerRule` an object key is bound to, as
the store into it. -/
def LoadBalancerRule.field (key : String) :
    Option (JSON → LoadBalancerRule → LoadBalancerRule × Option JsonError) :=
  if equalFold "name" key then
    some fun v d => let r := decodeString v d.Name; ({ d with Name := r.1 }, r.2)
  else if equalFold "condition" key then
    some fun v d => let r := decodeString v d.Condition; ({ d with Condition := r.1 }, r.2)
  else if equalFold "disabled" key then
    some fun v d => let r := decodeBool v d.Disabled; ({ d with Disabled := r.1 }, r.2)
  else if equalFold "priority" key then
    some fun v d => let r := decodeInt v d.Priority; ({ d with Priority := r.1 }, r.2)
  else if equalFold "overrides" key then
    some fun v d =>
      let r := decodeLoadBalancerRuleOverrides v d.Overrides
      ({ d with Overrides := r.1 }, r.2)
  else none

/-- Modelled from the spec: storing a JSON value into a `LoadBalancerRule`. -/
def decodeLoadBalancerRule (v : JSON) (cur : LoadBalancerRule) :
    LoadBalancerRule × Option JsonError :=
  decodeStruct LoadBalancerRule.field "cloudflare.LoadBalancerRule" v cur

/-- Modelled from the spec: the struct `SessionAffinityAttributes` of `load_balancing.go`,
which is not among the sources: the fields of the test literals, under the keys of the
`session_affinity_attributes` object of the test bodies. -/
structure SessionAffinityAttributes where
  SameSite : String
  Secure : String
  DrainDuration : Int
  deriving DecidableEq, Repr

/-- The zero value of `SessionAffinityAttributes`. -/
def SessionAffinityAttributes.zero : SessionAffinityAttributes :=
  { SameSite := ""
    Secure := ""
    DrainDuration := 0 }

/-- Modelled from the spec: a `SessionAffinityAttributes` written as JSON, the keys as the
test bodies spell them.  `drain_duration` is left out when empty, every other key is always
written. -/
def encodeSessionAffinityAttributes (x : SessionAffinityAttributes) : JSON :=
  .object
    (member "samesite" (JSON.string x.SameSite)
      ++ member "secure" (JSON.string x.Secure)
      ++ omitEmpty "drain_duration" (x.DrainDuration == 0) (encodeInt x.DrainDuration))

/-- Modelled from the spec: the field of `SessionAffinityAttributes` an object key is bound
to, as the store into it. -/
def SessionAffinityAttributes.field (key : String) :
    Option (JSON → SessionAffinityAttributes → SessionAffinityAttributes × Option JsonError) :=
  if equalFold "samesite" key then
    some fun v d => let r := decodeString v d.SameSite; ({ d with SameSite := r.1 }, r.2)
  else if equalFold "secure" key then
    some fun v d => let r := decodeString v d.Secure; ({ d with Secure := r.1 }, r.2)
  else if equalFold "drain_duration" key then
    some fun v d => let r := decodeInt v d.DrainDuration; ({ d with DrainDuration := r.1 }, r.2)
  else none

/-- Modelled from the spec: storing a JSON value into a `SessionAffinityAttributes`. -/
def decodeSessionAffinityAttributes (v : JSON) (cur : SessionAffinityAttributes) :
    SessionAffinityAttributes × Option JsonError :=
  decodeStruct SessionAffinityAttributes.field "cloudflare.SessionAffinityAttributes" v cur

/-- Modelled from the spec: the struct `LoadBalancer` of `load_balancing.go`, which is not
among the sources: the fields of the test literals, under the keys of the test bodies
(`Persistence` is `session_affinity`, `PersistenceTTL` is `session_affinity_ttl`). -/
structure LoadBalancer where
  ID : String
  CreatedOn : Option Time
  ModifiedOn : Option Time
  Description : String
  Name : String
  TTL : Int
  FallbackPool : String
  DefaultPools : Slice String
  RegionPools : GoMap (Slice String)
  PopPools : GoMap (Slice String)
  Rules : Slice (Option LoadBalancerRule)
  Proxied : Bool
  Persistence : String
  PersistenceTTL : Int
  SessionAffinityAttributes : Option SessionAffinityAttributes
  deriving DecidableEq, Repr

/-- The zero value of `LoadBalancer`. -/
def LoadBalancer.zero : LoadBalancer :=
  { ID := ""
    CreatedOn := none
    ModifiedOn := none
    Description := ""
    Name := ""
    TTL := 0
    FallbackPool := ""
    DefaultPools := Slice.nil
    RegionPools := GoMap.nil
    PopPools := GoMap.nil
    Rules := Slice.nil
    Proxied := false
    Persistence := ""
    PersistenceTTL := 0
    SessionAffinityAttributes := none }

/-- Modelled from the spec: a `LoadBalancer` written as JSON, the keys as the test bodies
spell them.  An optional field is left out when absent; so are `id`, `rules` and
`session_affinity_ttl` when empty, as the test bodies show; every other key is always
written. -/
def encodeLoadBalancer (x : LoadBalancer) : JSON :=
  .object
    (omitEmpty "id" (x.ID == "") (JSON.string x.ID)
      ++ omitEmpty "created_on" x.CreatedOn.isNone (encodePtr encodeTime x.CreatedOn)
      ++ omitEmpty "modified_on" x.ModifiedOn.isNone (encodePtr encodeTime x.ModifiedOn)
      ++ member "description" (JSON.string x.Description)
      ++ member "name" (JSON.string x.Name)
      ++ member "ttl" (encodeInt x.TTL)
      ++ member "fallback_pool" (JSON.string x.FallbackPool)
      ++ member "default_pools" (encodeSlice JSON.string x.DefaultPools)
      ++ member "region_pools" (encodeMap (encodeSlice JSON.string) x.RegionPools)
      ++ member "pop_pools" (encodeMap (encodeSlice JSON.string) x.PopPools)
      ++ omitEmpty "rules" (x.Rules.len == 0)
          (encodeSlice (encodePtr encodeLoadBalancerRule) x.Rules)
      ++ member "proxied" (JSON.bool x.Proxied)
      ++ member "session_affinity" (JSON.string x.Persistence)
      ++ omitEmpty "session_affinity_ttl" (x.PersistenceTTL == 0) (encodeInt x.PersistenceTTL)
      ++ omitEmpty "session_affinity_attributes" x.SessionAffinityAttributes.isNone
          (encodePtr encodeSessionAffinityAttributes x.SessionAffinityAttributes))

/-- Modelled from the spec: the field of `LoadBalancer` an object key is bound to, as the
store into it. -/
def LoadBalancer.field (key : String) :
    Option (JSON → LoadBalancer → LoadBalancer × Option JsonError) :=
  if equalFold "id" key then
    some fun v d => let r := decodeString v d.ID; ({ d with ID := r.1 }, r.2)
  else if equalFold "created_on" key then
    some fun v d =>
      let r := decodePtr decodeTime Time.zero v d.CreatedOn
      ({ d with CreatedOn := r.1 }, r.2)
  else if equalFold "modified_on" key then
    some fun v d =>
      let r := decodePtr decodeTime Time.zero v d.ModifiedOn
      ({ d with ModifiedOn := r.1 }, r.2)
  else if equalFold "description" key then
    some fun v d => let r := decodeString v d.Description; ({ d with Description := r.1 }, r.2)
  else if equalFold "name" key then
    some fun v d => let r := decodeString v d.Name; ({ d with Name := r.1 }, r.2)
  else if equalFold "ttl" key then
    some fun v d => let r := decodeInt v d.TTL; ({ d with TTL := r.1 }, r.2)
  else if equalFold "fallback_pool" key then
    some fun v d => let r := decodeString v d.FallbackPool; ({ d with FallbackPool := r.1 }, r.2)
  else if equalFold "default_pools" key then
    some fun v d =>
      let r := decodeSlice decodeString "" "[]string" v d.DefaultPools
      ({ d with DefaultPools := r.1 }, r.2)
  else if equalFold "region_pools" key then
    some fun v d =>
      let r := decodeMap (decodeSlice decodeString "" "[]string") Slice.nil
        "map[string][]string" v d.RegionPools
      ({ d with RegionPools := r.1 }, r.2)
  else if equalFold "pop_pools" key then
    some fun v d =>
      let r := decodeMap (decodeSlice decodeString "" "[]string") Slice.nil
        "map[string][]string" v d.PopPools
      ({ d with PopPools := r.1 }, r.2)
  else if equalFold "rules" key then
    some fun v d =>
      let r := decodeSlice (decodePtr decodeLoadBalancerRule LoadBalancerRule.zero) none
        "[]*cloudflare.LoadBalancerRule" v d.Rules
      ({ d with Rules := r.1 }, r.2)
  else if equalFold "proxied" key then
    some fun v d => let r := decodeBool v d.Proxied; ({ d with Proxied := r.1 }, r.2)
  else if equalFold "session_affinity" key then
    some fun v d => let r := decodeString v d.Persistence; ({ d with Persistence := r.1 }, r.2)
  else if equalFold "session_affinity_ttl" key then
    some fun v d => let r := decodeInt v d.PersistenceTTL; ({ d with PersistenceTTL := r.1 }, r.2)
  else if equalFold "session_affinity_attributes" key then
    some fun v d =>
      let r := decodePtr decodeSessionAffinityAttributes
        SessionAffinityAttributes.zero v d.SessionAffinityAttributes
      ({ d with SessionAffinityAttributes := r.1 }, r.2)
  else none

/-- Modelled from the spec: storing a JSON value into a `LoadBalancer`. -/
def decodeLoadBalancer (v : JSON) (cur : LoadBalancer) :
    LoadBalancer × Option JsonError :=
  decodeStruct LoadBalancer.field "cloudflare.LoadBalancer" v cur

/-! ## The envelope and error layer

The request layer of the package is not among the sources.  This part is modelled from the
spec (§4.1, §6, §7): the transport collaborator, the envelope, `Execute`, and the message
text of the errors. -/

/-- Modelled from the spec: the pagination descriptor `result_info` of the envelope, whose
declaration is not among the sources: `page`, `per_page`, `count`, `total_count`. -/
structure ResultInfo where
  Page : Int
  PerPage : Int
  Count : Int
  TotalCount : Int
  deriving DecidableEq, Repr

/-- The zero value of `ResultInfo`. -/
def ResultInfo.zero : ResultInfo := ⟨0, 0, 0, 0⟩

/-- Modelled from the spec: the field of `ResultInfo` an object key is bound to. -/
def ResultInfo.field (key : String) :
    Option (JSON → ResultInfo → ResultInfo × Option JsonError) :=
  if equalFold "page" key then
    some fun v d => let r := decodeInt v d.Page; ({ d with Page := r.1 }, r.2)
  else if equalFold "per_page" key then
    some fun v d => let r := decodeInt v d.PerPage; ({ d with PerPage := r.1 }, r.2)
  else if equalFold "count" key then
    some fun v d => let r := decodeInt v d.Count; ({ d with Count := r.1 }, r.2)
  else if equalFold "total_count" key then
    some fun v d => let r := decodeInt v d.TotalCount; ({ d with TotalCount := r.1 }, r.2)
  else none

/-- Modelled from the spec: storing a JSON value into a `ResultInfo`. -/
def decodeResultInfo (v : JSON) (cur : ResultInfo) : ResultInfo × Option JsonError :=
  decodeStruct ResultInfo.field "cloudflare.ResultInfo" v cur

/-- Modelled from the spec: the envelope that wraps every API call outcome, whose
declaration is not among the sources: `success`, `errors`, `messages`, the `result`
payload kept as it stands, and the optional `result_info`. -/
structure Envelope where
  Success : Bool
  Errors : Slice ResponseInfo
  Messages : Slice String
  Result : JSON
  ResultInfo : Option ResultInfo

/-- The zero value of `Envelope`. -/
def Envelope.zero : Envelope := ⟨false, .nil, .nil, .null, none⟩

/-- Modelled from the spec: the field of `Envelope` an object key is bound to.  The
`result` payload is kept undecoded, whatever it is. -/
def Envelope.field (key : String) : Option (JSON → Envelope → Envelope × Option JsonError) :=
  if equalFold "success" key then
    some fun v d => let r := decodeBool v d.Success; ({ d with Success := r.1 }, r.2)
  else if equalFold "errors" key then
    some fun v d =>
      let r := decodeSlice decodeResponseInfo ResponseInfo.zero "[]cloudflare.ResponseInfo" v
        d.Errors
      ({ d with Errors := r.1 }, r.2)
  else if equalFold "messages" key then
    some fun v d =>
      let r := decodeSlice decodeString "" "[]string" v d.Messages
      ({ d with Messages := r.1 }, r.2)
  else if equalFold "result" key then
    some fun v d => ({ d with Result := v }, none)
  else if equalFold "result_info" key then
    some fun v d =>
      let r := decodePtr decodeResultInfo ResultInfo.zero v d.ResultInfo
      ({ d with ResultInfo := r.1 }, r.2)
  else none

/-- Modelled from the spec: decoding a response body into the envelope. -/
def decodeEnvelope (v : JSON) (cur : Envelope) : Envelope × Option JsonError :=
  decodeStruct Envelope.field "cloudflare.Envelope" v cur

/-- Modelled from the spec: the transport and authentication collaborator (§6), which
performs the HTTP exchange: `do(verb, path, body) → (status, bytes, error)`.  The body is
absent for a request without one; `σ` is the state the exchange may read and write. -/
structure Transport (σ : Type) where
  doRequest : Context → String → String → Option JSON → σ → (Nat × Bytes × Option String) × σ

/-- The message text of an error of `encoding/json`. -/
def JsonError.text : JsonError → String
  | .syntaxError msg => msg
  | .unmarshalTypeError value goType =>
    "json: cannot unmarshal " ++ value ++ " into Go value of type " ++ goType

/-- Whether an HTTP status is a 2xx status. -/
def isSuccessStatus (status : Nat) : Bool := decide (200 ≤ status ∧ status < 300)

/-- Modelled from the spec: `Execute(verb, path, body) → (result, error)` (§4.1).  One
request is issued.  A transport failure or a body that cannot be read as an envelope gives
a `RequestError` wrapping the cause; a non-2xx status or `success: false` gives an
`APIError` with every entry of `errors` in order; otherwise the `result` payload is
returned as it stands. -/
def Execute {σ : Type} (t : Transport σ) (ctx : Context) (verb path : String)
    (body : Option JSON) (s : σ) : (JSON × Option GoError) × σ :=
  let r := t.doRequest ctx verb path body s
  match r.1.2.2 with
  | some cause => ((.null, some (.requestError cause)), r.2)
  | none =>
    match r.1.2.1 with
    | .malformed msg => ((.null, some (.requestError msg)), r.2)
    | .text doc =>
      let env := decodeEnvelope doc Envelope.zero
      match env.2 with
      | some je => ((.null, some (.requestError je.text)), r.2)
      | none =>
        if isSuccessStatus r.1.1 && env.1.Success then ((env.1.Result, none), r.2)
        else ((.null, some (.apiError env.1.Errors.toList)), r.2)

/-- Modelled from the spec: one remote error as it stands in the message text of an
`APIError`: its message, then its code in parentheses. -/
def ResponseInfo.text (e : ResponseInfo) : String :=
  e.Message ++ " (" ++ toString e.Code ++ ")"

/-- Modelled from the spec: the message text of an `APIError`: every remote error, in
order, separated by `", "`. -/
def apiErrorText : List ResponseInfo → String
  | [] => ""
  | [e] => e.text
  | e :: es => e.text ++ ", " ++ apiErrorText es

/-- Go `err.Error()`: the message text of an error.  The text of an `APIError` is modelled
from the spec; `errors.Wrap` puts its message before the text of the cause. -/
def GoError.Error : GoError → String
  | .requestError cause => cause
  | .apiError errs => apiErrorText errs
  | .json e => e.text
  | .withMessage cause message => message ++ ": " ++ cause.Error

/-! ## The endpoint methods of the load-balancing API

Modelled from the spec (§4.2): each method selects verb and path, calls `Execute`, and
unmarshals `result` into its typed struct, returning it or the error unchanged.  Paths and
verbs are those of the test file. -/

/-- Go `http.MethodPost`. -/
def MethodPost : String := "POST"

/-- Go `http.MethodDelete`. -/
def MethodDelete : String := "DELETE"

/-- Modelled from the spec: the second stage of every endpoint method (§4.1, §7): the
error of `Execute` is returned unchanged with the zero value; otherwise `result` is decoded
into the typed struct, and a decode failure is an unmarshal error with the zero value. -/
def unmarshalResult {α : Type} (decode : JSON → α → α × Option JsonError) (zero : α)
    (r : JSON × Option GoError) : α × Option GoError :=
  match r.2 with
  | some err => (zero, some err)
  | none =>
    let u := decode r.1 zero
    match u.2 with
    | some je => (zero, some (.json je))
    | none => (u.1, none)

/-- Modelled from the spec: an endpoint method with a typed result: `Execute`, then
`unmarshalResult`. -/
def callEndpoint {σ α : Type} (decode : JSON → α → α × Option JsonError) (zero : α)
    (t : Transport σ) (ctx : Context) (verb path : String) (body : Option JSON) (s : σ) :
    (α × Option GoError) × σ :=
  let r := Execute t ctx verb path body s
  (unmarshalResult decode zero r.1, r.2)

/-- Modelled from the spec: `CreateLoadBalancerPool(ctx, pool)`, which is not among the
sources: POST of the pool to the pool collection. -/
def CreateLoadBalancerPool {σ : Type} (t : Transport σ) (ctx : Context)
    (pool : LoadBalancerPool) (s : σ) : (LoadBalancerPool × Option GoError) × σ :=
  callEndpoint decodeLoadBalancerPool LoadBalancerPool.zero t ctx MethodPost
    "/user/load_balancers/pools" (some (encodeLoadBalancerPool pool)) s

/-- Modelled from the spec: `ListLoadBalancerPools(ctx)`, which is not among the sources:
GET of the pool collection, without a body. -/
def ListLoadBalancerPools {σ : Type} (t : Transport σ) (ctx : Context) (s : σ) :
    (Slice LoadBalancerPool × Option GoError) × σ :=
  callEndpoint
    (decodeSlice decodeLoadBalancerPool LoadBalancerPool.zero "[]cloudflare.LoadBalancerPool")
    Slice.nil t ctx MethodGet "/user/load_balancers/pools" none s

/-- Modelled from the spec: `LoadBalancerPoolDetails(ctx, poolID)`, which is not among the
sources: GET of the pool's path, without a body. -/
def LoadBalancerPoolDetails {σ : Type} (t : Transport σ) (ctx : Context) (poolID : String)
    (s : σ) : (LoadBalancerPool × Option GoError) × σ :=
  callEndpoint decodeLoadBalancerPool LoadBalancerPool.zero t ctx MethodGet
    ("/user/load_balancers/pools/" ++ poolID) none s

/-- Modelled from the spec: `DeleteLoadBalancerPool(ctx, poolID)`, which is not among the
sources: DELETE of the pool's path; only the error is returned. -/
def DeleteLoadBalancerPool {σ : Type} (t : Transport σ) (ctx : Context) (poolID : String)
    (s : σ) : Option GoError × σ :=
  let r := Execute t ctx MethodDelete ("/user/load_balancers/pools/" ++ poolID) none s
  (r.1.2, r.2)

/-- Modelled from the spec: `ModifyLoadBalancerPool(ctx, pool)`, which is not among the
sources: PUT of the pool to the path of the pool named by its `ID`. -/
def ModifyLoadBalancerPool {σ : Type} (t : Transport σ) (ctx : Context)
    (pool : LoadBalancerPool) (s : σ) : (LoadBalancerPool × Option GoError) × σ :=
  callEndpoint decodeLoadBalancerPool LoadBalancerPool.zero t ctx MethodPut
    ("/user/load_balancers/pools/" ++ pool.ID) (some (encodeLoadBalancerPool pool)) s

/-- Modelled from the spec: `CreateLoadBalancerMonitor(ctx, monitor)`, which is not among
the sources: POST of the monitor to the monitor collection. -/
def CreateLoadBalancerMonitor {σ : Type} (t : Transport σ) (ctx : Context)
    (monitor : LoadBalancerMonitor) (s : σ) : (LoadBalancerMonitor × Option GoError) × σ :=
  callEndpoint decodeLoadBalancerMonitor LoadBalancerMonitor.zero t ctx MethodPost
    "/user/load_balancers/monitors" (some (encodeLoadBalancerMonitor monitor)) s

/-- Modelled from the spec: `ListLoadBalancerMonitors(ctx)`, which is not among the
sources: GET of the monitor collection, without a body. -/
def ListLoadBalancerMonitors {σ : Type} (t : Transport σ) (ctx : Context) (s : σ) :
    (Slice LoadBalancerMonitor × Option GoError) × σ :=
  callEndpoint
    (decodeSlice decodeLoadBalancerMonitor LoadBalancerMonitor.zero
      "[]cloudflare.LoadBalancerMonitor")
    Slice.nil t ctx MethodGet "/user/load_balancers/monitors" none s

/-- Modelled from the spec: `LoadBalancerMonitorDetails(ctx, monitorID)`, which is not
among the sources: GET of the monitor's path, without a body. -/
def LoadBalancerMonitorDetails {σ : Type} (t : Transport σ) (ctx : Context)
    (monitorID : String) (s : σ) : (LoadBalancerMonitor × Option GoError) × σ :=
  callEndpoint decodeLoadBalancerMonitor LoadBalancerMonitor.zero t ctx MethodGet
    ("/user/load_balancers/monitors/" ++ monitorID) none s

/-- Modelled from the spec: `DeleteLoadBalancerMonitor(ctx, monitorID)`, which is not among
the sources: DELETE of the monitor's path; only the error is returned. -/
def DeleteLoadBalancerMonitor {σ : Type} (t : Transport σ) (ctx : Context)
    (monitorID : String) (s : σ) : Option GoError × σ :=
  let r := Execute t ctx MethodDelete ("/user/load_balancers/monitors/" ++ monitorID) none s
  (r.1.2, r.2)

/-- Modelled from the spec: `ModifyLoadBalancerMonitor(ctx, monitor)`, which is not among
the sources: PUT of the monitor to the path of the monitor named by its `ID`. -/
def ModifyLoadBalancerMonitor {σ : Type} (t : Transport σ) (ctx : Context)
    (monitor : LoadBalancerMonitor) (s : σ) : (LoadBalancerMonitor × Option GoError) × σ :=
  callEndpoint decodeLoadBalancerMonitor LoadBalancerMonitor.zero t ctx MethodPut
    ("/user/load_balancers/monitors/" ++ monitor.ID)
    (some (encodeLoadBalancerMonitor monitor)) s

/-- Modelled from the spec: `CreateLoadBalancer(ctx, zoneID, lb)`, which is not among the
sources: POST of the load balancer to the zone's collection. -/
def CreateLoadBalancer {σ : Type} (t : Transport σ) (ctx : Context) (zoneID : String)
    (lb : LoadBalancer) (s : σ) : (LoadBalancer × Option GoError) × σ :=
  callEndpoint decodeLoadBalancer LoadBalancer.zero t ctx MethodPost
    ("/zones/" ++ zoneID ++ "/load_balancers") (some (encodeLoadBalancer lb)) s

/-- Modelled from the spec: `ListLoadBalancers(ctx, zoneID)`, which is not among the
sources: GET of the zone's collection, without a body. -/
def ListLoadBalancers {σ : Type} (t : Transport σ) (ctx : Context) (zoneID : String)
    (s : σ) : (Slice LoadBalancer × Option GoError) × σ :=
  callEndpoint (decodeSlice decodeLoadBalancer LoadBalancer.zero "[]cloudflare.LoadBalancer")
    Slice.nil t ctx MethodGet ("/zones/" ++ zoneID ++ "/load_balancers") none s

/-- Modelled from the spec: `LoadBalancerDetails(ctx, zoneID, lbID)`, which is not among
the sources: GET of the load balancer's path, without a body. -/
def LoadBalancerDetails {σ : Type} (t : Transport σ) (ctx : Context) (zoneID lbID : String)
    (s : σ) : (LoadBalancer × Option GoError) × σ :=
  callEndpoint decodeLoadBalancer LoadBalancer.zero t ctx MethodGet
    ("/zones/" ++ zoneID ++ "/load_balancers/" ++ lbID) none s

/-- Modelled from the spec: `DeleteLoadBalancer(ctx, zoneID, lbID)`, which is not among the
sources: DELETE of the load balancer's path; only the error is returned. -/
def DeleteLoadBalancer {σ : Type} (t : Transport σ) (ctx : Context) (zoneID lbID : String)
    (s : σ) : Option GoError × σ :=
  let r := Execute t ctx MethodDelete ("/zones/" ++ zoneID ++ "/load_balancers/" ++ lbID)
    none s
  (r.1.2, r.2)

/-- Modelled from the spec: `ModifyLoadBalancer(ctx, zoneID, lb)`, which is not among the
sources: PUT of the load balancer to the path of the load balancer named by its `ID`. -/
def ModifyLoadBalancer {σ : Type} (t : Transport σ) (ctx : Context) (zoneID : String)
    (lb : LoadBalancer) (s : σ) : (LoadBalancer × Option GoError) × σ :=
  callEndpoint decodeLoadBalancer LoadBalancer.zero t ctx MethodPut
    ("/zones/" ++ zoneID ++ "/load_balancers/" ++ lb.ID) (some (encodeLoadBalancer lb)) s

/-! ## Observing the transport -/

/-- One exchange with the transport: the arguments it was given. -/
structure Exchange where
  ctx : Context
  verb : String
  path : String
  body : Option JSON

/-- The same transport, also appending every exchange to a log kept next to its state. -/
def Transport.recording {σ : Type} (t : Transport σ) : Transport (σ × List Exchange) where
  doRequest := fun ctx verb path body st =>
    let r := t.doRequest ctx verb path body st.1
    (r.1, (r.2, st.2 ++ [⟨ctx, verb, path, body⟩]))

/-- The server of the test file: a handler registered for one path, which answers every
request to it with status 200 and the given body; a request to any other path is answered
with status 404 and a body that is not JSON. -/
def Transport.mux (path : String) (body : Bytes) : Transport Unit where
  doRequest := fun _ _ p _ s =>
    if p = path then ((200, body, none), s)
    else ((404, .malformed "404 page not found", none), s)

/-! ## The data of the test file

The request structs, the request bodies the handlers expect, the response bodies they
write, and the structs the tests want back, as `load_balancing_test.go` has them. -/

/-- The `request` of `TestCreateLoadBalancerPool`. -/
def createPoolRequest : LoadBalancerPool :=
  { LoadBalancerPool.zero with
    Description := "Primary data center - Provider XYZ"
    Name := "primary-dc-1"
    Enabled := true
    Healthy := true
    Monitor := "f1aba936b94213e5b8dca0c0dbf1f9cc"
    Latitude := some (.int 55)
    Longitude := some (.frac "-12.5")
    LoadShedding := some
      { DefaultPercent := .int 50, DefaultPolicy := "random"
        SessionPercent := .int 10, SessionPolicy := "hash" }
    OriginSteering := some { Policy := "random" }
    Origins := .elems
      [{ Name := "app-server-1", Address := "0.0.0.0", Enabled := true, Weight := .int 1
         Header := .entries [("Host", .elems ["example.com"])] }]
    NotificationEmail := "someone@example.com"
    CheckRegions := .elems ["WEU"] }

/-- The request body the handler of `TestCreateLoadBalancerPool` expects. -/
def createPoolBody : JSON :=
  .object
    [("description", .string "Primary data center - Provider XYZ"),
     ("name", .string "primary-dc-1"),
     ("enabled", .bool true),
     ("healthy", .bool true),
     ("monitor", .string "f1aba936b94213e5b8dca0c0dbf1f9cc"),
     ("latitude", .number (.int 55)),
     ("longitude", .number (.frac "-12.5")),
     ("load_shedding", .object
       [("default_percent", .number (.int 50)),
        ("default_policy", .string "random"),
        ("session_percent", .number (.int 10)),
        ("session_policy", .string "hash")]),
     ("origin_steering", .object [("policy", .string "random")]),
     ("origins", .array
       [.object
          [("name", .string "app-server-1"),
           ("address", .string "0.0.0.0"),
           ("enabled", .bool true),
           ("weight", .number (.int 1)),
           ("header", .object [("Host", .array [.string "example.com"])])]]),
     ("notification_email", .string "someone@example.com"),
     ("check_regions", .array [.string "WEU"])]

/-- The response body the handler of `TestCreateLoadBalancerPool` writes. -/
def createPoolResponse : Bytes :=
  .text
    (.object
      [("success", .bool true),
       ("errors", .array []),
       ("messages", .array []),
       ("result", .object
         [("id", .string "17b5962d775c646f3f9725cbc7a53df4"),
          ("created_on", .string "2014-01-01T05:20:00.12345Z"),
          ("modified_on", .string "2014-02-01T05:20:00.12345Z"),
          ("description", .string "Primary data center - Provider XYZ"),
          ("name", .string "primary-dc-1"),
          ("enabled", .bool true),
          ("healthy", .bool true),
          ("minimum_origins", .number (.int 1)),
          ("monitor", .string "f1aba936b94213e5b8dca0c0dbf1f9cc"),
          ("latitude", .number (.int 55)),
          ("longitude", .number (.frac "-12.5")),
          ("load_shedding", .object
            [("default_percent", .number (.int 50)),
             ("default_policy", .string "random"),
             ("session_percent", .number (.int 10)),
             ("session_policy", .string "hash")]),
          ("origin_steering", .object [("policy", .string "random")]),
          ("origins", .array
            [.object
               [("name", .string "app-server-1"),
                ("address", .string "0.0.0.0"),
                ("enabled", .bool true),
                ("weight", .number (.int 1)),
                ("header", .object [("Host", .array [.string "example.com"])])]]),
          ("notification_email", .string "someone@example.com"),
          ("check_regions", .array [.string "WEU"])])])

/-- The `want` of `TestCreateLoadBalancerPool`. -/
def createPoolWant : LoadBalancerPool :=
  { createPoolRequest with
    ID := "17b5962d775c646f3f9725cbc7a53df4"
    CreatedOn := parseRFC3339 "2014-01-01T05:20:00.12345Z"
    ModifiedOn := parseRFC3339 "2014-02-01T05:20:00.12345Z"
    MinimumOrigins := 1 }

/-- The `request` of `TestModifyLoadBalancerPool`: `Latitude`, `Longitude`, `LoadShedding`,
`Monitor` and `MinimumOrigins` are not set. -/
def modifyPoolRequest : LoadBalancerPool :=
  { LoadBalancerPool.zero with
    ID := "17b5962d775c646f3f9725cbc7a53df4"
    Description := "Primary data center - Provider XYZZY"
    Name := "primary-dc-2"
    Enabled := false
    OriginSteering := some { Policy := "random" }
    Origins := .elems
      [{ Name := "app-server-2", Address := "0.0.0.1", Enabled := false, Weight := .int 1
         Header := .entries [("Host", .elems ["example.com"])] }]
    NotificationEmail := "nobody@example.com"
    CheckRegions := .elems ["WEU"] }

/-- The request body the handler of `TestModifyLoadBalancerPool` expects. -/
def modifyPoolBody : JSON :=
  .object
    [("id", .string "17b5962d775c646f3f9725cbc7a53df4"),
     ("description", .string "Primary data center - Provider XYZZY"),
     ("name", .string "primary-dc-2"),
     ("enabled", .bool false),
     ("healthy", .bool false),
     ("origin_steering", .object [("policy", .string "random")]),
     ("origins", .array
       [.object
          [("name", .string "app-server-2"),
           ("address", .string "0.0.0.1"),
           ("enabled", .bool false),
           ("weight", .number (.int 1)),
           ("header", .object [("Host", .array [.string "example.com"])])]]),
     ("notification_email", .string "nobody@example.com"),
     ("check_regions", .array [.string "WEU"])]

/-- The response body the handler of `TestLoadBalancerPoolDetails` writes. -/
def poolDetailsResponse : Bytes :=
  .text
    (.object
      [("success", .bool true),
       ("errors", .array []),
       ("messages", .array []),
       ("result", .object
         [("id", .string "17b5962d775c646f3f9725cbc7a53df4"),
          ("created_on", .string "2014-01-01T05:20:00.12345Z"),
          ("modified_on", .string "2014-02-01T05:20:00.12345Z"),
          ("description", .string "Primary data center - Provider XYZ"),
          ("name", .string "primary-dc-1"),
          ("enabled", .bool true),
          ("healthy", .bool true),
          ("monitor", .string "f1aba936b94213e5b8dca0c0dbf1f9cc"),
          ("origin_steering", .object [("policy", .string "random")]),
          ("origins", .array
            [.object
               [("name", .string "app-server-1"),
                ("address", .string "0.0.0.0"),
                ("enabled", .bool true),
                ("weight", .number (.int 1))]]),
          ("notification_email", .string "someone@example.com")])])

/-- The `want` of `TestLoadBalancerPoolDetails`. -/
def poolDetailsWant : LoadBalancerPool :=
  { LoadBalancerPool.zero with
    ID := "17b5962d775c646f3f9725cbc7a53df4"
    CreatedOn := parseRFC3339 "2014-01-01T05:20:00.12345Z"
    ModifiedOn := parseRFC3339 "2014-02-01T05:20:00.12345Z"
    Description := "Primary data center - Provider XYZ"
    Name := "primary-dc-1"
    Enabled := true
    Healthy := true
    Monitor := "f1aba936b94213e5b8dca0c0dbf1f9cc"
    OriginSteering := some { Policy := "random" }
    Origins := .elems
      [{ Name := "app-server-1", Address := "0.0.0.0", Enabled := true, Weight := .int 1
         Header := .nil }]
    NotificationEmail := "someone@example.com" }

/-- The response body the handler of `TestDeleteLoadBalancerPool` writes. -/
def deletePoolResponse : Bytes :=
  .text
    (.object
      [("success", .bool true),
       ("errors", .array []),
       ("messages", .array []),
       ("result", .object [("id", .string "17b5962d775c646f3f9725cbc7a53df4")])])

/-- The response body the handler of `TestListLoadBalancerPools` writes: one pool, and a
`result_info` with page 1, per_page 20, count 1, total_count 2000. -/
def listPoolsResponse : Bytes :=
  .text
    (.object
      [("success", .bool true),
       ("errors", .array []),
       ("messages", .array []),
       ("result", .array
         [.object
            [("id", .string "17b5962d775c646f3f9725cbc7a53df4"),
             ("created_on", .string "2014-01-01T05:20:00.12345Z"),
             ("modified_on", .string "2014-02-01T05:20:00.12345Z"),
             ("description", .string "Primary data center - Provider XYZ"),
             ("name", .string "primary-dc-1"),
             ("enabled", .bool true),
             ("healthy", .bool true),
             ("monitor", .string "f1aba936b94213e5b8dca0c0dbf1f9cc"),
             ("origin_steering", .object [("policy", .string "random")]),
             ("origins", .array
               [.object
                  [("name", .string "app-server-1"),
                   ("address", .string "0.0.0.0"),
                   ("enabled", .bool true),
                   ("weight", .number (.int 1))]]),
             ("notification_email", .string "someone@example.com")]]),
       ("result_info", .object
         [("page", .number (.int 1)),
          ("per_page", .number (.int 20)),
          ("count", .number (.int 1)),
          ("total_count", .number (.int 2000))])])

/-- The monitor the tests of the monitor methods share. -/
def testMonitor : LoadBalancerMonitor :=
  { LoadBalancerMonitor.zero with
    «Type» := "https"
    Description := "Login page monitor"
    Method := "GET"
    Path := "/health"
    Header := .entries [("Host", .elems ["example.com"]), ("X-App-ID", .elems ["abc123"])]
    Timeout := 3
    Retries := 0
    Interval := 90
    ExpectedBody := "alive"
    ExpectedCodes := "2xx" }

/-- The `request` of `TestCreateLoadBalancerMonitor`: `Retries` is 0 and `ProbeZone` is not
set. -/
def createMonitorRequest : LoadBalancerMonitor :=
  { testMonitor with FollowRedirects := true, AllowInsecure := true }

/-- The request body the handler of `TestCreateLoadBalancerMonitor` expects. -/
def createMonitorBody : JSON :=
  .object
    [("type", .string "https"),
     ("description", .string "Login page monitor"),
     ("method", .string "GET"),
     ("path", .string "/health"),
     ("header", .object
       [("Host", .array [.string "example.com"]),
        ("X-App-ID", .array [.string "abc123"])]),
     ("timeout", .number (.int 3)),
     ("retries", .number (.int 0)),
     ("interval", .number (.int 90)),
     ("expected_body", .string "alive"),
     ("expected_codes", .string "2xx"),
     ("follow_redirects", .bool true),
     ("allow_insecure", .bool true),
     ("probe_zone", .string "")]

/-- The `request` of `TestModifyLoadBalancerMonitor`. -/
def modifyMonitorRequest : LoadBalancerMonitor :=
  { createMonitorRequest with
    ID := "f1aba936b94213e5b8dca0c0dbf1f9cc"
    «Type» := "http"
    Path := "/status"
    Header := .entries [("Host", .elems ["example.com"]), ("X-App-ID", .elems ["easy"])]
    ExpectedBody := "kicking"
    ExpectedCodes := "200" }

/-- The request body the handler of `TestModifyLoadBalancerMonitor` expects. -/
def modifyMonitorBody : JSON :=
  .object
    [("id", .string "f1aba936b94213e5b8dca0c0dbf1f9cc"),
     ("type", .string "http"),
     ("description", .string "Login page monitor"),
     ("method", .string "GET"),
     ("path", .string "/status"),
     ("header", .object
       [("Host", .array [.string "example.com"]),
        ("X-App-ID", .array [.string "easy"])]),
     ("timeout", .number (.int 3)),
     ("retries", .number (.int 0)),
     ("interval", .number (.int 90)),
     ("expected_body", .string "kicking"),
     ("expected_codes", .string "200"),
     ("follow_redirects", .bool true),
     ("allow_insecure", .bool true),
     ("probe_zone", .string "")]

/-- The response body the handler of `TestListLoadBalancerMonitors` writes: one monitor, and
a `result_info` with page 1, per_page 20, count 1, total_count 2000. -/
def listMonitorsResponse : Bytes :=
  .text
    (.object
      [("success", .bool true),
       ("errors", .array []),
       ("messages", .array []),
       ("result", .array
         [.object
            [("id", .string "f1aba936b94213e5b8dca0c0dbf1f9cc"),
             ("created_on", .string "2014-01-01T05:20:00.12345Z"),
             ("modified_on", .string "2014-02-01T05:20:00.12345Z"),
             ("type", .string "https"),
             ("description", .string "Login page monitor"),
             ("method", .string "GET"),
             ("path", .string "/health"),
             ("header", .object
               [("Host", .array [.string "example.com"]),
                ("X-App-ID", .array [.string "abc123"])]),
             ("timeout", .number (.int 3)),
             ("retries", .number (.int 0)),
             ("interval", .number (.int 90)),
             ("expected_body", .string "alive"),
             ("expected_codes", .string "2xx")]]),
       ("result_info", .object
         [("page", .number (.int 1)),
          ("per_page", .number (.int 20)),
          ("count", .number (.int 1)),
          ("total_count", .number (.int 2000))])])

/-- The response body the handler of `TestListLoadBalancers` writes: one load balancer, and a
`result_info` with page 1, per_page 20, count 1, total_count 2000. -/
def listLoadBalancersResponse : Bytes :=
  .text
    (.object
      [("success", .bool true),
       ("errors", .array []),
       ("messages", .array []),
       ("result", .array
         [.object
            [("id", .string "699d98642c564d2e855e9661899b7252"),
             ("created_on", .string "2014-01-01T05:20:00.12345Z"),
             ("modified_on", .string "2014-02-01T05:20:00.12345Z"),
             ("description", .string "Load Balancer for www.example.com"),
             ("name", .string "www.example.com"),
             ("ttl", .number (.int 30)),
             ("fallback_pool", .string "17b5962d775c646f3f9725cbc7a53df4"),
             ("default_pools", .array
               [.string "de90f38ced07c2e2f4df50b1f61d4194",
                .string "9290f38c5d07c2e2f4df57b1f61d4196",
                .string "00920f38ce07c2e2f4df50b1f61d4194"]),
             ("region_pools", .object
               [("WNAM", .array
                  [.string "de90f38ced07c2e2f4df50b1f61d4194",
                   .string "9290f38c5d07c2e2f4df57b1f61d4196"]),
                ("ENAM", .array [.string "00920f38ce07c2e2f4df50b1f61d4194"])]),
             ("pop_pools", .object
               [("LAX", .array
                  [.string "de90f38ced07c2e2f4df50b1f61d4194",
                   .string "9290f38c5d07c2e2f4df57b1f61d4196"]),
                ("LHR", .array
                  [.string "abd90f38ced07c2e2f4df50b1f61d4194",
                   .string "f9138c5d07c2e2f4df57b1f61d4196"]),
                ("SJC", .array [.string "00920f38ce07c2e2f4df50b1f61d4194"])]),
             ("proxied", .bool true)]]),
       ("result_info", .object
         [("page", .number (.int 1)),
          ("per_page", .number (.int 20)),
          ("count", .number (.int 1)),
          ("total_count", .number (.int 2000))])])

/-- The `want` element of `TestListLoadBalancers`. -/
def listedLoadBalancer : LoadBalancer :=
  { LoadBalancer.zero with
    ID := "699d98642c564d2e855e9661899b7252"
    CreatedOn := parseRFC3339 "2014-01-01T05:20:00.12345Z"
    ModifiedOn := parseRFC3339 "2014-02-01T05:20:00.12345Z"
    Description := "Load Balancer for www.example.com"
    Name := "www.example.com"
    TTL := 30
    FallbackPool := "17b5962d775c646f3f9725cbc7a53df4"
    DefaultPools := .elems
      ["de90f38ced07c2e2f4df50b1f61d4194", "9290f38c5d07c2e2f4df57b1f61d4196",
       "00920f38ce07c2e2f4df50b1f61d4194"]
    RegionPools := .entries
      [("ENAM", .elems ["00920f38ce07c2e2f4df50b1f61d4194"]),
       ("WNAM", .elems ["de90f38ced07c2e2f4df50b1f61d4194",
                        "9290f38c5d07c2e2f4df57b1f61d4196"])]
    PopPools := .entries
      [("LAX", .elems ["de90f38ced07c2e2f4df50b1f61d4194",
                       "9290f38c5d07c2e2f4df57b1f61d4196"]),
       ("LHR", .elems ["abd90f38ced07c2e2f4df50b1f61d4194",
                       "f9138c5d07c2e2f4df57b1f61d4196"]),
       ("SJC", .elems ["00920f38ce07c2e2f4df50b1f61d4194"])]
    Proxied := true }

/-- The `request` of `TestModifyLoadBalancer`. -/
def modifyLoadBalancerRequest : LoadBalancer :=
  { LoadBalancer.zero with
    ID := "699d98642c564d2e855e9661899b7252"
    Description := "Load Balancer for www.example.com"
    Name := "www.example.com"
    TTL := 30
    FallbackPool := "17b5962d775c646f3f9725cbc7a53df4"
    DefaultPools := .elems ["00920f38ce07c2e2f4df50b1f61d4194"]
    RegionPools := .entries
      [("ENAM", .elems ["00920f38ce07c2e2f4df50b1f61d4194"]),
       ("WNAM", .elems ["9290f38c5d07c2e2f4df57b1f61d4196"])]
    PopPools := .entries
      [("LAX", .elems ["9290f38c5d07c2e2f4df57b1f61d4196"]),
       ("LHR", .elems ["f9138c5d07c2e2f4df57b1f61d4196"]),
       ("SJC", .elems ["00920f38ce07c2e2f4df50b1f61d4194"])]
    Proxied := true
    Persistence := "none"
    SessionAffinityAttributes := some { SameSite := "Strict", Secure := "Always"
                                        DrainDuration := 0 } }

/-- The `want` element of `TestListLoadBalancerMonitors`. -/
def listedMonitor : LoadBalancerMonitor :=
  { testMonitor with
    ID := "f1aba936b94213e5b8dca0c0dbf1f9cc"
    CreatedOn := parseRFC3339 "2014-01-01T05:20:00.12345Z"
    ModifiedOn := parseRFC3339 "2014-02-01T05:20:00.12345Z" }

/-- A response body with `success: false` and two entries in `errors`. -/
def twoErrorsResponse : Bytes :=
  .text
    (.object
      [("success", .bool false),
       ("errors", .array
         [.object [("code", .number (.int 1003)), ("message", .string "Invalid ID")],
          .object [("code", .number (.int 7003)), ("message", .string "No route")]]),
       ("messages", .array []),
       ("result", .null)])

/-- A transport that answers every request with the same status and body. -/
def Transport.answering (status : Nat) (body : Bytes) : Transport Unit where
  doRequest := fun _ _ _ _ s => ((status, body, none), s)

/-- The document of a byte slice that is JSON text; `null` for one that is not. -/
def Bytes.document : Bytes → JSON
  | .text doc => doc
  | .malformed _ => .null

/-! ## Durations

`Duration` of `load_balancing.go` wraps a `time.Duration`, a count of nanoseconds in 64
bits, and is written to JSON as the string `time.Duration.String` prints and read back with
`time.ParseDuration`. -/

/-- Go `time.Second`, in nanoseconds. -/
def Second : Nat := 1000000000

/-- The decimal digits of `v`, least significant first, put before `tail`; nothing for 0. -/
def fmtIntLoop : Nat → Nat → List Char → List Char
  | 0, _, tail => tail
  | fuel + 1, v, tail =>
    if v = 0 then tail else fmtIntLoop fuel (v / 10) (digitChar (v % 10) :: tail)

/-- Go `fmtInt` of package `time`: the decimal digits of a 64-bit `v` put before `tail`,
`0` for zero. -/
def fmtInt (v : Nat) (tail : List Char) : List Char :=
  if v = 0 then '0' :: tail else fmtIntLoop 20 v tail

/-- The loop of Go `fmtFrac`: the lowest `prec` digits of `v` are put before `tail`, lowest
first, trailing zeros left out; returns the text, whether a digit was written, and
`v / 10^prec`. -/
def fmtFracLoop : Nat → Nat → Bool → List Char → List Char × Bool × Nat
  | 0, v, print, tail => (tail, print, v)
  | prec + 1, v, print, tail =>
    let print' := print || v % 10 != 0
    fmtFracLoop prec (v / 10) print' (if print' then digitChar (v % 10) :: tail else tail)

/-- Go `fmtFrac` of package `time`: the fraction of `v / 10^prec` put before `tail` without
trailing zeros, with its period unless the fraction is zero; and `v / 10^prec`. -/
def fmtFrac (prec v : Nat) (tail : List Char) : List Char × Nat :=
  let r := fmtFracLoop prec v false tail
  (if r.2.1 then '.' :: r.1 else r.1, r.2.2)

/-- The text of Go `time.Duration.String` for a magnitude of `u` nanoseconds, without the
sign: `72h3m0.5s`; below one second the unit is `ms`, `µs` or `ns`; zero is `0s`. -/
def durationBody (u : Nat) : List Char :=
  if u < Second then
    if u = 0 then ['0', 's']
    else if u < 1000 then fmtInt u ['n', 's']
    else if u < 1000000 then
      let r := fmtFrac 3 u ['µ', 's']
      fmtInt r.2 r.1
    else
      let r := fmtFrac 6 u ['m', 's']
      fmtInt r.2 r.1
  else
    let r := fmtFrac 9 u ['s']
    let seconds := fmtInt (r.2 % 60) r.1
    let minutes := r.2 / 60
    if minutes > 0 then
      let withMinutes := fmtInt (minutes % 60) ('m' :: seconds)
      let hours := minutes / 60
      if hours > 0 then fmtInt hours ('h' :: withMinutes) else withMinutes
    else seconds

/-- Go `time.Duration.String`: a duration of `d` nanoseconds as text, with a leading `-`
when negative. -/
def durationString (d : Int) : String :=
  ⟨if d < 0 then '-' :: durationBody d.natAbs else durationBody d.natAbs⟩

/-- Go `leadingInt` of package `time`: the digits at the front of the text as a number, and
the rest; `none` when the number passes `2^63`. -/
def leadingInt : List Char → Nat → Option (Nat × List Char)
  | [], x => some (x, [])
  | c :: rest, x =>
    match digitValue c with
    | none => some (x, c :: rest)
    | some d =>
      if x > 2 ^ 63 / 10 then none
      else if x * 10 + d > 2 ^ 63 then none
      else leadingInt rest (x * 10 + d)

/-- Go `leadingFraction` of package `time`: the digits at the front of the text as the
numerator and the scale of a fraction, and the rest; digits that would pass `2^63` are
dropped. -/
def leadingFraction : List Char → Nat → Nat → Bool → Nat × Nat × List Char
  | [], x, scale, _ => (x, scale, [])
  | c :: rest, x, scale, overflow =>
    match digitValue c with
    | none => (x, scale, c :: rest)
    | some d =>
      if overflow then leadingFraction rest x scale true
      else if x > (2 ^ 63 - 1) / 10 then leadingFraction rest x scale true
      else if x * 10 + d > 2 ^ 63 then leadingFraction rest x scale true
      else leadingFraction rest (x * 10 + d) (scale * 10) false

/-- The unit at the front of the text: the characters up to the next period or digit. -/
def spanUnit : List Char → List Char × List Char
  | [] => ([], [])
  | c :: rest =>
    if c = '.' ∨ (digitValue c).isSome then ([], c :: rest)
    else ((spanUnit rest).1.cons c, (spanUnit rest).2)

/-- Go `unitMap` of package `time`: the nanoseconds of a unit. -/
def unitOf (u : List Char) : Option Nat :=
  if u = ['n', 's'] then some 1
  else if u = ['u', 's'] then some 1000
  else if u = ['µ', 's'] then some 1000
  else if u = ['μ', 's'] then some 1000
  else if u = ['m', 's'] then some 1000000
  else if u = ['s'] then some 1000000000
  else if u = ['m'] then some 60000000000
  else if u = ['h'] then some 3600000000000
  else none

/-- The loop of Go `time.ParseDuration`: one number, optional fraction and unit after the
other, added up in nanoseconds; `none` for an error.  `fuel` bounds the passes and is more
than the length of the text.  The fraction is computed exactly; the library computes it in
`float64`, which is exact when the scale divides the unit, as it does for every text
`Duration.String` prints. -/
def parseLoop : Nat → List Char → Nat → Option Nat
  | 0, _, _ => none
  | _ + 1, [], d => some d
  | fuel + 1, c :: cs, d =>
    if ¬(c = '.' ∨ (digitValue c).isSome) then none
    else
      match leadingInt (c :: cs) 0 with
      | none => none
      | some (v, s1) =>
        let pre := s1.length != (c :: cs).length
        let frac : Nat × Nat × List Char × Bool :=
          if s1.head? = some '.' then
            let r := leadingFraction s1.tail 0 1 false
            (r.1, r.2.1, r.2.2, r.2.2.length != s1.tail.length)
          else (0, 1, s1, false)
        if !pre && !frac.2.2.2 then none
        else
          let u := spanUnit frac.2.2.1
          if u.1 = [] then none
          else
            match unitOf u.1 with
            | none => none
            | some unit =>
              if v > 2 ^ 63 / unit then none
              else
                let v' := if frac.1 > 0 then v * unit + frac.1 * unit / frac.2.1 else v * unit
                if v' > 2 ^ 63 then none
                else if d + v' > 2 ^ 63 then none
                else parseLoop fuel u.2 (d + v')

/-- Go `time.ParseDuration`: the nanoseconds of a duration text with an optional sign;
`none` for an error. -/
def parseDuration (s : String) : Option Int :=
  let negative : Bool := s.data.head? = some '-'
  let digits : List Char :=
    if s.data.head? = some '-' ∨ s.data.head? = some '+' then s.data.tail else s.data
  if digits = ['0'] then some 0
  else if digits = [] then none
  else
    match parseLoop (digits.length + 1) digits 0 with
    | none => none
    | some d =>
      if negative then some (-(d : Int))
      else if d > 2 ^ 63 - 1 then none
      else some (d : Int)

/-- Modelled from the spec: the struct `Duration` of `load_balancing.go`, which is not among
the sources: a duration-like field, holding a `time.Duration`, the count `ns` of
nanoseconds in 64 bits. -/
structure Duration where
  ns : Int
  deriving DecidableEq, Repr

/-- Modelled from the spec: a `Duration` written as JSON: the string of its human-readable
text. -/
def encodeDuration (d : Duration) : JSON := .string (durationString d.ns)

/-- Modelled from the spec: storing a JSON value into a `Duration`: a string holding the
text of a duration; anything else, or a text that is no duration, is an error. -/
def decodeDuration (v : JSON) (cur : Duration) : Duration × Option JsonError :=
  match v with
  | .string s =>
    match parseDuration s with
    | some n => (⟨n⟩, none)
    | none => (cur, some (typeError v "cloudflare.Duration"))
  | _ => (cur, some (typeError v "cloudflare.Duration"))

/-- A fallback domain whose `DNSServer` is the allocated empty slice `[]string{}`. -/
def noServers : FallbackDomain := ⟨"example.com", "internal", .elems []⟩

/-- A response body with an ill-typed `success` and no `result`. -/
def successAsText : Bytes := .text (.object [("success", .string "yes")])

/-- Whether a JSON value is `null`. -/
def JSON.isNull : JSON → Bool
  | .null => true
  | _ => false

/-- Whether `result` is absent or null in an object: every member whose key is bound to the
field `Result` holds `null`. -/
def resultAbsentOrNull (members : List (String × JSON)) : Bool :=
  members.all fun m => !equalFold "result" m.1 || m.2.isNull

/-- The members of a response body with envelope fields, `result_info` and an unknown key,
and `result` holding `null`. -/
def nullResultMembers : List (String × JSON) :=
  [("success", .bool true),
   ("errors", .array [.object [("code", .number (.int 7)), ("message", .string "note")]]),
   ("messages", .array [.string "done"]),
   ("result", .null),
   ("result_info", .object [("page", .number (.int 1))]),
   ("trace", .string "abc")]

/-- A response body in which the key `result` occurs twice, with different arrays. -/
def repeatedResult : Bytes :=
  .text (.object
    [("success", .bool true),
     ("result", .array [.object [("suffix", .string "first.example")]]),
     ("result", .array [.object [("suffix", .string "second.example")]])])

/-- A response body whose only `result` key is followed by a key `Result` holding another
array. -/
def shadowedResult : Bytes :=
  .text (.object
    [("success", .bool true),
     ("result", .array [.object [("suffix", .string "first.example")]]),
     ("Result", .array [.object [("suffix", .string "second.example")]])])

/-- A response body that has no key `result`, but a key `RESULT`. -/
def upperCaseResult : Bytes :=
  .text (.object
    [("success", .bool true),
     ("RESULT", .array [.object [("suffix", .string "example.com")]])])

/-! ## Go strings as bytes

A Go `string` is a sequence of bytes that need not be valid UTF-8, while the string of a
JSON document is a sequence of Unicode characters.  `json.Marshal` reads a Go string rune
by rune with `utf8.DecodeRuneInString` and writes U+FFFD for every byte that starts no
valid encoding; `json.Unmarshal` writes each character of a string literal with
`utf8.AppendRune`.

In the definitions below `x & m` for a mask `m = 2^k - 1` is written `x % 2^k`, `x << k`
is written `x * 2^k`, `x >> k` is written `x / 2^k`, and `|` between values with no bit in
common is written `+`. -/

namespace utf8

/-- Go `utf8.RuneError`, the replacement character U+FFFD. -/
def RuneError : Nat := 0xFFFD

/-- Go `utf8.RuneSelf`: bytes below it are single-byte runes. -/
def RuneSelf : Nat := 0x80

/-- Go `utf8.first`, the table of information about the first byte of an encoding:
`0xF0` (`as`) for ASCII, `0xF1` (`xx`) for a byte that starts no encoding, and otherwise
the size in the low three bits and the index into `acceptRanges` in the high four
(`s1 = 0x02`, `s2 = 0x13`, `s3 = 0x03`, `s4 = 0x23`, `s5 = 0x34`, `s6 = 0x04`,
`s7 = 0x44`). -/
def first (b : Nat) : Nat :=
  if b < 0x80 then 0xF0
  else if b < 0xC2 then 0xF1
  else if b < 0xE0 then 0x02
  else if b = 0xE0 then 0x13
  else if b < 0xED then 0x03
  else if b = 0xED then 0x23
  else if b < 0xF0 then 0x03
  else if b = 0xF0 then 0x34
  else if b < 0xF4 then 0x04
  else if b = 0xF4 then 0x44
  else 0xF1

/-- Go `utf8.acceptRanges`: the lowest and highest value allowed for the second byte. -/
def acceptRanges (i : Nat) : Nat × Nat :=
  if i = 0 then (0x80, 0xBF)
  else if i = 1 then (0xA0, 0xBF)
  else if i = 2 then (0x80, 0x9F)
  else if i = 3 then (0x90, 0xBF)
  else if i = 4 then (0x80, 0x8F)
  else (0, 0)

/-- The byte `s[i]` of a Go string, as a number. -/
def byteAt (s : List UInt8) (i : Nat) : Nat := (s.getD i 0).toNat

/-- Go `utf8.DecodeRuneInString(s)`: the first rune of `s` and its width in bytes;
`(RuneError, 0)` for the empty string and `(RuneError, 1)` when the first byte starts no
valid encoding. -/
def DecodeRuneInString (s : List UInt8) : Nat × Nat :=
  let n := s.length
  if n < 1 then (RuneError, 0)
  else
    let s0 := byteAt s 0
    let x := first s0
    if x ≥ 0xF0 then (if x = 0xF1 then RuneError else s0, 1)
    else
      let sz := x % 8
      let accept := acceptRanges (x / 16)
      if n < sz then (RuneError, 1)
      else
        let s1 := byteAt s 1
        if s1 < accept.1 ∨ accept.2 < s1 then (RuneError, 1)
        else if sz ≤ 2 then (s0 % 32 * 64 + s1 % 64, 2)
        else
          let s2 := byteAt s 2
          if s2 < 0x80 ∨ 0xBF < s2 then (RuneError, 1)
          else if sz ≤ 3 then (s0 % 16 * 4096 + s1 % 64 * 64 + s2 % 64, 3)
          else
            let s3 := byteAt s 3
            if s3 < 0x80 ∨ 0xBF < s3 then (RuneError, 1)
            else (s0 % 8 * 262144 + s1 % 64 * 4096 + s2 % 64 * 64 + s3 % 64, 4)

/-- Go `utf8.AppendRune(nil, r)`: the UTF-8 encoding of rune `r`; a surrogate or a value
above U+10FFFF is written as U+FFFD. -/
def AppendRune (r : Nat) : List UInt8 :=
  if r ≤ 0x7F then [UInt8.ofNat r]
  else if r ≤ 0x7FF then [UInt8.ofNat (0xC0 + r / 64), UInt8.ofNat (0x80 + r % 64)]
  else if 0x10FFFF < r ∨ (0xD800 ≤ r ∧ r ≤ 0xDFFF) then
    [UInt8.ofNat 0xEF, UInt8.ofNat 0xBF, UInt8.ofNat 0xBD]
  else if r ≤ 0xFFFF then
    [UInt8.ofNat (0xE0 + r / 4096), UInt8.ofNat (0x80 + r / 64 % 64),
     UInt8.ofNat (0x80 + r % 64)]
  else
    [UInt8.ofNat (0xF0 + r / 262144), UInt8.ofNat (0x80 + r / 4096 % 64),
     UInt8.ofNat (0x80 + r / 64 % 64), UInt8.ofNat (0x80 + r % 64)]

/-- The loop of Go `utf8.ValidString`, on the bytes still to be read (`fuel` bounds the
number of turns). -/
def validLoop : Nat → List UInt8 → Bool
  | 0, s => s.isEmpty
  | fuel + 1, s =>
    if s.length < 1 then true
    else
      let si := byteAt s 0
      if si < RuneSelf then validLoop fuel (s.drop 1)
      else
        let x := first si
        if x = 0xF1 then false
        else
          let size := x % 8
          if s.length < size then false
          else
            let accept := acceptRanges (x / 16)
            if byteAt s 1 < accept.1 ∨ accept.2 < byteAt s 1 then false
            else if size = 2 then validLoop fuel (s.drop size)
            else if byteAt s 2 < 0x80 ∨ 0xBF < byteAt s 2 then false
            else if size = 3 then validLoop fuel (s.drop size)
            else if byteAt s 3 < 0x80 ∨ 0xBF < byteAt s 3 then false
            else validLoop fuel (s.drop size)

/-- Go `utf8.ValidString(s)`: whether `s` consists entirely of valid UTF-8-encoded
runes. -/
def ValidString (s : List UInt8) : Bool := validLoop s.length s

end utf8

/-- The loop of `appendString` of `encoding/json` on the bytes still to be read, as the
characters of the string literal it writes: a byte below `RuneSelf` is itself, a byte at
which `DecodeRuneInString` (given at most four bytes) reports `RuneError` with width 1 is
written as U+FFFD, and any other rune is copied. -/
def appendStringLoop : Nat → List UInt8 → List Char
  | 0, _ => []
  | fuel + 1, s =>
    if s.length < 1 then []
    else if utf8.byteAt s 0 < utf8.RuneSelf then
      Char.ofNat (utf8.byteAt s 0) :: appendStringLoop fuel (s.drop 1)
    else
      let r := utf8.DecodeRuneInString (s.take 4)
      if r.1 = utf8.RuneError ∧ r.2 = 1 then
        Char.ofNat 0xFFFD :: appendStringLoop fuel (s.drop r.2)
      else Char.ofNat r.1 :: appendStringLoop fuel (s.drop r.2)

/-- The string `json.Marshal` writes for a Go string, as a parser of the document reads it
back. -/
def appendString (s : List UInt8) : String := ⟨appendStringLoop s.length s⟩

/-- The Go string `json.Unmarshal` stores for a string of the document: the UTF-8 encoding
of its characters. -/
def unquote (s : String) : List UInt8 := s.data.flatMap fun c => utf8.AppendRune c.toNat

/-- A `FallbackDomain` as Go holds it, with every string a sequence of bytes. -/
structure FallbackDomainBytes where
  Suffix : List UInt8
  Description : List UInt8
  DNSServer : Slice (List UInt8)
  deriving DecidableEq, Repr

/-- Go `json.Marshal` of a `FallbackDomain` whose strings are given as bytes: the fields in
declaration order, each left out when empty. -/
def marshalFallbackDomain (d : FallbackDomainBytes) : JSON :=
  .object
    (omitEmpty "suffix" (d.Suffix.length == 0) (.string (appendString d.Suffix))
      ++ omitEmpty "description" (d.Description.length == 0)
          (.string (appendString d.Description))
      ++ omitEmpty "dns_server" (d.DNSServer.len == 0)
          (encodeSlice (fun s => .string (appendString s)) d.DNSServer))

/-- The domain as `json.Marshal` writes it: every string as the string literal written for
it. -/
def FallbackDomainBytes.text (d : FallbackDomainBytes) : FallbackDomain :=
  { Suffix := appendString d.Suffix
    Description := appendString d.Description
    DNSServer :=
      match d.DNSServer with
      | .nil => .nil
      | .elems xs => .elems (xs.map appendString) }

/-- The bytes Go holds for a decoded `FallbackDomain`. -/
def FallbackDomain.bytes (d : FallbackDomain) : FallbackDomainBytes :=
  { Suffix := unquote d.Suffix
    Description := unquote d.Description
    DNSServer :=
      match d.DNSServer with
      | .nil => .nil
      | .elems xs => .elems (xs.map unquote) }

/-- Go `json.Unmarshal` of a document into a fresh `FallbackDomain`, with the strings of the
result as bytes. -/
def unmarshalFallbackDomain (v : JSON) : FallbackDomainBytes × Option JsonError :=
  let r := decodeFallbackDomain v FallbackDomain.zero
  (r.1.bytes, r.2)

/-- A fallback domain whose `Suffix` is the single byte `0xff`, which is not valid
UTF-8. -/
def invalidSuffix : FallbackDomainBytes := ⟨[0xff], [], .nil⟩

/-- The fallback domain `noServers` as Go holds it: `DNSServer` is the allocated empty
slice. -/
def noServersBytes : FallbackDomainBytes :=
  ⟨unquote "example.com", unquote "internal", .elems []⟩

/-! # Theorems -/

/-! ## Basic facts -/

theorem Sprintf_fallbackDomains (root accountID : String) :
    Sprintf "/%s/%s/devices/policy/fallback_domains" [root, accountID]
      = "/" ++ root ++ "/" ++ accountID ++ "/devices/policy/fallback_domains" := by
  apply String.ext
  simp [Sprintf, sprintfChars]

theorem firstError_eq_none {a b : Option JsonError} :
    firstError a b = none ↔ a = none ∧ b = none := by
  cases a <;> simp [firstError]

/-- C1 (counterexample): a body with `success: false` and a non-empty `errors` array, handed
back by the request layer without error, makes both methods return a nil error and the
decoded `result`, not an error. -/
theorem failed_envelope_returned_as_success :
    (jsonUnmarshal failedEnvelope FallbackDomainResponse.zero).1.toResponse.Success = false
    ∧ (jsonUnmarshal failedEnvelope FallbackDomainResponse.zero).1.toResponse.Errors
        = .elems [⟨1003, "Invalid ID"⟩]
    ∧ (ListFallbackDomains (Package.answering failedEnvelope none) ⟨0⟩ "abc" ()).1
        = (.elems [⟨"example.com", "", .nil⟩], none)
    ∧ (UpdateFallbackDomain (Package.answering failedEnvelope none) ⟨0⟩ "abc" .nil ()).1
        = (.elems [⟨"example.com", "", .nil⟩], none) := by
  decide

/-- C1 (amended): both methods fail exactly when the request layer returns an error or the
body it hands back does not decode, and then return the empty list; the `success` flag and
the `errors` array of a body handed back without error play no part. -/
theorem error_iff_request_or_decode_fails {σ : Type} (api : Package σ) (ctx : Context)
    (accountID : String) (domains : Slice FallbackDomain) (s : σ) :
    (((ListFallbackDomains api ctx accountID s).1.2 ≠ none ↔
        ((api.makeRequestContext ctx MethodGet
            (Sprintf "/%s/%s/devices/policy/fallback_domains" [api.AccountRouteRoot, accountID])
            Params.nil s).1.2 ≠ none
         ∨ (jsonUnmarshal (api.makeRequestContext ctx MethodGet
            (Sprintf "/%s/%s/devices/policy/fallback_domains" [api.AccountRouteRoot, accountID])
            Params.nil s).1.1 FallbackDomainResponse.zero).2 ≠ none))
      ∧ ((ListFallbackDomains api ctx accountID s).1.2 ≠ none →
          (ListFallbackDomains api ctx accountID s).1.1 = .elems []))
    ∧ (((UpdateFallbackDomain api ctx accountID domains s).1.2 ≠ none ↔
        ((api.makeRequestContext ctx MethodPut
            (Sprintf "/%s/%s/devices/policy/fallback_domains" [api.AccountRouteRoot, accountID])
            (Params.fallbackDomains domains) s).1.2 ≠ none
         ∨ (jsonUnmarshal (api.makeRequestContext ctx MethodPut
            (Sprintf "/%s/%s/devices/policy/fallback_domains" [api.AccountRouteRoot, accountID])
            (Params.fallbackDomains domains) s).1.1 FallbackDomainResponse.zero).2 ≠ none))
      ∧ ((UpdateFallbackDomain api ctx accountID domains s).1.2 ≠ none →
          (UpdateFallbackDomain api ctx accountID domains s).1.1 = .elems [])) := by
  refine ⟨?_, ?_⟩
  · unfold ListFallbackDomains
    simp only []
    split
    · simp_all
    · split <;> simp_all [errorsWrap]
  · unfold UpdateFallbackDomain
    simp only []
    split
    · simp_all
    · split <;> simp_all [errorsWrap]

/-! ## The three ways out of each method -/

theorem list_of_request_error {σ : Type} (api : Package σ) (ctx : Context) (accountID : String)
    (s s' : σ) (res : Bytes) (e : GoError)
    (h : api.makeRequestContext ctx MethodGet
      (Sprintf "/%s/%s/devices/policy/fallback_domains" [api.AccountRouteRoot, accountID])
      Params.nil s = ((res, some e), s')) :
    ListFallbackDomains api ctx accountID s = ((.elems [], some e), s') := by
  simp [ListFallbackDomains, h]

theorem list_of_decode_error {σ : Type} (api : Package σ) (ctx : Context) (accountID : String)
    (s s' : σ) (res : Bytes) (je : JsonError)
    (h : api.makeRequestContext ctx MethodGet
      (Sprintf "/%s/%s/devices/policy/fallback_domains" [api.AccountRouteRoot, accountID])
      Params.nil s = ((res, none), s'))
    (hd : (jsonUnmarshal res FallbackDomainResponse.zero).2 = some je) :
    ListFallbackDomains api ctx accountID s
      = ((.elems [], some (.withMessage (.json je) api.errUnmarshalError)), s') := by
  simp [ListFallbackDomains, h, hd, errorsWrap]

theorem list_of_decoded {σ : Type} (api : Package σ) (ctx : Context) (accountID : String)
    (s s' : σ) (res : Bytes)
    (h : api.makeRequestContext ctx MethodGet
      (Sprintf "/%s/%s/devices/policy/fallback_domains" [api.AccountRouteRoot, accountID])
      Params.nil s = ((res, none), s'))
    (hd : (jsonUnmarshal res FallbackDomainResponse.zero).2 = none) :
    ListFallbackDomains api ctx accountID s
      = (((jsonUnmarshal res FallbackDomainResponse.zero).1.Result, none), s') := by
  simp [ListFallbackDomains, h, hd]

theorem update_of_request_error {σ : Type} (api : Package σ) (ctx : Context)
    (accountID : String) (domains : Slice FallbackDomain) (s s' : σ) (res : Bytes) (e : GoError)
    (h : api.makeRequestContext ctx MethodPut
      (Sprintf "/%s/%s/devices/policy/fallback_domains" [api.AccountRouteRoot, accountID])
      (Params.fallbackDomains domains) s = ((res, some e), s')) :
    UpdateFallbackDomain api ctx accountID domains s = ((.elems [], some e), s') := by
  simp [UpdateFallbackDomain, h]

theorem update_of_decode_error {σ : Type} (api : Package σ) (ctx : Context)
    (accountID : String) (domains : Slice FallbackDomain) (s s' : σ) (res : Bytes)
    (je : JsonError)
    (h : api.makeRequestContext ctx MethodPut
      (Sprintf "/%s/%s/devices/policy/fallback_domains" [api.AccountRouteRoot, accountID])
      (Params.fallbackDomains domains) s = ((res, none), s'))
    (hd : (jsonUnmarshal res FallbackDomainResponse.zero).2 = some je) :
    UpdateFallbackDomain api ctx accountID domains s
      = ((.elems [], some (.withMessage (.json je) api.errUnmarshalError)), s') := by
  simp [UpdateFallbackDomain, h, hd, errorsWrap]

theorem update_of_decoded {σ : Type} (api : Package σ) (ctx : Context)
    (accountID : String) (domains : Slice FallbackDomain) (s s' : σ) (res : Bytes)
    (h : api.makeRequestContext ctx MethodPut
      (Sprintf "/%s/%s/devices/policy/fallback_domains" [api.AccountRouteRoot, accountID])
      (Params.fallbackDomains domains) s = ((res, none), s'))
    (hd : (jsonUnmarshal res FallbackDomainResponse.zero).2 = none) :
    UpdateFallbackDomain api ctx accountID domains s
      = (((jsonUnmarshal res FallbackDomainResponse.zero).1.Result, none), s') := by
  simp [UpdateFallbackDomain, h, hd]

/-- The client state after `ListFallbackDomains` is the one its single request left. -/
theorem list_state {σ : Type} (api : Package σ) (ctx : Context) (accountID : String) (s : σ) :
    (ListFallbackDomains api ctx accountID s).2
      = (api.makeRequestContext ctx MethodGet
          (Sprintf "/%s/%s/devices/policy/fallback_domains" [api.AccountRouteRoot, accountID])
          Params.nil s).2 := by
  unfold ListFallbackDomains
  simp only []
  split
  · rfl
  · split <;> rfl

/-- The client state after `UpdateFallbackDomain` is the one its single request left. -/
theorem update_state {σ : Type} (api : Package σ) (ctx : Context) (accountID : String)
    (domains : Slice FallbackDomain) (s : σ) :
    (UpdateFallbackDomain api ctx accountID domains s).2
      = (api.makeRequestContext ctx MethodPut
          (Sprintf "/%s/%s/devices/policy/fallback_domains" [api.AccountRouteRoot, accountID])
          (Params.fallbackDomains domains) s).2 := by
  unfold UpdateFallbackDomain
  simp only []
  split
  · rfl
  · split <;> rfl

/-- What the methods return is a function of the `([]byte, error)` pair of the request. -/
theorem list_result_congr {σ τ : Type} (api : Package σ) (api' : Package τ)
    (ctx ctx' : Context) (accountID accountID' : String) (s : σ) (t : τ)
    (hc : api.errUnmarshalError = api'.errUnmarshalError)
    (h : (api.makeRequestContext ctx MethodGet
          (Sprintf "/%s/%s/devices/policy/fallback_domains" [api.AccountRouteRoot, accountID])
          Params.nil s).1
        = (api'.makeRequestContext ctx' MethodGet
          (Sprintf "/%s/%s/devices/policy/fallback_domains" [api'.AccountRouteRoot, accountID'])
          Params.nil t).1) :
    (ListFallbackDomains api ctx accountID s).1 = (ListFallbackDomains api' ctx' accountID' t).1 := by
  unfold ListFallbackDomains
  simp only [h, hc]
  split
  · rfl
  · split <;> rfl

theorem update_result_congr {σ τ : Type} (api : Package σ) (api' : Package τ)
    (ctx ctx' : Context) (accountID accountID' : String) (domains domains' : Slice FallbackDomain)
    (s : σ) (t : τ)
    (hc : api.errUnmarshalError = api'.errUnmarshalError)
    (h : (api.makeRequestContext ctx MethodPut
          (Sprintf "/%s/%s/devices/policy/fallback_domains" [api.AccountRouteRoot, accountID])
          (Params.fallbackDomains domains) s).1
        = (api'.makeRequestContext ctx' MethodPut
          (Sprintf "/%s/%s/devices/policy/fallback_domains" [api'.AccountRouteRoot, accountID'])
          (Params.fallbackDomains domains') t).1) :
    (UpdateFallbackDomain api ctx accountID domains s).1
      = (UpdateFallbackDomain api' ctx' accountID' domains' t).1 := by
  unfold UpdateFallbackDomain
  simp only [h, hc]
  split
  · rfl
  · split <;> rfl

/-- The log after `ListFallbackDomains` on a recording client. -/
theorem list_recorded {σ : Type} (api : Package σ) (ctx : Context) (accountID : String)
    (s : σ) (log : List Call) :
    (ListFallbackDomains api.recording ctx accountID (s, log)).2.2
      = log ++ [⟨ctx, MethodGet,
          Sprintf "/%s/%s/devices/policy/fallback_domains" [api.AccountRouteRoot, accountID],
          Params.nil⟩] := by
  rw [list_state]
  rfl

/-- The log after `UpdateFallbackDomain` on a recording client. -/
theorem update_recorded {σ : Type} (api : Package σ) (ctx : Context) (accountID : String)
    (domains : Slice FallbackDomain) (s : σ) (log : List Call) :
    (UpdateFallbackDomain api.recording ctx accountID domains (s, log)).2.2
      = log ++ [⟨ctx, MethodPut,
          Sprintf "/%s/%s/devices/policy/fallback_domains" [api.AccountRouteRoot, accountID],
          Params.fallbackDomains domains⟩] := by
  rw [update_state]
  rfl

/-- Recording does not change what `ListFallbackDomains` returns or the client state. -/
theorem list_recording_transparent {σ : Type} (api : Package σ) (ctx : Context)
    (accountID : String) (s : σ) (log : List Call) :
    (ListFallbackDomains api.recording ctx accountID (s, log)).1
        = (ListFallbackDomains api ctx accountID s).1
    ∧ (ListFallbackDomains api.recording ctx accountID (s, log)).2.1
        = (ListFallbackDomains api ctx accountID s).2 := by
  constructor
  · exact list_result_congr _ _ _ _ _ _ _ _ rfl rfl
  · rw [list_state, list_state]
    rfl

/-- Recording does not change what `UpdateFallbackDomain` returns or the client state. -/
theorem update_recording_transparent {σ : Type} (api : Package σ) (ctx : Context)
    (accountID : String) (domains : Slice FallbackDomain) (s : σ) (log : List Call) :
    (UpdateFallbackDomain api.recording ctx accountID domains (s, log)).1
        = (UpdateFallbackDomain api ctx accountID domains s).1
    ∧ (UpdateFallbackDomain api.recording ctx accountID domains (s, log)).2.1
        = (UpdateFallbackDomain api ctx accountID domains s).2 := by
  constructor
  · exact update_result_congr _ _ _ _ _ _ _ _ _ _ rfl rfl
  · rw [update_state, update_state]
    rfl

/-! ## Request failures -/

/-- C2: when `makeRequestContext` fails with error `e`, `ListFallbackDomains` and
`UpdateFallbackDomain` return exactly `e` (with the empty list) and leave the client state
as the request left it; the bytes returned next to the error are not decoded, since the
outcome is the same for every such `res`. -/
theorem request_error_returned_unchanged {σ : Type} (api : Package σ) (ctx : Context)
    (accountID : String) (domains : Slice FallbackDomain) (s sL sU : σ) (resL resU : Bytes)
    (eL eU : GoError)
    (hL : api.makeRequestContext ctx MethodGet
      (Sprintf "/%s/%s/devices/policy/fallback_domains" [api.AccountRouteRoot, accountID])
      Params.nil s = ((resL, some eL), sL))
    (hU : api.makeRequestContext ctx MethodPut
      (Sprintf "/%s/%s/devices/policy/fallback_domains" [api.AccountRouteRoot, accountID])
      (Params.fallbackDomains domains) s = ((resU, some eU), sU)) :
    ListFallbackDomains api ctx accountID s = ((.elems [], some eL), sL)
    ∧ UpdateFallbackDomain api ctx accountID domains s = ((.elems [], some eU), sU) :=
  ⟨list_of_request_error api ctx accountID s sL resL eL hL,
   update_of_request_error api ctx accountID domains s sU resU eU hU⟩

/-- C2 at a request layer that fails with an API error while handing back a decodable
body. -/
theorem request_error_returned_unchanged_witness :
    ((Package.answering failedEnvelope (some (.apiError [⟨1003, "Invalid ID"⟩]))).makeRequestContext
        ⟨7⟩ MethodGet
        (Sprintf "/%s/%s/devices/policy/fallback_domains" ["accounts", "abc"]) Params.nil ()
      = ((failedEnvelope, some (.apiError [⟨1003, "Invalid ID"⟩])), ()))
    ∧ (ListFallbackDomains
          (Package.answering failedEnvelope (some (.apiError [⟨1003, "Invalid ID"⟩])))
          ⟨7⟩ "abc" ()
        = ((.elems [], some (.apiError [⟨1003, "Invalid ID"⟩])), ())
      ∧ UpdateFallbackDomain
          (Package.answering failedEnvelope (some (.apiError [⟨1003, "Invalid ID"⟩])))
          ⟨7⟩ "abc" (.elems [⟨"example.com", "", .nil⟩]) ()
        = ((.elems [], some (.apiError [⟨1003, "Invalid ID"⟩])), ())) :=
  ⟨rfl, request_error_returned_unchanged
    (Package.answering failedEnvelope (some (.apiError [⟨1003, "Invalid ID"⟩])))
    ⟨7⟩ "abc" (.elems [⟨"example.com", "", .nil⟩]) () () () failedEnvelope failedEnvelope
    (.apiError [⟨1003, "Invalid ID"⟩]) (.apiError [⟨1003, "Invalid ID"⟩]) rfl rfl⟩

/-! ## Decode failures -/

/-- C3: when the request layer returns a body without error and `json.Unmarshal` fails on
it with `je`, both methods return `je` wrapped with the `errUnmarshalError` message, and
that error is never an API error of the request layer. -/
theorem decode_failure_is_wrapped_unmarshal_error {σ : Type} (api : Package σ) (ctx : Context)
    (accountID : String) (domains : Slice FallbackDomain) (s sL sU : σ) (resL resU : Bytes)
    (jeL jeU : JsonError)
    (hL : api.makeRequestContext ctx MethodGet
      (Sprintf "/%s/%s/devices/policy/fallback_domains" [api.AccountRouteRoot, accountID])
      Params.nil s = ((resL, none), sL))
    (hdL : (jsonUnmarshal resL FallbackDomainResponse.zero).2 = some jeL)
    (hU : api.makeRequestContext ctx MethodPut
      (Sprintf "/%s/%s/devices/policy/fallback_domains" [api.AccountRouteRoot, accountID])
      (Params.fallbackDomains domains) s = ((resU, none), sU))
    (hdU : (jsonUnmarshal resU FallbackDomainResponse.zero).2 = some jeU) :
    (ListFallbackDomains api ctx accountID s).1.2
        = some (.withMessage (.json jeL) api.errUnmarshalError)
    ∧ (UpdateFallbackDomain api ctx accountID domains s).1.2
        = some (.withMessage (.json jeU) api.errUnmarshalError)
    ∧ GoError.isAPIError (.withMessage (.json jeL) api.errUnmarshalError) = false
    ∧ GoError.isAPIError (.withMessage (.json jeU) api.errUnmarshalError) = false
    ∧ (∀ errs, (ListFallbackDomains api ctx accountID s).1.2 ≠ some (.apiError errs))
    ∧ (∀ errs, (UpdateFallbackDomain api ctx accountID domains s).1.2 ≠ some (.apiError errs)) := by
  rw [list_of_decode_error api ctx accountID s sL resL jeL hL hdL,
    update_of_decode_error api ctx accountID domains s sU resU jeU hU hdU]
  simp [GoError.isAPIError]

/-- C3 at a body that is not JSON (for the list call) and at a body whose `result` holds a
string where an object is expected (for the update call). -/
theorem decode_failure_is_wrapped_unmarshal_error_witness :
    ((jsonUnmarshal (.malformed "unexpected end of JSON input") FallbackDomainResponse.zero).2
        = some (.syntaxError "unexpected end of JSON input")
      ∧ (jsonUnmarshal halfDecodable FallbackDomainResponse.zero).2
        = some (.unmarshalTypeError "string" "cloudflare.FallbackDomain"))
    ∧ ((ListFallbackDomains
          (Package.answering (.malformed "unexpected end of JSON input") none) ⟨1⟩ "abc" ()).1.2
        = some (.withMessage (.json (.syntaxError "unexpected end of JSON input"))
            "error unmarshalling the JSON response")
      ∧ (UpdateFallbackDomain (Package.answering halfDecodable none) ⟨1⟩ "abc" .nil ()).1.2
        = some (.withMessage
            (.json (.unmarshalTypeError "string" "cloudflare.FallbackDomain"))
            "error unmarshalling the JSON response")) :=
  ⟨⟨rfl, rfl⟩,
   (decode_failure_is_wrapped_unmarshal_error
      (Package.answering (.malformed "unexpected end of JSON input") none) ⟨1⟩ "abc" .nil
      () () () (.malformed "unexpected end of JSON input")
      (.malformed "unexpected end of JSON input")
      (.syntaxError "unexpected end of JSON input")
      (.syntaxError "unexpected end of JSON input") rfl rfl rfl rfl).1,
   (decode_failure_is_wrapped_unmarshal_error
      (Package.answering halfDecodable none) ⟨1⟩ "abc" .nil
      () () () halfDecodable halfDecodable
      (.unmarshalTypeError "string" "cloudflare.FallbackDomain")
      (.unmarshalTypeError "string" "cloudflare.FallbackDomain") rfl rfl rfl rfl).2.1⟩

/-! ## No partial success -/

/-- C4 (counterexample): on a failed request and on a failed decode the result is the
allocated empty slice `[]FallbackDomain{}`, which is not the nil slice. -/
theorem failure_result_is_not_the_nil_slice :
    (ListFallbackDomains
        (Package.answering (.malformed "") (some (.requestError "connection refused")))
        ⟨0⟩ "abc" ()).1
      = (.elems [], some (.requestError "connection refused"))
    ∧ (ListFallbackDomains
        (Package.answering (.malformed "") (some (.requestError "connection refused")))
        ⟨0⟩ "abc" ()).1.1 ≠ Slice.nil
    ∧ (UpdateFallbackDomain (Package.answering halfDecodable none) ⟨0⟩ "abc" .nil ()).1.2 ≠ none
    ∧ (UpdateFallbackDomain (Package.answering halfDecodable none) ⟨0⟩ "abc" .nil ()).1.1
        ≠ Slice.nil
    ∧ (UpdateFallbackDomain (Package.answering halfDecodable none) ⟨0⟩ "abc" .nil ()).1.1.isNil
        = false := by
  decide

/-- C4 (amended): every call either returns a nil error with the decoded `Result`, or a
non-nil error with the allocated empty slice `[]FallbackDomain{}`; what a failed decode had
already stored is never returned. -/
theorem success_or_empty_list_with_error {σ : Type} (api : Package σ) (ctx : Context)
    (accountID : String) (domains : Slice FallbackDomain) (s : σ) :
    (((ListFallbackDomains api ctx accountID s).1.2 = none
        ∧ (ListFallbackDomains api ctx accountID s).1.1
            = (jsonUnmarshal (api.makeRequestContext ctx MethodGet
                (Sprintf "/%s/%s/devices/policy/fallback_domains"
                  [api.AccountRouteRoot, accountID])
                Params.nil s).1.1 FallbackDomainResponse.zero).1.Result)
      ∨ ((ListFallbackDomains api ctx accountID s).1.2 ≠ none
        ∧ (ListFallbackDomains api ctx accountID s).1.1 = .elems []))
    ∧ (((UpdateFallbackDomain api ctx accountID domains s).1.2 = none
        ∧ (UpdateFallbackDomain api ctx accountID domains s).1.1
            = (jsonUnmarshal (api.makeRequestContext ctx MethodPut
                (Sprintf "/%s/%s/devices/policy/fallback_domains"
                  [api.AccountRouteRoot, accountID])
                (Params.fallbackDomains domains) s).1.1 FallbackDomainResponse.zero).1.Result)
      ∨ ((UpdateFallbackDomain api ctx accountID domains s).1.2 ≠ none
        ∧ (UpdateFallbackDomain api ctx accountID domains s).1.1 = .elems [])) := by
  refine ⟨?_, ?_⟩
  · unfold ListFallbackDomains
    simp only []
    split
    · simp
    · split <;> simp [errorsWrap]
  · unfold UpdateFallbackDomain
    simp only []
    split
    · simp
    · split <;> simp [errorsWrap]

/-- A decode that fails half-way has stored the elements before the mismatch; the methods
return none of them. -/
theorem half_decoded_elements_not_returned :
    (jsonUnmarshal halfDecodable FallbackDomainResponse.zero).1.Result
      = .elems [⟨"example.com", "", .nil⟩, FallbackDomain.zero]
    ∧ (jsonUnmarshal halfDecodable FallbackDomainResponse.zero).2
      = some (.unmarshalTypeError "string" "cloudflare.FallbackDomain")
    ∧ (ListFallbackDomains (Package.answering halfDecodable none) ⟨0⟩ "abc" ()).1.1 = .elems []
    ∧ (UpdateFallbackDomain (Package.answering halfDecodable none) ⟨0⟩ "abc" .nil ()).1.1
      = .elems [] := by
  decide

/-! ## Members bound to no field -/

theorem response_field_result_info :
    FallbackDomainResponse.field "result_info" = none := by
  rfl

/-- A member whose key is bound to no field changes nothing, wherever it stands. -/
theorem decodeStruct_skip_unbound {α : Type}
    (field : String → Option (JSON → α → α × Option JsonError)) (goType key : String)
    (value : JSON) (before after : List (String × JSON)) (cur : α)
    (h : field key = none) :
    decodeStruct field goType (.object (before ++ (key, value) :: after)) cur
      = decodeStruct field goType (.object (before ++ after)) cur := by
  simp [decodeStruct, storeMember, List.foldl_append, h]

/-! ## One request, no pages -/

/-- C6 (counterexample): the first answer carries `result_info` with page 1, per_page 20,
count 1, total_count 2000, so `page * per_page < total_count`; `ListFallbackDomains` still
issues one request only (the server has served one request, the log holds one call) and
returns the single domain of that page. -/
theorem no_second_page_is_fetched :
    Package.paging.makeRequestContext ⟨0⟩ MethodGet
        "/accounts/abc/devices/policy/fallback_domains" Params.nil 0
      = ((pageBody 1 1 2000, none), 1)
    ∧ 1 * 20 < 2000
    ∧ (ListFallbackDomains Package.paging.recording ⟨0⟩ "abc" (0, [])).2
      = (1, [⟨⟨0⟩, "GET", "/accounts/abc/devices/policy/fallback_domains", Params.nil⟩])
    ∧ (ListFallbackDomains Package.paging.recording ⟨0⟩ "abc" (0, [])).1
      = (.elems [⟨"example.com", "", .nil⟩], none) :=
  ⟨rfl, by decide, by decide, by decide⟩

/-- C6 (amended): `ListFallbackDomains` issues one GET with no request parameters, whatever
the answer, and a `result_info` member in the body changes nothing in what is decoded: the
list returned is the `result` of that one response. -/
theorem list_fetches_one_response {σ : Type} (api : Package σ) (ctx : Context)
    (accountID : String) (s : σ) (log : List Call) :
    (ListFallbackDomains api.recording ctx accountID (s, log)).2.2
        = log ++ [⟨ctx, MethodGet,
            "/" ++ api.AccountRouteRoot ++ "/" ++ accountID ++ "/devices/policy/fallback_domains",
            Params.nil⟩]
    ∧ (∀ (before after : List (String × JSON)) (info : JSON) (v : FallbackDomainResponse),
        jsonUnmarshal (.text (.object (before ++ ("result_info", info) :: after))) v
          = jsonUnmarshal (.text (.object (before ++ after))) v) := by
  refine ⟨?_, ?_⟩
  · rw [list_recorded, Sprintf_fallbackDomains]
  · intro before after info v
    exact decodeStruct_skip_unbound FallbackDomainResponse.field
      "cloudflare.FallbackDomainResponse" "result_info" info before after v
      response_field_result_info

/-! ## The request that is issued -/

/-- C7: for every account ID, both methods request the path
`"/" + AccountRouteRoot + "/" + accountID + "/devices/policy/fallback_domains"`, the ID
inserted as it is; the request is issued for every ID. -/
theorem account_id_inserted_verbatim {σ : Type} (api : Package σ) (ctx : Context)
    (accountID : String) (domains : Slice FallbackDomain) (s : σ) (log : List Call) :
    (ListFallbackDomains api.recording ctx accountID (s, log)).2.2.map Call.uri
        = log.map Call.uri
          ++ ["/" ++ api.AccountRouteRoot ++ "/" ++ accountID
                ++ "/devices/policy/fallback_domains"]
    ∧ (UpdateFallbackDomain api.recording ctx accountID domains (s, log)).2.2.map Call.uri
        = log.map Call.uri
          ++ ["/" ++ api.AccountRouteRoot ++ "/" ++ accountID
                ++ "/devices/policy/fallback_domains"] := by
  rw [list_recorded, update_recorded, Sprintf_fallbackDomains]
  simp

/-- C8: `ListFallbackDomains` issues its request with verb GET and the nil parameter;
`UpdateFallbackDomain` issues its request with verb PUT and the caller's `domains` as the
parameter, unchanged; both pass the caller's context on. -/
theorem verb_body_and_context_passed {σ : Type} (api : Package σ) (ctx : Context)
    (accountID : String) (domains : Slice FallbackDomain) (s : σ) (log : List Call) :
    (ListFallbackDomains api.recording ctx accountID (s, log)).2.2.map
        (fun c => (c.ctx, c.method, c.params))
      = log.map (fun c => (c.ctx, c.method, c.params)) ++ [(ctx, "GET", Params.nil)]
    ∧ (UpdateFallbackDomain api.recording ctx accountID domains (s, log)).2.2.map
        (fun c => (c.ctx, c.method, c.params))
      = log.map (fun c => (c.ctx, c.method, c.params))
        ++ [(ctx, "PUT", Params.fallbackDomains domains)] := by
  rw [list_recorded, update_recorded]
  simp [MethodGet, MethodPut]

/-- C9: every call of either method invokes the request layer exactly once, whatever the
request layer answers: the log grows by one call, and recording changes neither the values
returned nor the client state. -/
theorem request_layer_invoked_once {σ : Type} (api : Package σ) (ctx : Context)
    (accountID : String) (domains : Slice FallbackDomain) (s : σ) (log : List Call) :
    (ListFallbackDomains api.recording ctx accountID (s, log)).2.2.length = log.length + 1
    ∧ (UpdateFallbackDomain api.recording ctx accountID domains (s, log)).2.2.length
        = log.length + 1
    ∧ (ListFallbackDomains api.recording ctx accountID (s, log)).1
        = (ListFallbackDomains api ctx accountID s).1
    ∧ (ListFallbackDomains api.recording ctx accountID (s, log)).2.1
        = (ListFallbackDomains api ctx accountID s).2
    ∧ (UpdateFallbackDomain api.recording ctx accountID domains (s, log)).1
        = (UpdateFallbackDomain api ctx accountID domains s).1
    ∧ (UpdateFallbackDomain api.recording ctx accountID domains (s, log)).2.1
        = (UpdateFallbackDomain api ctx accountID domains s).2 := by
  refine ⟨?_, ?_, (list_recording_transparent api ctx accountID s log).1,
    (list_recording_transparent api ctx accountID s log).2,
    (update_recording_transparent api ctx accountID domains s log).1,
    (update_recording_transparent api ctx accountID domains s log).2⟩
  · rw [list_recorded]; simp
  · rw [update_recorded]; simp

/-! ## Statelessness -/

/-- C10: two calls with equal arguments, made in client states `s` and `t`, for which the
request layer gives the same `([]byte, error)` pair, return equal results and equal errors;
and the client state after a call is the one the request layer left, so the methods
themselves neither keep nor change any state. -/
theorem stateless_and_deterministic {σ : Type} (api : Package σ) (ctx : Context)
    (accountID : String) (domains : Slice FallbackDomain) (s t : σ)
    (hL : (api.makeRequestContext ctx MethodGet
          (Sprintf "/%s/%s/devices/policy/fallback_domains" [api.AccountRouteRoot, accountID])
          Params.nil s).1
        = (api.makeRequestContext ctx MethodGet
          (Sprintf "/%s/%s/devices/policy/fallback_domains" [api.AccountRouteRoot, accountID])
          Params.nil t).1)
    (hU : (api.makeRequestContext ctx MethodPut
          (Sprintf "/%s/%s/devices/policy/fallback_domains" [api.AccountRouteRoot, accountID])
          (Params.fallbackDomains domains) s).1
        = (api.makeRequestContext ctx MethodPut
          (Sprintf "/%s/%s/devices/policy/fallback_domains" [api.AccountRouteRoot, accountID])
          (Params.fallbackDomains domains) t).1) :
    (ListFallbackDomains api ctx accountID s).1 = (ListFallbackDomains api ctx accountID t).1
    ∧ (UpdateFallbackDomain api ctx accountID domains s).1
        = (UpdateFallbackDomain api ctx accountID domains t).1
    ∧ (ListFallbackDomains api ctx accountID s).2
        = (api.makeRequestContext ctx MethodGet
          (Sprintf "/%s/%s/devices/policy/fallback_domains" [api.AccountRouteRoot, accountID])
          Params.nil s).2
    ∧ (UpdateFallbackDomain api ctx accountID domains s).2
        = (api.makeRequestContext ctx MethodPut
          (Sprintf "/%s/%s/devices/policy/fallback_domains" [api.AccountRouteRoot, accountID])
          (Params.fallbackDomains domains) s).2 :=
  ⟨list_result_congr api api ctx ctx accountID accountID s t rfl hL,
   update_result_congr api api ctx ctx accountID accountID domains domains s t rfl hU,
   list_state api ctx accountID s,
   update_state api ctx accountID domains s⟩

/-- C10 at a client that keeps a log of earlier calls: with an empty log and with a log
left by an earlier call the request layer answers alike, and so do the methods. -/
theorem stateless_and_deterministic_witness :
    ((Package.answering failedEnvelope none).recording.makeRequestContext ⟨0⟩ MethodGet
          (Sprintf "/%s/%s/devices/policy/fallback_domains" ["accounts", "abc"])
          Params.nil ((), [])).1
        = ((Package.answering failedEnvelope none).recording.makeRequestContext ⟨0⟩ MethodGet
          (Sprintf "/%s/%s/devices/policy/fallback_domains" ["accounts", "abc"])
          Params.nil ((), [⟨⟨9⟩, "GET", "/earlier", Params.nil⟩])).1
    ∧ (ListFallbackDomains (Package.answering failedEnvelope none).recording ⟨0⟩ "abc" ((), [])).1
        = (ListFallbackDomains (Package.answering failedEnvelope none).recording ⟨0⟩ "abc"
            ((), [⟨⟨9⟩, "GET", "/earlier", Params.nil⟩])).1 :=
  ⟨rfl, (stateless_and_deterministic (Package.answering failedEnvelope none).recording ⟨0⟩
    "abc" .nil ((), []) ((), [⟨⟨9⟩, "GET", "/earlier", Params.nil⟩]) rfl rfl).1⟩


/-! ## Objects with plain keys -/

theorem boundKeys_cons (tags : List String) (k : String) (v : JSON)
    (ms : List (String × JSON)) :
    boundKeys tags ((k, v) :: ms)
      = if (tags.any fun t => equalFold t k) = true then k :: boundKeys tags ms
        else boundKeys tags ms := by
  simp only [boundKeys, List.map_cons, List.filter_cons]

theorem plainKeys_iff {tags : List String} {ms : List (String × JSON)} :
    plainKeys tags ms = true
      ↔ (∀ k ∈ boundKeys tags ms, k ∈ tags) ∧ (boundKeys tags ms).Nodup := by
  simp [plainKeys]

theorem plainKeys_tail {tags : List String} {k : String} {v : JSON}
    {ms : List (String × JSON)} (h : plainKeys tags ((k, v) :: ms) = true) :
    plainKeys tags ms = true := by
  rw [plainKeys_iff] at h ⊢
  rw [boundKeys_cons] at h
  split at h
  · exact ⟨fun x hx => h.1 x (List.mem_cons_of_mem _ hx), (List.nodup_cons.mp h.2).2⟩
  · exact h

theorem lookup_eq_none_of_not_bound {tags : List String} {t : String}
    {ms : List (String × JSON)} (hb : (tags.any fun t' => equalFold t' t) = true)
    (h : t ∉ boundKeys tags ms) : ms.lookup t = none := by
  rw [List.lookup_eq_none_iff]
  intro p hp
  simp only [bne_iff_ne, ne_eq]
  intro heq
  apply h
  simp only [boundKeys, List.mem_filter, List.mem_map]
  exact ⟨⟨p, hp, heq.symm⟩, hb⟩

/-- What the walk over a plain object leaves in one field: the decoded value of the member
keyed by the field's tag, or the field's old value when there is no such member; and a walk
without error means this member decoded without error. -/
theorem foldl_storeMember_field {α β : Type}
    (field : String → Option (JSON → α → α × Option JsonError)) (tags : List String)
    (t : String) (get : α → β) (dec : JSON → β → β × Option JsonError)
    (hbound : ∀ k, field k = none ↔ (tags.any fun t' => equalFold t' k) = false)
    (ht : ∀ st, field t = some st →
      ∀ v a, get (st v a).1 = (dec v (get a)).1 ∧ (st v a).2 = (dec v (get a)).2)
    (htb : (tags.any fun t' => equalFold t' t) = true)
    (hother : ∀ t' ∈ tags, t' ≠ t → ∀ st, field t' = some st → ∀ v a, get (st v a).1 = get a)
    (ms : List (String × JSON)) (hplain : plainKeys tags ms = true) (acc : α × Option JsonError) :
    get (ms.foldl (storeMember field) acc).1
        = (match ms.lookup t with
          | none => get acc.1
          | some v => (dec v (get acc.1)).1)
    ∧ ((ms.foldl (storeMember field) acc).2 = none →
        acc.2 = none ∧ ∀ v, ms.lookup t = some v → (dec v (get acc.1)).2 = none) := by
  induction ms generalizing acc with
  | nil => simp
  | cons m ms ih =>
    obtain ⟨k, v⟩ := m
    have hp' := plainKeys_tail hplain
    have hplain' := plainKeys_iff.mp hplain
    rw [boundKeys_cons] at hplain'
    simp only [List.foldl_cons]
    cases hfk : field k with
    | none =>
      have hk : (tags.any fun t' => equalFold t' k) = false := (hbound k).mp hfk
      have hne : t ≠ k := by
        rintro rfl
        rw [hk] at htb
        exact Bool.noConfusion htb
      have hacc : storeMember field acc (k, v) = acc := by simp [storeMember, hfk]
      rw [hacc, List.lookup_cons, beq_false_of_ne hne]
      exact ih hp' acc
    | some st =>
      have hk : (tags.any fun t' => equalFold t' k) = true := by
        cases hb : (tags.any fun t' => equalFold t' k) with
        | true => rfl
        | false => rw [(hbound k).mpr hb] at hfk; exact Option.noConfusion hfk
      rw [if_pos hk] at hplain'
      have hkt : k ∈ tags := hplain'.1 k (List.mem_cons_self _ _)
      have hnd := List.nodup_cons.mp hplain'.2
      have hacc : storeMember field acc (k, v)
          = ((st v acc.1).1, firstError acc.2 (st v acc.1).2) := by
        simp [storeMember, hfk]
      rw [hacc]
      have IH := ih hp' ((st v acc.1).1, firstError acc.2 (st v acc.1).2)
      by_cases hkeq : k = t
      · subst hkeq
        have hl : ms.lookup k = none := lookup_eq_none_of_not_bound hk hnd.1
        have hst := ht st hfk v acc.1
        rw [hl] at IH
        rw [List.lookup_cons_self]
        refine ⟨by rw [IH.1]; exact hst.1, ?_⟩
        intro hnone
        have h2 := (IH.2 hnone).1
        rw [firstError_eq_none] at h2
        refine ⟨h2.1, ?_⟩
        intro v' hv'
        cases hv'
        rw [← hst.2]
        exact h2.2
      · have hne : t ≠ k := fun h => hkeq h.symm
        have hget : get (st v acc.1).1 = get acc.1 := hother k hkt hkeq st hfk v acc.1
        rw [List.lookup_cons, beq_false_of_ne hne]
        simp only [hget] at IH
        refine ⟨IH.1, ?_⟩
        intro hnone
        have h2 := IH.2 hnone
        rw [firstError_eq_none] at h2
        exact ⟨h2.1.1, h2.2⟩

/-! ## Decoding agrees with reading by key -/

theorem decodeElems_fresh {α : Type} (dec : JSON → α → α × Option JsonError) (zero : α)
    (xs : List JSON) :
    (decodeElems dec zero xs []).1 = xs.map (fun x => (dec x zero).1)
    ∧ ((decodeElems dec zero xs []).2 = none → ∀ x ∈ xs, (dec x zero).2 = none) := by
  induction xs with
  | nil => simp [decodeElems]
  | cons x xs ih =>
    simp only [decodeElems, List.headD_nil, List.tail_nil, List.map_cons, ih.1,
      firstError_eq_none, List.mem_cons, true_and]
    rintro ⟨h1, h2⟩ y (rfl | hy)
    · exact h1
    · exact ih.2 h2 y hy

theorem decodeString_eq_readString (v : JSON) (h : (decodeString v "").2 = none) :
    (decodeString v "").1 = readString (some v) := by
  cases v <;> simp_all [decodeString, readString]

theorem decodeStrings_eq_readStrings (v : JSON)
    (h : (decodeSlice decodeString "" "[]string" v Slice.nil).2 = none) :
    (decodeSlice decodeString "" "[]string" v Slice.nil).1 = readStrings (some v) := by
  cases v with
  | array xs =>
    simp only [decodeSlice, Slice.toList, readStrings] at h ⊢
    rw [(decodeElems_fresh decodeString "" xs).1]
    congr 1
    apply List.map_congr_left
    intro x hx
    exact decodeString_eq_readString x ((decodeElems_fresh decodeString "" xs).2 h x hx)
  | _ => simp_all [decodeSlice, readStrings]

theorem domain_field_eq_none (k : String) :
    FallbackDomain.field k = none
      ↔ (["suffix", "description", "dns_server"].any fun t => equalFold t k) = false := by
  unfold FallbackDomain.field
  split_ifs <;> simp_all

theorem response_field_eq_none (k : String) :
    FallbackDomainResponse.field k = none
      ↔ (["success", "errors", "messages", "result"].any fun t => equalFold t k) = false := by
  unfold FallbackDomainResponse.field
  split_ifs <;> simp_all

theorem domain_field_suffix :
    FallbackDomain.field "suffix"
      = some fun v d => ({ d with Suffix := (decodeString v d.Suffix).1 },
          (decodeString v d.Suffix).2) := rfl

theorem domain_field_description :
    FallbackDomain.field "description"
      = some fun v d => ({ d with Description := (decodeString v d.Description).1 },
          (decodeString v d.Description).2) := rfl

theorem domain_field_dns_server :
    FallbackDomain.field "dns_server"
      = some fun v d =>
          ({ d with DNSServer := (decodeSlice decodeString "" "[]string" v d.DNSServer).1 },
           (decodeSlice decodeString "" "[]string" v d.DNSServer).2) := rfl

theorem response_field_success :
    FallbackDomainResponse.field "success"
      = some fun v d =>
          ({ d with toResponse :=
              { d.toResponse with Success := (decodeBool v d.toResponse.Success).1 } },
           (decodeBool v d.toResponse.Success).2) := rfl

theorem response_field_errors :
    FallbackDomainResponse.field "errors"
      = some fun v d =>
          ({ d with toResponse :=
              { d.toResponse with Errors :=
                (decodeSlice decodeResponseInfo ResponseInfo.zero "[]cloudflare.ResponseInfo" v
                  d.toResponse.Errors).1 } },
           (decodeSlice decodeResponseInfo ResponseInfo.zero "[]cloudflare.ResponseInfo" v
              d.toResponse.Errors).2) := rfl

theorem response_field_messages :
    FallbackDomainResponse.field "messages"
      = some fun v d =>
          ({ d with toResponse :=
              { d.toResponse with Messages :=
                (decodeSlice decodeString "" "[]string" v d.toResponse.Messages).1 } },
           (decodeSlice decodeString "" "[]string" v d.toResponse.Messages).2) := rfl

theorem response_field_result :
    FallbackDomainResponse.field "result"
      = some fun v d =>
          ({ d with Result :=
              (decodeSlice decodeFallbackDomain FallbackDomain.zero
                "[]cloudflare.FallbackDomain" v d.Result).1 },
           (decodeSlice decodeFallbackDomain FallbackDomain.zero
              "[]cloudflare.FallbackDomain" v d.Result).2) := rfl

theorem decodeFallbackDomain_eq_read (x : JSON) (hp : plainDomain x = true)
    (he : (decodeFallbackDomain x FallbackDomain.zero).2 = none) :
    (decodeFallbackDomain x FallbackDomain.zero).1 = readFallbackDomain x := by
  cases x with
  | object ms =>
    have hs := foldl_storeMember_field FallbackDomain.field
      ["suffix", "description", "dns_server"] "suffix" FallbackDomain.Suffix decodeString
      domain_field_eq_none
      (by intro st hst; rw [domain_field_suffix] at hst; cases hst
          intro v a; exact ⟨rfl, rfl⟩)
      (by rfl)
      (by intro t' ht' hne st hst v a
          simp only [List.mem_cons, List.mem_singleton, List.not_mem_nil, or_false] at ht'
          rcases ht' with rfl | rfl | rfl
          · exact absurd rfl hne
          · rw [domain_field_description] at hst; cases hst; rfl
          · rw [domain_field_dns_server] at hst; cases hst; rfl)
      ms hp (FallbackDomain.zero, none)
    have hd := foldl_storeMember_field FallbackDomain.field
      ["suffix", "description", "dns_server"] "description" FallbackDomain.Description
      decodeString domain_field_eq_none
      (by intro st hst; rw [domain_field_description] at hst; cases hst
          intro v a; exact ⟨rfl, rfl⟩)
      (by rfl)
      (by intro t' ht' hne st hst v a
          simp only [List.mem_cons, List.mem_singleton, List.not_mem_nil, or_false] at ht'
          rcases ht' with rfl | rfl | rfl
          · rw [domain_field_suffix] at hst; cases hst; rfl
          · exact absurd rfl hne
          · rw [domain_field_dns_server] at hst; cases hst; rfl)
      ms hp (FallbackDomain.zero, none)
    have hn := foldl_storeMember_field FallbackDomain.field
      ["suffix", "description", "dns_server"] "dns_server" FallbackDomain.DNSServer
      (decodeSlice decodeString "" "[]string") domain_field_eq_none
      (by intro st hst; rw [domain_field_dns_server] at hst; cases hst
          intro v a; exact ⟨rfl, rfl⟩)
      (by rfl)
      (by intro t' ht' hne st hst v a
          simp only [List.mem_cons, List.mem_singleton, List.not_mem_nil, or_false] at ht'
          rcases ht' with rfl | rfl | rfl
          · rw [domain_field_suffix] at hst; cases hst; rfl
          · rw [domain_field_description] at hst; cases hst; rfl
          · exact absurd rfl hne)
      ms hp (FallbackDomain.zero, none)
    simp only [decodeFallbackDomain, decodeStruct] at he ⊢
    have es := (hs.2 he).2
    have ed := (hd.2 he).2
    have en := (hn.2 he).2
    have h1 := hs.1
    have h2 := hd.1
    have h3 := hn.1
    generalize List.foldl (storeMember FallbackDomain.field) (FallbackDomain.zero, none) ms = r
      at h1 h2 h3
    obtain ⟨⟨a, b, c⟩, e⟩ := r
    simp only [readFallbackDomain, FallbackDomain.mk.injEq]
    simp only [FallbackDomain.zero] at h1 h2 h3 es ed en
    refine ⟨?_, ?_, ?_⟩
    · rw [h1]
      cases hl : ms.lookup "suffix" with
      | none => rfl
      | some v => exact decodeString_eq_readString v (es v hl)
    · rw [h2]
      cases hl : ms.lookup "description" with
      | none => rfl
      | some v => exact decodeString_eq_readString v (ed v hl)
    · rw [h3]
      cases hl : ms.lookup "dns_server" with
      | none => rfl
      | some v => exact decodeStrings_eq_readStrings v (en v hl)
  | null => rfl
  | _ => simp [decodeFallbackDomain, decodeStruct] at he

/-- On a body with plain keys that decodes without error, the decoded `Result` is the
sequence read off under the `result` key. -/
theorem jsonUnmarshal_result_eq_read (res : Bytes) (hp : plainBody res = true)
    (he : (jsonUnmarshal res FallbackDomainResponse.zero).2 = none) :
    (jsonUnmarshal res FallbackDomainResponse.zero).1.Result = resultUnderKey res := by
  cases res with
  | malformed msg => simp [jsonUnmarshal] at he
  | text doc =>
    cases doc with
    | object ms =>
      simp only [plainBody, Bool.and_eq_true] at hp
      have hr := foldl_storeMember_field FallbackDomainResponse.field
        ["success", "errors", "messages", "result"] "result" FallbackDomainResponse.Result
        (decodeSlice decodeFallbackDomain FallbackDomain.zero "[]cloudflare.FallbackDomain")
        response_field_eq_none
        (by intro st hst; rw [response_field_result] at hst; cases hst
            intro v a; exact ⟨rfl, rfl⟩)
        (by rfl)
        (by intro t' ht' hne st hst v a
            simp only [List.mem_cons, List.mem_singleton, List.not_mem_nil, or_false] at ht'
            rcases ht' with rfl | rfl | rfl | rfl
            · rw [response_field_success] at hst; cases hst; rfl
            · rw [response_field_errors] at hst; cases hst; rfl
            · rw [response_field_messages] at hst; cases hst; rfl
            · exact absurd rfl hne)
        ms hp.1 (FallbackDomainResponse.zero, none)
      have hp2 := hp.2
      simp only [jsonUnmarshal, decodeStruct] at he ⊢
      have er := (hr.2 he).2
      rw [hr.1]
      simp only [resultUnderKey]
      cases hl : ms.lookup "result" with
      | none => rfl
      | some v =>
        have ev := er v hl
        cases v with
        | array xs =>
          simp only [decodeSlice, FallbackDomainResponse.zero, Slice.toList] at ev ⊢
          rw [(decodeElems_fresh decodeFallbackDomain FallbackDomain.zero xs).1]
          congr 1
          apply List.map_congr_left
          intro x hx
          rw [hl] at hp2
          exact decodeFallbackDomain_eq_read x (List.all_eq_true.mp hp2 x hx)
            ((decodeElems_fresh decodeFallbackDomain FallbackDomain.zero xs).2 ev x hx)
        | null => rfl
        | _ => simp [decodeSlice] at ev
    | null => rfl
    | _ => simp [jsonUnmarshal, decodeStruct] at he

/-! ## The decoded result -/

/-- C5 (counterexample): three bodies handed back without error that decode into
`FallbackDomainResponse`.  In the first the key `result` occurs twice, in the second it is
followed by a key `Result`, and the third has the key `RESULT` only.  `ListFallbackDomains`
returns a nil error for each, with the domains of the later array for the first two, where
the array under the first `result` key holds another domain, and with one domain for the
third, which has no `result` key at all. -/
theorem later_or_refolded_key_decides_result :
    ((jsonUnmarshal repeatedResult FallbackDomainResponse.zero).2 = none
      ∧ resultUnderKey repeatedResult = .elems [⟨"first.example", "", .nil⟩]
      ∧ (ListFallbackDomains (Package.answering repeatedResult none) ⟨0⟩ "abc" ()).1
          = (.elems [⟨"second.example", "", .nil⟩], none))
    ∧ ((jsonUnmarshal shadowedResult FallbackDomainResponse.zero).2 = none
      ∧ resultUnderKey shadowedResult = .elems [⟨"first.example", "", .nil⟩]
      ∧ (ListFallbackDomains (Package.answering shadowedResult none) ⟨0⟩ "abc" ()).1
          = (.elems [⟨"second.example", "", .nil⟩], none))
    ∧ ((jsonUnmarshal upperCaseResult FallbackDomainResponse.zero).2 = none
      ∧ resultUnderKey upperCaseResult = .nil
      ∧ (ListFallbackDomains (Package.answering upperCaseResult none) ⟨0⟩ "abc" ()).1
          = (.elems [⟨"example.com", "", .nil⟩], none))
    ∧ (ListFallbackDomains (Package.answering repeatedResult none) ⟨0⟩ "abc" ()).1.1
        ≠ resultUnderKey repeatedResult
    ∧ (ListFallbackDomains (Package.answering shadowedResult none) ⟨0⟩ "abc" ()).1.1
        ≠ resultUnderKey shadowedResult
    ∧ (ListFallbackDomains (Package.answering upperCaseResult none) ⟨0⟩ "abc" ()).1.1
        ≠ resultUnderKey upperCaseResult
    ∧ plainBody repeatedResult = false
    ∧ plainBody shadowedResult = false
    ∧ plainBody upperCaseResult = false := by
  decide

/-- C5 (amended): when the request layer returns a body without error and the body decodes
into `FallbackDomainResponse`, `ListFallbackDomains` returns a nil error and the decoded
`Result`; for a body that names each field by its tag, spelled exactly and at most once,
this is the sequence of `FallbackDomain` values under the body's `result` key, one per array
element, in order, with the field values the element spells out. -/
theorem decoded_result_returned_in_order {σ : Type} (api : Package σ) (ctx : Context)
    (accountID : String) (s s' : σ) (res : Bytes)
    (h : api.makeRequestContext ctx MethodGet
      (Sprintf "/%s/%s/devices/policy/fallback_domains" [api.AccountRouteRoot, accountID])
      Params.nil s = ((res, none), s'))
    (hd : (jsonUnmarshal res FallbackDomainResponse.zero).2 = none) :
    ListFallbackDomains api ctx accountID s
        = (((jsonUnmarshal res FallbackDomainResponse.zero).1.Result, none), s')
    ∧ (plainBody res = true →
        ListFallbackDomains api ctx accountID s = ((resultUnderKey res, none), s')
        ∧ ∀ members xs, res = .text (.object members) →
            members.lookup "result" = some (.array xs) →
            (ListFallbackDomains api ctx accountID s).1.1 = .elems (xs.map readFallbackDomain)
            ∧ (ListFallbackDomains api ctx accountID s).1.1.len = xs.length) := by
  have h1 := list_of_decoded api ctx accountID s s' res h hd
  refine ⟨h1, ?_⟩
  intro hp
  have h2 := jsonUnmarshal_result_eq_read res hp hd
  rw [h1, h2]
  refine ⟨rfl, ?_⟩
  rintro members xs rfl hl
  simp [resultUnderKey, hl, Slice.len, Slice.toList]

/-- The amended C5 at a body holding two fallback domains. -/
theorem decoded_result_returned_in_order_witness :
    ((jsonUnmarshal twoDomains FallbackDomainResponse.zero).2 = none
      ∧ plainBody twoDomains = true)
    ∧ ListFallbackDomains (Package.answering twoDomains none) ⟨0⟩ "abc" ()
        = ((.elems [⟨"example.com", "first", .nil⟩,
                    ⟨"corp.test", "", .elems ["10.0.0.1", "10.0.0.2"]⟩], none), ()) :=
  ⟨⟨rfl, by decide⟩,
   ((decoded_result_returned_in_order (Package.answering twoDomains none) ⟨0⟩ "abc" () ()
      twoDomains rfl rfl).2 (by decide)).1⟩

/-! ## Encoding a fallback domain and decoding it again -/

theorem decodeElems_strings (xs : List String) :
    decodeElems decodeString "" (xs.map JSON.string) [] = (xs, none) := by
  induction xs with
  | nil => rfl
  | cons x xs ih => simp [decodeElems, ih, decodeString, firstError]

/-- What decoding the encoding of `d` gives: `d` itself, except that an empty non-nil
`DNSServer` comes back as the nil slice. -/
theorem decode_encodeFallbackDomain (d : FallbackDomain) :
    decodeFallbackDomain (encodeFallbackDomain d) FallbackDomain.zero
      = ({ d with DNSServer := if d.DNSServer.len = 0 then Slice.nil else d.DNSServer },
         none) := by
  obtain ⟨s, t, n⟩ := d
  have hs : FallbackDomain.field "suffix" = _ := domain_field_suffix
  have ht : FallbackDomain.field "description" = _ := domain_field_description
  have hn : FallbackDomain.field "dns_server" = _ := domain_field_dns_server
  cases n with
  | nil =>
    by_cases h1 : s = "" <;> by_cases h2 : t = "" <;>
      simp [encodeFallbackDomain, omitEmpty, decodeFallbackDomain, decodeStruct, storeMember,
        hs, ht, hn, h1, h2, Slice.len, Slice.toList, FallbackDomain.zero, decodeString,
        firstError]
  | elems xs =>
    by_cases h3 : xs = []
    · subst h3
      by_cases h1 : s = "" <;> by_cases h2 : t = "" <;>
        simp [encodeFallbackDomain, omitEmpty, decodeFallbackDomain, decodeStruct, storeMember,
          hs, ht, hn, h1, h2, Slice.len, Slice.toList, FallbackDomain.zero, decodeString,
          firstError]
    · by_cases h1 : s = "" <;> by_cases h2 : t = "" <;>
        simp [encodeFallbackDomain, omitEmpty, decodeFallbackDomain, decodeStruct, storeMember,
          hs, ht, hn, h1, h2, h3, Slice.len, Slice.toList, FallbackDomain.zero, decodeString,
          firstError, encodeSlice, decodeSlice, decodeElems_strings]

/-- C11: for every `FallbackDomain` `d`, decoding the JSON encoding of `d` succeeds and
encoding the decoded value gives the encoding of `d` again; so a key that is absent from the
first encoding is absent from the second, and no field comes back as `""` or `[]`. -/
theorem omitted_fields_stay_omitted (d : FallbackDomain) :
    (decodeFallbackDomain (encodeFallbackDomain d) FallbackDomain.zero).2 = none
    ∧ encodeFallbackDomain
        (decodeFallbackDomain (encodeFallbackDomain d) FallbackDomain.zero).1
      = encodeFallbackDomain d
    ∧ (∀ key, key ∉ (encodeFallbackDomain d).keys →
        key ∉ (encodeFallbackDomain
          (decodeFallbackDomain (encodeFallbackDomain d) FallbackDomain.zero).1).keys)
    ∧ (∀ key v, (key, v) ∈ (encodeFallbackDomain
          (decodeFallbackDomain (encodeFallbackDomain d) FallbackDomain.zero).1).members →
        v ≠ .string "" ∧ v ≠ .array [] ∧ v ≠ .null) := by
  have henc : encodeFallbackDomain
        (decodeFallbackDomain (encodeFallbackDomain d) FallbackDomain.zero).1
      = encodeFallbackDomain d := by
    rw [decode_encodeFallbackDomain]
    obtain ⟨s, t, n⟩ := d
    cases n with
    | nil => simp [encodeFallbackDomain, Slice.len, Slice.toList]
    | elems xs =>
      by_cases h3 : xs = []
      · subst h3; simp [encodeFallbackDomain, Slice.len, Slice.toList, omitEmpty]
      · simp [encodeFallbackDomain, Slice.len, Slice.toList, h3]
  refine ⟨by rw [decode_encodeFallbackDomain], henc, ?_, ?_⟩
  · intro key hk
    rw [henc]
    exact hk
  · rw [henc]
    intro key v hv
    obtain ⟨s, t, n⟩ := d
    simp only [encodeFallbackDomain, JSON.members, omitEmpty, List.mem_append] at hv
    rcases hv with (hv | hv) | hv
    · split at hv
      · simp at hv
      · simp at hv
        obtain ⟨-, rfl⟩ := hv
        simp_all
    · split at hv
      · simp at hv
      · simp at hv
        obtain ⟨-, rfl⟩ := hv
        simp_all
    · split at hv
      · simp at hv
      · simp at hv
        obtain ⟨-, rfl⟩ := hv
        cases n with
        | nil => simp_all [Slice.len, Slice.toList]
        | elems xs => simp_all [Slice.len, Slice.toList, encodeSlice]

/-! ## Keys of an encoded struct -/

theorem lookup_member (key k : String) (v : JSON) :
    (member k v).lookup key = if key = k then some v else none := by
  by_cases h : key = k
  · simp [member, List.lookup, h]
  · simp [member, List.lookup, h, beq_false_of_ne h]

theorem lookup_omitEmpty (key k : String) (e : Bool) (v : JSON) :
    (omitEmpty k e v).lookup key = if e = false ∧ key = k then some v else none := by
  cases e <;> by_cases h : key = k <;>
    simp [omitEmpty, List.lookup, h, beq_false_of_ne]

theorem keys_member (k : String) (v : JSON) : (member k v).map Prod.fst = [k] := rfl

theorem keys_omitEmpty (k : String) (e : Bool) (v : JSON) :
    (omitEmpty k e v).map Prod.fst = if e = true then [] else [k] := by
  cases e <;> rfl

/-- The keys of an encoded pool: the seven that are always written, and each of the nine
others when its field is not empty. -/
theorem keys_encodeLoadBalancerPool (x : LoadBalancerPool) :
    (encodeLoadBalancerPool x).keys
      = (if (x.ID == "") = true then [] else ["id"])
        ++ (if x.CreatedOn.isNone = true then [] else ["created_on"])
        ++ (if x.ModifiedOn.isNone = true then [] else ["modified_on"])
        ++ ["description", "name", "enabled", "healthy"]
        ++ (if (x.MinimumOrigins == 0) = true then [] else ["minimum_origins"])
        ++ (if (x.Monitor == "") = true then [] else ["monitor"])
        ++ (if x.Latitude.isNone = true then [] else ["latitude"])
        ++ (if x.Longitude.isNone = true then [] else ["longitude"])
        ++ (if x.LoadShedding.isNone = true then [] else ["load_shedding"])
        ++ (if x.OriginSteering.isNone = true then [] else ["origin_steering"])
        ++ ["origins", "notification_email", "check_regions"] := by
  simp only [encodeLoadBalancerPool, JSON.keys, JSON.members, List.map_append, keys_member,
    keys_omitEmpty, List.append_assoc, List.cons_append, List.nil_append]

/-! ## Optional fields of a pool -/

/-- C12: a pool whose `Latitude` (`Longitude`) is unset serializes without the key
`latitude` (`longitude`); a pool that sets it serializes the key with that value.  The
request of `TestModifyLoadBalancerPool` sets neither and serializes to the body its handler
expects, which has neither key; the request of `TestCreateLoadBalancerPool` sets 55 and
-12.5 and serializes to the body its handler expects, which has both. -/
theorem unset_latitude_longitude_not_serialized (pool : LoadBalancerPool) :
    (pool.Latitude = none → "latitude" ∉ (encodeLoadBalancerPool pool).keys)
    ∧ (pool.Longitude = none → "longitude" ∉ (encodeLoadBalancerPool pool).keys)
    ∧ (∀ x, pool.Latitude = some x →
        (encodeLoadBalancerPool pool).members.lookup "latitude" = some (.number x))
    ∧ (∀ y, pool.Longitude = some y →
        (encodeLoadBalancerPool pool).members.lookup "longitude" = some (.number y))
    ∧ (modifyPoolRequest.Latitude = none ∧ modifyPoolRequest.Longitude = none
        ∧ encodeLoadBalancerPool modifyPoolRequest = modifyPoolBody
        ∧ "latitude" ∉ modifyPoolBody.keys ∧ "longitude" ∉ modifyPoolBody.keys)
    ∧ (createPoolRequest.Latitude = some (.int 55)
        ∧ createPoolRequest.Longitude = some (.frac "-12.5")
        ∧ encodeLoadBalancerPool createPoolRequest = createPoolBody
        ∧ createPoolBody.members.lookup "latitude" = some (.number (.int 55))
        ∧ createPoolBody.members.lookup "longitude" = some (.number (.frac "-12.5"))) := by
  refine ⟨?_, ?_, ?_, ?_, ⟨rfl, rfl, rfl, by decide, by decide⟩, ⟨rfl, rfl, rfl, rfl, rfl⟩⟩
  · intro h
    rw [keys_encodeLoadBalancerPool]
    simp [h]
  · intro h
    rw [keys_encodeLoadBalancerPool]
    simp [h]
  · intro x h
    simp [encodeLoadBalancerPool, JSON.members, List.lookup_append, lookup_member,
      lookup_omitEmpty, h, encodePtr]
  · intro y h
    simp [encodeLoadBalancerPool, JSON.members, List.lookup_append, lookup_member,
      lookup_omitEmpty, h, encodePtr]

/-! ## What `Execute` and the endpoint methods do with the transport -/

/-- The state after `Execute` is the one its single exchange left. -/
theorem Execute_state {σ : Type} (t : Transport σ) (ctx : Context) (verb path : String)
    (body : Option JSON) (s : σ) :
    (Execute t ctx verb path body s).2 = (t.doRequest ctx verb path body s).2 := by
  unfold Execute
  simp only []
  split
  · rfl
  · split
    · rfl
    · split
      · rfl
      · split <;> rfl

/-- The log after `Execute` on a recording transport: one more exchange. -/
theorem Execute_recorded {σ : Type} (t : Transport σ) (ctx : Context) (verb path : String)
    (body : Option JSON) (s : σ) (log : List Exchange) :
    (Execute t.recording ctx verb path body (s, log)).2.2
      = log ++ [⟨ctx, verb, path, body⟩] := by
  rw [Execute_state]
  rfl

/-- The log after an endpoint method on a recording transport: one more exchange. -/
theorem callEndpoint_recorded {σ α : Type} (decode : JSON → α → α × Option JsonError)
    (zero : α) (t : Transport σ) (ctx : Context) (verb path : String) (body : Option JSON)
    (s : σ) (log : List Exchange) :
    (callEndpoint decode zero t.recording ctx verb path body (s, log)).2.2
      = log ++ [⟨ctx, verb, path, body⟩] := by
  simp only [callEndpoint]
  exact Execute_recorded t ctx verb path body s log

/-- `Execute` on an answer without transport error whose body is an envelope. -/
theorem Execute_of_envelope {σ : Type} (t : Transport σ) (ctx : Context) (verb path : String)
    (body : Option JSON) (s s' : σ) (status : Nat) (doc : JSON) (env : Envelope)
    (h : t.doRequest ctx verb path body s = ((status, .text doc, none), s'))
    (he : decodeEnvelope doc Envelope.zero = (env, none)) :
    Execute t ctx verb path body s
      = (if (isSuccessStatus status && env.Success) = true then ((env.Result, none), s')
         else ((.null, some (.apiError env.Errors.toList)), s')) := by
  simp [Execute, h, he]

/-- `Execute` fails on every answer whose status is not 2xx. -/
theorem Execute_error_of_status {σ : Type} (t : Transport σ) (ctx : Context)
    (verb path : String) (body : Option JSON) (s : σ)
    (h : isSuccessStatus (t.doRequest ctx verb path body s).1.1 = false) :
    (Execute t ctx verb path body s).1.2 ≠ none := by
  unfold Execute
  simp only []
  split
  · simp
  · split
    · simp
    · split
      · simp
      · simp [h]

/-- An endpoint method fails whenever `Execute` fails, with the same error. -/
theorem callEndpoint_error_of_Execute {σ α : Type}
    (decode : JSON → α → α × Option JsonError) (zero : α) (t : Transport σ) (ctx : Context)
    (verb path : String) (body : Option JSON) (s : σ) (e : GoError)
    (h : (Execute t ctx verb path body s).1.2 = some e) :
    (callEndpoint decode zero t ctx verb path body s).1 = (zero, some e) := by
  simp [callEndpoint, unmarshalResult, h]

/-- An endpoint method on a `result` that decodes. -/
theorem callEndpoint_of_result {σ α : Type}
    (decode : JSON → α → α × Option JsonError) (zero : α) (t : Transport σ) (ctx : Context)
    (verb path : String) (body : Option JSON) (s : σ) (result : JSON)
    (h : (Execute t ctx verb path body s).1 = (result, none))
    (hd : (decode result zero).2 = none) :
    (callEndpoint decode zero t ctx verb path body s).1 = ((decode result zero).1, none) := by
  simp [callEndpoint, unmarshalResult, h, hd]

/-! ## Creating a pool -/

/-- C14: `CreateLoadBalancerPool` hands the transport one exchange, a POST to the pool
collection whose body is the JSON of the request.  The keys of that body are the seven that
are always written and, of `id`, `created_on`, `modified_on`, `minimum_origins`, `monitor`,
`latitude`, `longitude`, `load_shedding` and `origin_steering`, those whose field is set:
none is added, none is missing.  The nested `load_shedding`, `origin_steering` and
`origins[].header` objects are written key for key.  For the request of
`TestCreateLoadBalancerPool` the body is the one its handler expects. -/
theorem create_pool_sends_one_post {σ : Type} (t : Transport σ) (ctx : Context)
    (pool : LoadBalancerPool) (s : σ) (log : List Exchange) :
    (CreateLoadBalancerPool t.recording ctx pool (s, log)).2.2
        = log ++ [⟨ctx, "POST", "/user/load_balancers/pools",
            some (encodeLoadBalancerPool pool)⟩]
    ∧ (encodeLoadBalancerPool pool).keys
        = (if (pool.ID == "") = true then [] else ["id"])
          ++ (if pool.CreatedOn.isNone = true then [] else ["created_on"])
          ++ (if pool.ModifiedOn.isNone = true then [] else ["modified_on"])
          ++ ["description", "name", "enabled", "healthy"]
          ++ (if (pool.MinimumOrigins == 0) = true then [] else ["minimum_origins"])
          ++ (if (pool.Monitor == "") = true then [] else ["monitor"])
          ++ (if pool.Latitude.isNone = true then [] else ["latitude"])
          ++ (if pool.Longitude.isNone = true then [] else ["longitude"])
          ++ (if pool.LoadShedding.isNone = true then [] else ["load_shedding"])
          ++ (if pool.OriginSteering.isNone = true then [] else ["origin_steering"])
          ++ ["origins", "notification_email", "check_regions"]
    ∧ (pool.ID = "" → "id" ∉ (encodeLoadBalancerPool pool).keys)
    ∧ (pool.CreatedOn = none → "created_on" ∉ (encodeLoadBalancerPool pool).keys)
    ∧ (pool.ModifiedOn = none → "modified_on" ∉ (encodeLoadBalancerPool pool).keys)
    ∧ (pool.MinimumOrigins = 0 → "minimum_origins" ∉ (encodeLoadBalancerPool pool).keys)
    ∧ (∀ ls, pool.LoadShedding = some ls →
        (encodeLoadBalancerPool pool).members.lookup "load_shedding"
          = some (.object
              [("default_percent", .number ls.DefaultPercent),
               ("default_policy", .string ls.DefaultPolicy),
               ("session_percent", .number ls.SessionPercent),
               ("session_policy", .string ls.SessionPolicy)]))
    ∧ (∀ os, pool.OriginSteering = some os →
        (encodeLoadBalancerPool pool).members.lookup "origin_steering"
          = some (.object [("policy", .string os.Policy)]))
    ∧ (encodeLoadBalancerPool pool).members.lookup "origins"
        = some (encodeSlice encodeLoadBalancerOrigin pool.Origins)
    ∧ (∀ o : LoadBalancerOrigin,
        (encodeLoadBalancerOrigin o).members.lookup "header"
          = some (encodeMap (encodeSlice JSON.string) o.Header))
    ∧ encodeLoadBalancerPool createPoolRequest = createPoolBody := by
  refine ⟨?_, keys_encodeLoadBalancerPool pool, ?_, ?_, ?_, ?_, ?_, ?_, ?_, ?_, rfl⟩
  · exact callEndpoint_recorded _ _ t ctx _ _ _ s log
  · intro h; rw [keys_encodeLoadBalancerPool]; simp [h]
  · intro h; rw [keys_encodeLoadBalancerPool]; simp [h]
  · intro h; rw [keys_encodeLoadBalancerPool]; simp [h]
  · intro h; rw [keys_encodeLoadBalancerPool]; simp [h]
  · intro ls h
    simp [encodeLoadBalancerPool, JSON.members, List.lookup_append, lookup_member,
      lookup_omitEmpty, h, encodePtr]
    rfl
  · intro os h
    simp [encodeLoadBalancerPool, JSON.members, List.lookup_append, lookup_member,
      lookup_omitEmpty, h, encodePtr]
    rfl
  · simp [encodeLoadBalancerPool, JSON.members, List.lookup_append, lookup_member,
      lookup_omitEmpty]
  · intro o
    simp [encodeLoadBalancerOrigin, JSON.members, List.lookup_append, lookup_member]

/-! ## Decoding a pool -/

/-- A field keeps its value through the walk over an object when no member is stored in
it. -/
theorem foldl_storeMember_untouched {α β : Type}
    (field : String → Option (JSON → α → α × Option JsonError)) (get : α → β)
    (ms : List (String × JSON))
    (h : ∀ m ∈ ms, ∀ st, field m.1 = some st → ∀ v a, get (st v a).1 = get a)
    (acc : α × Option JsonError) :
    get (ms.foldl (storeMember field) acc).1 = get acc.1 := by
  induction ms generalizing acc with
  | nil => rfl
  | cons m ms ih =>
    simp only [List.foldl_cons]
    rw [ih (fun m' hm' => h m' (List.mem_cons_of_mem _ hm'))]
    unfold storeMember
    cases hf : field m.1 with
    | none => rfl
    | some st => exact h m (List.mem_cons_self _ _) st hf m.2 acc.1

/-- The store of a pool field other than `latitude` leaves `Latitude` as it is; likewise for
`longitude`, `load_shedding`, `minimum_origins` and `check_regions`. -/
theorem pool_field_frame (key : String)
    (st : JSON → LoadBalancerPool → LoadBalancerPool × Option JsonError)
    (h : LoadBalancerPool.field key = some st) (v : JSON) (a : LoadBalancerPool) :
    (equalFold "latitude" key = false → (st v a).1.Latitude = a.Latitude)
    ∧ (equalFold "longitude" key = false → (st v a).1.Longitude = a.Longitude)
    ∧ (equalFold "load_shedding" key = false → (st v a).1.LoadShedding = a.LoadShedding)
    ∧ (equalFold "minimum_origins" key = false →
        (st v a).1.MinimumOrigins = a.MinimumOrigins)
    ∧ (equalFold "check_regions" key = false → (st v a).1.CheckRegions = a.CheckRegions) := by
  unfold LoadBalancerPool.field at h
  by_cases h0 : equalFold "id" key = true
  · rw [if_pos h0] at h
    cases h
    exact ⟨fun _ => rfl, fun _ => rfl, fun _ => rfl, fun _ => rfl, fun _ => rfl⟩
  rw [if_neg h0] at h
  by_cases h1 : equalFold "created_on" key = true
  · rw [if_pos h1] at h
    cases h
    exact ⟨fun _ => rfl, fun _ => rfl, fun _ => rfl, fun _ => rfl, fun _ => rfl⟩
  rw [if_neg h1] at h
  by_cases h2 : equalFold "modified_on" key = true
  · rw [if_pos h2] at h
    cases h
    exact ⟨fun _ => rfl, fun _ => rfl, fun _ => rfl, fun _ => rfl, fun _ => rfl⟩
  rw [if_neg h2] at h
  by_cases h3 : equalFold "description" key = true
  · rw [if_pos h3] at h
    cases h
    exact ⟨fun _ => rfl, fun _ => rfl, fun _ => rfl, fun _ => rfl, fun _ => rfl⟩
  rw [if_neg h3] at h
  by_cases h4 : equalFold "name" key = true
  · rw [if_pos h4] at h
    cases h
    exact ⟨fun _ => rfl, fun _ => rfl, fun _ => rfl, fun _ => rfl, fun _ => rfl⟩
  rw [if_neg h4] at h
  by_cases h5 : equalFold "enabled" key = true
  · rw [if_pos h5] at h
    cases h
    exact ⟨fun _ => rfl, fun _ => rfl, fun _ => rfl, fun _ => rfl, fun _ => rfl⟩
  rw [if_neg h5] at h
  by_cases h6 : equalFold "healthy" key = true
  · rw [if_pos h6] at h
    cases h
    exact ⟨fun _ => rfl, fun _ => rfl, fun _ => rfl, fun _ => rfl, fun _ => rfl⟩
  rw [if_neg h6] at h
  by_cases h7 : equalFold "minimum_origins" key = true
  · rw [if_pos h7] at h
    cases h
    exact ⟨fun _ => rfl, fun _ => rfl, fun _ => rfl, fun hk => by rw [hk] at h7; exact Bool.noConfusion h7, fun _ => rfl⟩
  rw [if_neg h7] at h
  by_cases h8 : equalFold "monitor" key = true
  · rw [if_pos h8] at h
    cases h
    exact ⟨fun _ => rfl, fun _ => rfl, fun _ => rfl, fun _ => rfl, fun _ => rfl⟩
  rw [if_neg h8] at h
  by_cases h9 : equalFold "latitude" key = true
  · rw [if_pos h9] at h
    cases h
    exact ⟨fun hk => by rw [hk] at h9; exact Bool.noConfusion h9, fun _ => rfl, fun _ => rfl, fun _ => rfl, fun _ => rfl⟩
  rw [if_neg h9] at h
  by_cases h10 : equalFold "longitude" key = true
  · rw [if_pos h10] at h
    cases h
    exact ⟨fun _ => rfl, fun hk => by rw [hk] at h10; exact Bool.noConfusion h10, fun _ => rfl, fun _ => rfl, fun _ => rfl⟩
  rw [if_neg h10] at h
  by_cases h11 : equalFold "load_shedding" key = true
  · rw [if_pos h11] at h
    cases h
    exact ⟨fun _ => rfl, fun _ => rfl, fun hk => by rw [hk] at h11; exact Bool.noConfusion h11, fun _ => rfl, fun _ => rfl⟩
  rw [if_neg h11] at h
  by_cases h12 : equalFold "origin_steering" key = true
  · rw [if_pos h12] at h
    cases h
    exact ⟨fun _ => rfl, fun _ => rfl, fun _ => rfl, fun _ => rfl, fun _ => rfl⟩
  rw [if_neg h12] at h
  by_cases h13 : equalFold "origins" key = true
  · rw [if_pos h13] at h
    cases h
    exact ⟨fun _ => rfl, fun _ => rfl, fun _ => rfl, fun _ => rfl, fun _ => rfl⟩
  rw [if_neg h13] at h
  by_cases h14 : equalFold "notification_email" key = true
  · rw [if_pos h14] at h
    cases h
    exact ⟨fun _ => rfl, fun _ => rfl, fun _ => rfl, fun _ => rfl, fun _ => rfl⟩
  rw [if_neg h14] at h
  by_cases h15 : equalFold "check_regions" key = true
  · rw [if_pos h15] at h
    cases h
    exact ⟨fun _ => rfl, fun _ => rfl, fun _ => rfl, fun _ => rfl, fun hk => by rw [hk] at h15; exact Bool.noConfusion h15⟩
  rw [if_neg h15] at h
  exact Option.noConfusion h

/-- The store of an origin field other than `header` leaves `Header` as it is. -/
theorem origin_field_frame (key : String)
    (st : JSON → LoadBalancerOrigin → LoadBalancerOrigin × Option JsonError)
    (h : LoadBalancerOrigin.field key = some st) (v : JSON) (a : LoadBalancerOrigin) :
    equalFold "header" key = false → (st v a).1.Header = a.Header := by
  unfold LoadBalancerOrigin.field at h
  by_cases h0 : equalFold "name" key = true
  · rw [if_pos h0] at h
    cases h
    exact fun _ => rfl
  rw [if_neg h0] at h
  by_cases h1 : equalFold "address" key = true
  · rw [if_pos h1] at h
    cases h
    exact fun _ => rfl
  rw [if_neg h1] at h
  by_cases h2 : equalFold "enabled" key = true
  · rw [if_pos h2] at h
    cases h
    exact fun _ => rfl
  rw [if_neg h2] at h
  by_cases h3 : equalFold "weight" key = true
  · rw [if_pos h3] at h
    cases h
    exact fun _ => rfl
  rw [if_neg h3] at h
  by_cases h4 : equalFold "header" key = true
  · rw [if_pos h4] at h
    cases h
    exact fun hk => by rw [hk] at h4; exact Bool.noConfusion h4
  rw [if_neg h4] at h
  exact Option.noConfusion h

/-- C15: decoding the `result` object of the success envelopes of
`TestLoadBalancerPoolDetails` and `TestCreateLoadBalancerPool` gives the struct each test
wants, field for field, with `created_on` and `modified_on` the parsed RFC 3339 instants;
and for every `result` object, an optional field whose key is absent stays unset:
`Latitude`, `Longitude` and `LoadShedding` nil, `MinimumOrigins` 0, `CheckRegions` nil, and
`Header` nil for an origin without `header`. -/
theorem pool_decodes_to_expected_struct :
    (LoadBalancerPoolDetails
        (Transport.mux "/user/load_balancers/pools/17b5962d775c646f3f9725cbc7a53df4"
          poolDetailsResponse)
        ⟨0⟩ "17b5962d775c646f3f9725cbc7a53df4" ()).1 = (poolDetailsWant, none)
    ∧ (CreateLoadBalancerPool (Transport.mux "/user/load_balancers/pools" createPoolResponse)
        ⟨0⟩ createPoolRequest ()).1 = (createPoolWant, none)
    ∧ poolDetailsWant.CreatedOn = some ⟨2014, 1, 1, 5, 20, 0, 123450000, 0⟩
    ∧ poolDetailsWant.ModifiedOn = some ⟨2014, 2, 1, 5, 20, 0, 123450000, 0⟩
    ∧ (poolDetailsWant.Latitude = none ∧ poolDetailsWant.Longitude = none
        ∧ poolDetailsWant.LoadShedding = none ∧ poolDetailsWant.MinimumOrigins = 0
        ∧ poolDetailsWant.CheckRegions = .nil
        ∧ poolDetailsWant.Origins.toList.map (·.Header) = [.nil])
    ∧ (∀ members : List (String × JSON),
        ((∀ m ∈ members, equalFold "latitude" m.1 = false) →
          (decodeLoadBalancerPool (.object members) LoadBalancerPool.zero).1.Latitude = none)
        ∧ ((∀ m ∈ members, equalFold "longitude" m.1 = false) →
          (decodeLoadBalancerPool (.object members) LoadBalancerPool.zero).1.Longitude = none)
        ∧ ((∀ m ∈ members, equalFold "load_shedding" m.1 = false) →
          (decodeLoadBalancerPool (.object members) LoadBalancerPool.zero).1.LoadShedding
            = none)
        ∧ ((∀ m ∈ members, equalFold "minimum_origins" m.1 = false) →
          (decodeLoadBalancerPool (.object members) LoadBalancerPool.zero).1.MinimumOrigins
            = 0)
        ∧ ((∀ m ∈ members, equalFold "check_regions" m.1 = false) →
          (decodeLoadBalancerPool (.object members) LoadBalancerPool.zero).1.CheckRegions
            = .nil)
        ∧ ((∀ m ∈ members, equalFold "header" m.1 = false) →
          (decodeLoadBalancerOrigin (.object members) LoadBalancerOrigin.zero).1.Header
            = .nil)) := by
  refine ⟨by decide, by decide, by decide, by decide, by decide, ?_⟩
  intro members
  refine ⟨?_, ?_, ?_, ?_, ?_, ?_⟩
  · intro h
    exact foldl_storeMember_untouched LoadBalancerPool.field LoadBalancerPool.Latitude members
      (fun m hm st hst v a => (pool_field_frame m.1 st hst v a).1 (h m hm)) _
  · intro h
    exact foldl_storeMember_untouched LoadBalancerPool.field LoadBalancerPool.Longitude
      members (fun m hm st hst v a => (pool_field_frame m.1 st hst v a).2.1 (h m hm)) _
  · intro h
    exact foldl_storeMember_untouched LoadBalancerPool.field LoadBalancerPool.LoadShedding
      members (fun m hm st hst v a => (pool_field_frame m.1 st hst v a).2.2.1 (h m hm)) _
  · intro h
    exact foldl_storeMember_untouched LoadBalancerPool.field LoadBalancerPool.MinimumOrigins
      members (fun m hm st hst v a => (pool_field_frame m.1 st hst v a).2.2.2.1 (h m hm)) _
  · intro h
    exact foldl_storeMember_untouched LoadBalancerPool.field LoadBalancerPool.CheckRegions
      members (fun m hm st hst v a => (pool_field_frame m.1 st hst v a).2.2.2.2 (h m hm)) _
  · intro h
    exact foldl_storeMember_untouched LoadBalancerOrigin.field LoadBalancerOrigin.Header
      members (fun m hm st hst v a => origin_field_frame m.1 st hst v a (h m hm)) _

/-! ## Listing -/

/-- Storing an array into the nil slice: one element per array element, in order, each
decoded into a zero value. -/
theorem decodeSlice_array_nil {α : Type} (dec : JSON → α → α × Option JsonError) (zero : α)
    (goType : String) (xs : List JSON) :
    (decodeSlice dec zero goType (.array xs) Slice.nil).1
        = .elems (xs.map fun x => (dec x zero).1)
    ∧ ((∀ x ∈ xs, (dec x zero).2 = none) →
        (decodeSlice dec zero goType (.array xs) Slice.nil).2 = none) := by
  simp only [decodeSlice, Slice.toList, (decodeElems_fresh dec zero xs).1, true_and]
  intro h
  induction xs with
  | nil => rfl
  | cons x xs ih =>
    simp only [decodeElems, List.headD_nil, List.tail_nil, firstError_eq_none]
    exact ⟨h x (List.mem_cons_self _ _), ih (fun y hy => h y (List.mem_cons_of_mem _ hy))⟩

/-- A list method on a 2xx answer whose envelope says `success: true` and whose `result`
is an array of decodable elements: the decoded elements, in order. -/
theorem list_endpoint_of_array {σ α : Type} (dec : JSON → α → α × Option JsonError)
    (zero : α) (goType : String) (t : Transport σ) (ctx : Context) (path : String)
    (s s' : σ) (status : Nat) (doc : JSON) (env : Envelope) (xs : List JSON)
    (h : t.doRequest ctx MethodGet path none s = ((status, .text doc, none), s'))
    (hs : isSuccessStatus status = true)
    (he : decodeEnvelope doc Envelope.zero = (env, none))
    (hsucc : env.Success = true) (hr : env.Result = .array xs)
    (hx : ∀ x ∈ xs, (dec x zero).2 = none) :
    callEndpoint (decodeSlice dec zero goType) Slice.nil t ctx MethodGet path none s
      = ((.elems (xs.map fun x => (dec x zero).1), none), s') := by
  have hE := Execute_of_envelope t ctx MethodGet path none s s' status doc env h he
  simp only [hs, hsucc, Bool.and_self, if_true] at hE
  have hd := decodeSlice_array_nil dec zero goType xs
  simp only [callEndpoint, hE, unmarshalResult, hr, hd.2 hx, hd.1]

/-- C16: `ListLoadBalancerPools`, `ListLoadBalancerMonitors` and `ListLoadBalancers` each
return, with a nil error, the items of the `result` array of the one response they
receive, in order, whatever the envelope's `result_info` is.  For the responses of the
three list tests, which hold one item and a `result_info` with page 1, per_page 20,
count 1, total_count 2000, the list returned has exactly that item. -/
theorem list_returns_result_items {σ : Type} (t : Transport σ) (ctx : Context)
    (zoneID : String) (s : σ) :
    (∀ status doc env xs s',
        t.doRequest ctx "GET" "/user/load_balancers/pools" none s
          = ((status, .text doc, none), s') →
        isSuccessStatus status = true → decodeEnvelope doc Envelope.zero = (env, none) →
        env.Success = true → env.Result = .array xs →
        (∀ x ∈ xs, (decodeLoadBalancerPool x LoadBalancerPool.zero).2 = none) →
        ListLoadBalancerPools t ctx s
          = ((.elems (xs.map fun x => (decodeLoadBalancerPool x LoadBalancerPool.zero).1),
              none), s'))
    ∧ (∀ status doc env xs s',
        t.doRequest ctx "GET" "/user/load_balancers/monitors" none s
          = ((status, .text doc, none), s') →
        isSuccessStatus status = true → decodeEnvelope doc Envelope.zero = (env, none) →
        env.Success = true → env.Result = .array xs →
        (∀ x ∈ xs, (decodeLoadBalancerMonitor x LoadBalancerMonitor.zero).2 = none) →
        ListLoadBalancerMonitors t ctx s
          = ((.elems
                (xs.map fun x => (decodeLoadBalancerMonitor x LoadBalancerMonitor.zero).1),
              none), s'))
    ∧ (∀ status doc env xs s',
        t.doRequest ctx "GET" ("/zones/" ++ zoneID ++ "/load_balancers") none s
          = ((status, .text doc, none), s') →
        isSuccessStatus status = true → decodeEnvelope doc Envelope.zero = (env, none) →
        env.Success = true → env.Result = .array xs →
        (∀ x ∈ xs, (decodeLoadBalancer x LoadBalancer.zero).2 = none) →
        ListLoadBalancers t ctx zoneID s
          = ((.elems (xs.map fun x => (decodeLoadBalancer x LoadBalancer.zero).1), none), s'))
    ∧ (decodeEnvelope listPoolsResponse.document Envelope.zero).1.ResultInfo
        = some ⟨1, 20, 1, 2000⟩
    ∧ (ListLoadBalancerPools (Transport.mux "/user/load_balancers/pools" listPoolsResponse)
        ⟨0⟩ ()).1 = (.elems [poolDetailsWant], none)
    ∧ (ListLoadBalancerMonitors
        (Transport.mux "/user/load_balancers/monitors" listMonitorsResponse) ⟨0⟩ ()).1
        = (.elems [listedMonitor], none)
    ∧ (ListLoadBalancers
        (Transport.mux "/zones/199d98642c564d2e855e9661899b7252/load_balancers"
          listLoadBalancersResponse)
        ⟨0⟩ "199d98642c564d2e855e9661899b7252" ()).1 = (.elems [listedLoadBalancer], none) := by
  refine ⟨?_, ?_, ?_, by decide, by decide, by decide, by decide⟩
  · intro status doc env xs s' h hs he hsucc hr hx
    exact list_endpoint_of_array _ _ _ t ctx _ s s' status doc env xs h hs he hsucc hr hx
  · intro status doc env xs s' h hs he hsucc hr hx
    exact list_endpoint_of_array _ _ _ t ctx _ s s' status doc env xs h hs he hsucc hr hx
  · intro status doc env xs s' h hs he hsucc hr hx
    exact list_endpoint_of_array _ _ _ t ctx _ s s' status doc env xs h hs he hsucc hr hx

/-! ## Failed requests -/

/-- A details method fails on every answer whose status is not 2xx. -/
theorem callEndpoint_error_of_status {σ α : Type} (decode : JSON → α → α × Option JsonError)
    (zero : α) (t : Transport σ) (ctx : Context) (verb path : String) (body : Option JSON)
    (s : σ) (h : isSuccessStatus (t.doRequest ctx verb path body s).1.1 = false) :
    (callEndpoint decode zero t ctx verb path body s).1.2 ≠ none := by
  have hE := Execute_error_of_status t ctx verb path body s h
  cases he : (Execute t ctx verb path body s).1.2 with
  | none => exact absurd he hE
  | some e => rw [callEndpoint_error_of_Execute decode zero t ctx verb path body s e he]; simp

/-- A details method on a 2xx answer whose envelope says `success: true` and whose `result`
decodes returns a nil error. -/
theorem callEndpoint_ok_of_envelope {σ α : Type} (decode : JSON → α → α × Option JsonError)
    (zero : α) (t : Transport σ) (ctx : Context) (verb path : String) (body : Option JSON)
    (s s' : σ) (status : Nat) (doc : JSON) (env : Envelope)
    (h : t.doRequest ctx verb path body s = ((status, .text doc, none), s'))
    (hs : isSuccessStatus status = true)
    (he : decodeEnvelope doc Envelope.zero = (env, none))
    (hsucc : env.Success = true) (hd : (decode env.Result zero).2 = none) :
    (callEndpoint decode zero t ctx verb path body s).1 = ((decode env.Result zero).1, none) := by
  have hE := Execute_of_envelope t ctx verb path body s s' status doc env h he
  simp only [hs, hsucc, Bool.and_self, if_true] at hE
  exact callEndpoint_of_result decode zero t ctx verb path body s env.Result
    (by rw [hE]) hd

/-- `Execute` on a 2xx answer whose envelope says `success: true` returns a nil error. -/
theorem Execute_ok_of_envelope {σ : Type} (t : Transport σ) (ctx : Context)
    (verb path : String) (body : Option JSON) (s s' : σ) (status : Nat) (doc : JSON)
    (env : Envelope)
    (h : t.doRequest ctx verb path body s = ((status, .text doc, none), s'))
    (hs : isSuccessStatus status = true)
    (he : decodeEnvelope doc Envelope.zero = (env, none)) (hsucc : env.Success = true) :
    (Execute t ctx verb path body s).1.2 = none := by
  have hE := Execute_of_envelope t ctx verb path body s s' status doc env h he
  simp only [hs, hsucc, Bool.and_self, if_true] at hE
  rw [hE]

/-- C17: every details call and every delete call on a pool, a monitor or a load balancer
whose request is answered with a status that is not 2xx returns a non-nil error; answered
with a 2xx status and an envelope that says `success: true` (whose `result` decodes, for a
details call) it returns a nil error.  On the server of the tests the ID `bar`, for which
no handler is registered, is answered 404 and gives an error; the registered ID gives
none. -/
theorem non_2xx_answer_is_an_error {σ : Type} (t : Transport σ) (ctx : Context)
    (zoneID id : String) (s : σ) :
    ((isSuccessStatus
          (t.doRequest ctx "GET" ("/user/load_balancers/pools/" ++ id) none s).1.1 = false →
        (LoadBalancerPoolDetails t ctx id s).1.2 ≠ none)
      ∧ (isSuccessStatus
          (t.doRequest ctx "DELETE" ("/user/load_balancers/pools/" ++ id) none s).1.1 = false →
        (DeleteLoadBalancerPool t ctx id s).1 ≠ none)
      ∧ (isSuccessStatus
          (t.doRequest ctx "GET" ("/user/load_balancers/monitors/" ++ id) none s).1.1 = false →
        (LoadBalancerMonitorDetails t ctx id s).1.2 ≠ none)
      ∧ (isSuccessStatus
          (t.doRequest ctx "DELETE" ("/user/load_balancers/monitors/" ++ id) none s).1.1
            = false →
        (DeleteLoadBalancerMonitor t ctx id s).1 ≠ none)
      ∧ (isSuccessStatus
          (t.doRequest ctx "GET" ("/zones/" ++ zoneID ++ "/load_balancers/" ++ id) none s).1.1
            = false →
        (LoadBalancerDetails t ctx zoneID id s).1.2 ≠ none)
      ∧ (isSuccessStatus
          (t.doRequest ctx "DELETE" ("/zones/" ++ zoneID ++ "/load_balancers/" ++ id)
            none s).1.1 = false →
        (DeleteLoadBalancer t ctx zoneID id s).1 ≠ none))
    ∧ (∀ status doc env s', isSuccessStatus status = true →
        decodeEnvelope doc Envelope.zero = (env, none) → env.Success = true →
        ((t.doRequest ctx "GET" ("/user/load_balancers/pools/" ++ id) none s
              = ((status, .text doc, none), s') →
            (decodeLoadBalancerPool env.Result LoadBalancerPool.zero).2 = none →
            (LoadBalancerPoolDetails t ctx id s).1.2 = none)
          ∧ (t.doRequest ctx "DELETE" ("/user/load_balancers/pools/" ++ id) none s
              = ((status, .text doc, none), s') →
            (DeleteLoadBalancerPool t ctx id s).1 = none)
          ∧ (t.doRequest ctx "GET" ("/user/load_balancers/monitors/" ++ id) none s
              = ((status, .text doc, none), s') →
            (decodeLoadBalancerMonitor env.Result LoadBalancerMonitor.zero).2 = none →
            (LoadBalancerMonitorDetails t ctx id s).1.2 = none)
          ∧ (t.doRequest ctx "DELETE" ("/user/load_balancers/monitors/" ++ id) none s
              = ((status, .text doc, none), s') →
            (DeleteLoadBalancerMonitor t ctx id s).1 = none)
          ∧ (t.doRequest ctx "GET" ("/zones/" ++ zoneID ++ "/load_balancers/" ++ id) none s
              = ((status, .text doc, none), s') →
            (decodeLoadBalancer env.Result LoadBalancer.zero).2 = none →
            (LoadBalancerDetails t ctx zoneID id s).1.2 = none)
          ∧ (t.doRequest ctx "DELETE" ("/zones/" ++ zoneID ++ "/load_balancers/" ++ id)
                none s = ((status, .text doc, none), s') →
            (DeleteLoadBalancer t ctx zoneID id s).1 = none)))
    ∧ ((LoadBalancerPoolDetails
          (Transport.mux "/user/load_balancers/pools/17b5962d775c646f3f9725cbc7a53df4"
            poolDetailsResponse) ⟨0⟩ "bar" ()).1.2 ≠ none
      ∧ (LoadBalancerPoolDetails
          (Transport.mux "/user/load_balancers/pools/17b5962d775c646f3f9725cbc7a53df4"
            poolDetailsResponse) ⟨0⟩ "17b5962d775c646f3f9725cbc7a53df4" ()).1.2 = none
      ∧ (DeleteLoadBalancerPool
          (Transport.mux "/user/load_balancers/pools/17b5962d775c646f3f9725cbc7a53df4"
            deletePoolResponse) ⟨0⟩ "bar" ()).1 ≠ none
      ∧ (DeleteLoadBalancerPool
          (Transport.mux "/user/load_balancers/pools/17b5962d775c646f3f9725cbc7a53df4"
            deletePoolResponse) ⟨0⟩ "17b5962d775c646f3f9725cbc7a53df4" ()).1 = none) := by
  refine ⟨⟨?_, ?_, ?_, ?_, ?_, ?_⟩, ?_, by decide⟩
  · exact callEndpoint_error_of_status _ _ t ctx _ _ _ s
  · exact Execute_error_of_status t ctx _ _ _ s
  · exact callEndpoint_error_of_status _ _ t ctx _ _ _ s
  · exact Execute_error_of_status t ctx _ _ _ s
  · exact callEndpoint_error_of_status _ _ t ctx _ _ _ s
  · exact Execute_error_of_status t ctx _ _ _ s
  · intro status doc env s' hs he hsucc
    refine ⟨?_, ?_, ?_, ?_, ?_, ?_⟩
    · intro h hd
      have := callEndpoint_ok_of_envelope decodeLoadBalancerPool LoadBalancerPool.zero t ctx
        _ _ _ s s' status doc env h hs he hsucc hd
      simp only [LoadBalancerPoolDetails, MethodGet, this]
    · intro h
      exact Execute_ok_of_envelope t ctx _ _ _ s s' status doc env h hs he hsucc
    · intro h hd
      have := callEndpoint_ok_of_envelope decodeLoadBalancerMonitor LoadBalancerMonitor.zero
        t ctx _ _ _ s s' status doc env h hs he hsucc hd
      simp only [LoadBalancerMonitorDetails, MethodGet, this]
    · intro h
      exact Execute_ok_of_envelope t ctx _ _ _ s s' status doc env h hs he hsucc
    · intro h hd
      have := callEndpoint_ok_of_envelope decodeLoadBalancer LoadBalancer.zero t ctx
        _ _ _ s s' status doc env h hs he hsucc hd
      simp only [LoadBalancerDetails, MethodGet, this]
    · intro h
      exact Execute_ok_of_envelope t ctx _ _ _ s s' status doc env h hs he hsucc

/-! ## The API error -/

theorem infix_append_left {α : Type} {a b : List α} (c : List α) (h : a <:+: b) :
    a <:+: b ++ c := by
  obtain ⟨p, q, rfl⟩ := h
  exact ⟨p, q ++ c, by simp [List.append_assoc]⟩

theorem infix_append_right {α : Type} {a b : List α} (c : List α) (h : a <:+: b) :
    a <:+: c ++ b := by
  obtain ⟨p, q, rfl⟩ := h
  exact ⟨c ++ p, q, by simp [List.append_assoc]⟩

/-- The text of one remote error holds its message and its code. -/
theorem text_holds_message_and_code (e : ResponseInfo) :
    e.Message.data <:+: e.text.data ∧ (toString e.Code).data <:+: e.text.data := by
  simp only [ResponseInfo.text, String.data_append]
  constructor
  · exact ⟨[], " (".data ++ (toString e.Code).data ++ ")".data, by simp [List.append_assoc]⟩
  · exact ⟨e.Message.data ++ " (".data, ")".data, by simp [List.append_assoc]⟩

/-- The text of an API error holds the text of every remote error. -/
theorem apiErrorText_holds_each (errs : List ResponseInfo) (e : ResponseInfo)
    (h : e ∈ errs) : e.text.data <:+: (apiErrorText errs).data := by
  induction errs with
  | nil => cases h
  | cons x xs ih =>
    cases xs with
    | nil =>
      simp only [List.mem_singleton] at h
      subst h
      exact List.infix_refl _
    | cons y ys =>
      simp only [apiErrorText, String.data_append]
      rcases List.mem_cons.mp h with rfl | h'
      · exact infix_append_left _ (infix_append_left _ (List.infix_refl _))
      · exact infix_append_right _ (ih h')

/-- C18: when the answer is an envelope and the status is not 2xx or the envelope says
`success: false`, `Execute` fails with the API error that carries the decoded `errors` of
the envelope: every entry of the `errors` array as a `(code, message)` pair, in the array's
order, none dropped; and the message text of that error holds the message and the code of
every entry. -/
theorem api_error_carries_every_entry {σ : Type} (t : Transport σ) (ctx : Context)
    (verb path : String) (body : Option JSON) (s s' : σ) (status : Nat) (doc : JSON)
    (env : Envelope)
    (h : t.doRequest ctx verb path body s = ((status, .text doc, none), s'))
    (he : decodeEnvelope doc Envelope.zero = (env, none))
    (hf : (isSuccessStatus status && env.Success) = false) :
    (Execute t ctx verb path body s).1.2 = some (.apiError env.Errors.toList)
    ∧ (∀ xs : List JSON,
        (decodeSlice decodeResponseInfo ResponseInfo.zero "[]cloudflare.ResponseInfo"
            (.array xs) Slice.nil).1.toList
          = xs.map fun x => (decodeResponseInfo x ResponseInfo.zero).1)
    ∧ (∀ code message,
        (decodeResponseInfo
            (.object [("code", .number (.int code)), ("message", .string message)])
            ResponseInfo.zero).1
          = ⟨if -(2 : Int) ^ 63 ≤ code ∧ code < (2 : Int) ^ 63 then code else 0, message⟩)
    ∧ (∀ e ∈ env.Errors.toList,
        e.Message.data <:+: (GoError.apiError env.Errors.toList).Error.data
        ∧ (toString e.Code).data <:+: (GoError.apiError env.Errors.toList).Error.data) := by
  refine ⟨?_, ?_, ?_, ?_⟩
  · rw [Execute_of_envelope t ctx verb path body s s' status doc env h he]
    simp [hf]
  · intro xs
    rw [(decodeSlice_array_nil _ _ _ xs).1]
    rfl
  · intro code message
    have hc : ResponseInfo.field "code" = some fun v d =>
        ({ d with Code := (decodeInt v d.Code).1 }, (decodeInt v d.Code).2) := rfl
    have hm : ResponseInfo.field "message" = some fun v d =>
        ({ d with Message := (decodeString v d.Message).1 }, (decodeString v d.Message).2) :=
      rfl
    simp only [decodeResponseInfo, decodeStruct, List.foldl_cons, List.foldl_nil, storeMember,
      hc, hm, decodeInt, decodeString, ResponseInfo.zero]
    split <;> rfl
  · intro e hmem
    have ht := apiErrorText_holds_each env.Errors.toList e hmem
    have hx := text_holds_message_and_code e
    simp only [GoError.Error]
    exact ⟨List.IsInfix.trans hx.1 ht, List.IsInfix.trans hx.2 ht⟩

/-- C18 at a 200 answer whose envelope says `success: false` with two errors. -/
theorem api_error_carries_every_entry_witness :
    ((decodeEnvelope twoErrorsResponse.document Envelope.zero).1.Errors
        = .elems [⟨1003, "Invalid ID"⟩, ⟨7003, "No route"⟩])
    ∧ (Execute (Transport.answering 200 twoErrorsResponse) ⟨0⟩ "GET" "/user/x" none ()).1.2
        = some (.apiError [⟨1003, "Invalid ID"⟩, ⟨7003, "No route"⟩])
    ∧ (GoError.apiError [⟨1003, "Invalid ID"⟩, ⟨7003, "No route"⟩]).Error
        = "Invalid ID (1003), No route (7003)" :=
  ⟨by decide,
   (api_error_carries_every_entry (Transport.answering 200 twoErrorsResponse) ⟨0⟩ "GET"
      "/user/x" none () () 200 twoErrorsResponse.document
      (decodeEnvelope twoErrorsResponse.document Envelope.zero).1 rfl rfl rfl).1,
   by decide⟩

/-! ## Serializing a monitor -/

/-- The keys of an encoded monitor: the thirteen that are always written, after `id`,
`created_on` and `modified_on` when set. -/
theorem keys_encodeLoadBalancerMonitor (x : LoadBalancerMonitor) :
    (encodeLoadBalancerMonitor x).keys
      = (if (x.ID == "") = true then [] else ["id"])
        ++ (if x.CreatedOn.isNone = true then [] else ["created_on"])
        ++ (if x.ModifiedOn.isNone = true then [] else ["modified_on"])
        ++ ["type", "description", "method", "path", "header", "timeout", "retries",
            "interval", "expected_body", "expected_codes", "follow_redirects",
            "allow_insecure", "probe_zone"] := by
  simp only [encodeLoadBalancerMonitor, JSON.keys, JSON.members, List.map_append, keys_member,
    keys_omitEmpty, List.append_assoc, List.cons_append, List.nil_append]

/-- C19: serializing a `LoadBalancerMonitor` writes its scalar fields whatever their value,
zero values included: `retries`, `probe_zone`, `timeout`, `interval`, `follow_redirects` and
`allow_insecure` are always present with the field's value, so a monitor with `Retries` 0
and an empty `ProbeZone` has `"retries": 0` and `"probe_zone": ""`; `id`, `created_on` and
`modified_on` are absent when unset.  The request of `TestCreateLoadBalancerMonitor`
serializes to the body its handler expects. -/
theorem monitor_zero_values_are_written (m : LoadBalancerMonitor) :
    (encodeLoadBalancerMonitor m).members.lookup "retries" = some (.number (.int m.Retries))
    ∧ (encodeLoadBalancerMonitor m).members.lookup "probe_zone" = some (.string m.ProbeZone)
    ∧ (encodeLoadBalancerMonitor m).members.lookup "timeout" = some (.number (.int m.Timeout))
    ∧ (encodeLoadBalancerMonitor m).members.lookup "interval"
        = some (.number (.int m.Interval))
    ∧ (encodeLoadBalancerMonitor m).members.lookup "follow_redirects"
        = some (.bool m.FollowRedirects)
    ∧ (encodeLoadBalancerMonitor m).members.lookup "allow_insecure"
        = some (.bool m.AllowInsecure)
    ∧ (m.Retries = 0 → m.ProbeZone = "" →
        (encodeLoadBalancerMonitor m).members.lookup "retries" = some (.number (.int 0))
        ∧ (encodeLoadBalancerMonitor m).members.lookup "probe_zone" = some (.string ""))
    ∧ (m.ID = "" → "id" ∉ (encodeLoadBalancerMonitor m).keys)
    ∧ (m.CreatedOn = none → "created_on" ∉ (encodeLoadBalancerMonitor m).keys)
    ∧ (m.ModifiedOn = none → "modified_on" ∉ (encodeLoadBalancerMonitor m).keys)
    ∧ (createMonitorRequest.Retries = 0 ∧ createMonitorRequest.ProbeZone = ""
        ∧ encodeLoadBalancerMonitor createMonitorRequest = createMonitorBody
        ∧ encodeLoadBalancerMonitor modifyMonitorRequest = modifyMonitorBody) := by
  have hr : (encodeLoadBalancerMonitor m).members.lookup "retries"
      = some (.number (.int m.Retries)) := by
    simp [encodeLoadBalancerMonitor, JSON.members, List.lookup_append, lookup_member,
      lookup_omitEmpty, encodeInt]
  have hp : (encodeLoadBalancerMonitor m).members.lookup "probe_zone"
      = some (.string m.ProbeZone) := by
    simp [encodeLoadBalancerMonitor, JSON.members, List.lookup_append, lookup_member,
      lookup_omitEmpty]
  refine ⟨hr, hp, ?_, ?_, ?_, ?_, ?_, ?_, ?_, ?_, ⟨rfl, rfl, rfl, rfl⟩⟩
  · simp [encodeLoadBalancerMonitor, JSON.members, List.lookup_append, lookup_member,
      lookup_omitEmpty, encodeInt]
  · simp [encodeLoadBalancerMonitor, JSON.members, List.lookup_append, lookup_member,
      lookup_omitEmpty, encodeInt]
  · simp [encodeLoadBalancerMonitor, JSON.members, List.lookup_append, lookup_member,
      lookup_omitEmpty]
  · simp [encodeLoadBalancerMonitor, JSON.members, List.lookup_append, lookup_member,
      lookup_omitEmpty]
  · intro h0 hz
    rw [hr, hp, h0, hz]
    exact ⟨rfl, rfl⟩
  · intro h; rw [keys_encodeLoadBalancerMonitor]; simp [h]
  · intro h; rw [keys_encodeLoadBalancerMonitor]; simp [h]
  · intro h; rw [keys_encodeLoadBalancerMonitor]; simp [h]

/-! ## Modifying -/

/-- C20 (counterexample): for a pool, a monitor and a load balancer whose `ID` is empty the
request body of the modify methods has no `id` key, while the path ends in `/` and the
empty ID. -/
theorem modify_with_empty_id_has_no_id_key :
    LoadBalancerPool.zero.ID = ""
    ∧ (ModifyLoadBalancerPool (Transport.answering 200 (.malformed "")).recording ⟨0⟩
        LoadBalancerPool.zero ((), [])).2.2.map (fun x => (x.verb, x.path))
        = [("PUT", "/user/load_balancers/pools/")]
    ∧ (encodeLoadBalancerPool LoadBalancerPool.zero).members.lookup "id" = none
    ∧ "id" ∉ (encodeLoadBalancerPool LoadBalancerPool.zero).keys
    ∧ "id" ∉ (encodeLoadBalancerMonitor LoadBalancerMonitor.zero).keys
    ∧ "id" ∉ (encodeLoadBalancer LoadBalancer.zero).keys :=
  ⟨rfl, by decide, rfl, by decide, by decide, by decide⟩

/-- C20 (amended): each modify method hands the transport one exchange, a PUT to the
collection path followed by `/` and the `ID` of the struct it is given, with the JSON of
that struct as the body; when the `ID` is not empty it is also the `id` key of the body,
and when it is empty the body has no `id` key. -/
theorem modify_puts_to_id_path {σ : Type} (t : Transport σ) (ctx : Context)
    (zoneID : String) (pool : LoadBalancerPool) (monitor : LoadBalancerMonitor)
    (lb : LoadBalancer) (s : σ) (log : List Exchange) :
    ((ModifyLoadBalancerPool t.recording ctx pool (s, log)).2.2
        = log ++ [⟨ctx, "PUT", "/user/load_balancers/pools" ++ "/" ++ pool.ID,
            some (encodeLoadBalancerPool pool)⟩]
      ∧ (pool.ID ≠ "" →
          (encodeLoadBalancerPool pool).members.lookup "id" = some (.string pool.ID))
      ∧ (pool.ID = "" → "id" ∉ (encodeLoadBalancerPool pool).keys))
    ∧ ((ModifyLoadBalancerMonitor t.recording ctx monitor (s, log)).2.2
        = log ++ [⟨ctx, "PUT", "/user/load_balancers/monitors" ++ "/" ++ monitor.ID,
            some (encodeLoadBalancerMonitor monitor)⟩]
      ∧ (monitor.ID ≠ "" →
          (encodeLoadBalancerMonitor monitor).members.lookup "id"
            = some (.string monitor.ID))
      ∧ (monitor.ID = "" → "id" ∉ (encodeLoadBalancerMonitor monitor).keys))
    ∧ ((ModifyLoadBalancer t.recording ctx zoneID lb (s, log)).2.2
        = log ++ [⟨ctx, "PUT", "/zones/" ++ zoneID ++ "/load_balancers" ++ "/" ++ lb.ID,
            some (encodeLoadBalancer lb)⟩]
      ∧ (lb.ID ≠ "" → (encodeLoadBalancer lb).members.lookup "id" = some (.string lb.ID))
      ∧ (lb.ID = "" → "id" ∉ (encodeLoadBalancer lb).keys)) := by
  refine ⟨⟨?_, ?_, ?_⟩, ⟨?_, ?_, ?_⟩, ⟨?_, ?_, ?_⟩⟩
  · rw [ModifyLoadBalancerPool, callEndpoint_recorded]
    simp [MethodPut, String.append_assoc]
  · intro h
    simp [encodeLoadBalancerPool, JSON.members, List.lookup_append, lookup_member,
      lookup_omitEmpty, h]
  · intro h; rw [keys_encodeLoadBalancerPool]; simp [h]
  · rw [ModifyLoadBalancerMonitor, callEndpoint_recorded]
    simp [MethodPut, String.append_assoc]
  · intro h
    simp [encodeLoadBalancerMonitor, JSON.members, List.lookup_append, lookup_member,
      lookup_omitEmpty, h]
  · intro h; rw [keys_encodeLoadBalancerMonitor]; simp [h]
  · rw [ModifyLoadBalancer, callEndpoint_recorded]
    simp [MethodPut, String.append_assoc]
  · intro h
    simp [encodeLoadBalancer, JSON.members, List.lookup_append, lookup_member,
      lookup_omitEmpty, h]
  · intro h
    simp [encodeLoadBalancer, JSON.keys, JSON.members, List.map_append, keys_member,
      keys_omitEmpty, h]

/-! ## Printing and parsing a duration -/

theorem digitValue_digitChar (d : Nat) : digitValue (digitChar d) = some (d % 10) := by
  have h : d % 10 < 10 := Nat.mod_lt _ (by norm_num)
  unfold digitChar
  generalize d % 10 = r at h
  interval_cases r <;> rfl

theorem digitChar_ne_period (d : Nat) : digitChar d ≠ '.' := by
  have h : d % 10 < 10 := Nat.mod_lt _ (by norm_num)
  unfold digitChar
  generalize d % 10 = r at h
  interval_cases r <;> decide

/-- Parsing what `fmtIntLoop` printed goes on with the rest and the number printed. -/
theorem leadingInt_fmtIntLoop (fuel v : Nat) (tail : List Char) (hf : v < 10 ^ fuel)
    (hv : v ≤ 2 ^ 63) : leadingInt (fmtIntLoop fuel v tail) 0 = leadingInt tail v := by
  induction fuel generalizing v tail with
  | zero =>
    have : v = 0 := by simpa using hf
    subst this
    rfl
  | succ f ih =>
    unfold fmtIntLoop
    by_cases h0 : v = 0
    · subst h0; simp
    · rw [if_neg h0]
      have h1 : v / 10 < 10 ^ f := by
        rw [Nat.div_lt_iff_lt_mul (by norm_num)]
        rw [pow_succ] at hf
        exact hf
      have h2 : v / 10 ≤ 2 ^ 63 := le_trans (Nat.div_le_self _ _) hv
      rw [ih (v / 10) _ h1 h2]
      have hd : digitValue (digitChar (v % 10)) = some (v % 10) := by
        rw [digitValue_digitChar]; simp
      have h3 : ¬ v / 10 > 2 ^ 63 / 10 := by
        have := Nat.div_le_div_right (c := 10) hv
        omega
      have h4 : v / 10 * 10 + v % 10 = v := by omega
      simp only [leadingInt, hd, h3, h4, if_false]
      rw [if_neg (by omega)]

/-- Parsing what `fmtInt` printed goes on with the rest and the number printed. -/
theorem leadingInt_fmtInt (v : Nat) (tail : List Char) (hv : v ≤ 2 ^ 63) :
    leadingInt (fmtInt v tail) 0 = leadingInt tail v := by
  unfold fmtInt
  by_cases h0 : v = 0
  · subst h0
    rw [if_pos rfl]
    have hd : digitValue '0' = some 0 := rfl
    simp [leadingInt, hd]
  · rw [if_neg h0]
    exact leadingInt_fmtIntLoop 20 v tail (lt_of_le_of_lt hv (by norm_num)) hv

/-- What `fmtIntLoop` puts before the rest are digits. -/
theorem fmtIntLoop_digits (fuel v : Nat) (tail : List Char) :
    ∃ ds, fmtIntLoop fuel v tail = ds ++ tail
      ∧ (∀ c ∈ ds, (digitValue c).isSome = true)
      ∧ (v ≠ 0 → fuel ≠ 0 → ds ≠ []) := by
  induction fuel generalizing v tail with
  | zero => exact ⟨[], rfl, by simp, by simp⟩
  | succ f ih =>
    unfold fmtIntLoop
    by_cases h0 : v = 0
    · rw [if_pos h0]; exact ⟨[], rfl, by simp, fun h => absurd h0 h⟩
    · rw [if_neg h0]
      obtain ⟨ds, h1, h2, -⟩ := ih (v / 10) (digitChar (v % 10) :: tail)
      refine ⟨ds ++ [digitChar (v % 10)], by rw [h1]; simp, ?_, by simp⟩
      intro c hc
      rcases List.mem_append.mp hc with hc | hc
      · exact h2 c hc
      · simp only [List.mem_singleton] at hc
        subst hc
        rw [digitValue_digitChar]; rfl

/-- What `fmtInt` prints: at least one digit, then the rest. -/
theorem fmtInt_digits (v : Nat) (tail : List Char) :
    ∃ c ds, fmtInt v tail = c :: (ds ++ tail) ∧ (digitValue c).isSome = true := by
  unfold fmtInt
  by_cases h0 : v = 0
  · rw [if_pos h0]; exact ⟨'0', [], rfl, rfl⟩
  · rw [if_neg h0]
    obtain ⟨ds, h1, h2, h3⟩ := fmtIntLoop_digits 20 v tail
    cases ds with
    | nil => exact absurd rfl (h3 h0 (by norm_num))
    | cons c cs => exact ⟨c, cs, by rw [h1]; rfl, h2 c (List.mem_cons_self _ _)⟩

/-- Parsing a number stops at a character that is no digit. -/
theorem leadingInt_stop (c : Char) (rest : List Char) (x : Nat) (h : digitValue c = none) :
    leadingInt (c :: rest) x = some (x, c :: rest) := by
  simp [leadingInt, h]
/-- What `fmtFracLoop` leaves: the quotient, and digits `f` (there are `k` of them) whose
value, scaled back, is the remainder; parsing the text as a fraction goes on with the rest
from `f` and the scale `10^k`. -/
theorem fmtFracLoop_spec (n v : Nat) (print : Bool) (tail : List Char) (hn : n ≤ 9) :
    (fmtFracLoop n v print tail).2.2 = v / 10 ^ n
    ∧ ∃ k f, k ≤ n ∧ f < 10 ^ k ∧ f * 10 ^ (n - k) = v % 10 ^ n
        ∧ (print = true → k = n)
        ∧ (fmtFracLoop n v print tail).2.1 = (print || decide (f ≠ 0))
        ∧ ((fmtFracLoop n v print tail).2.1 = false →
            (fmtFracLoop n v print tail).1 = tail ∧ k = 0)
        ∧ leadingFraction (fmtFracLoop n v print tail).1 0 1 false
            = leadingFraction tail f (10 ^ k) false := by
  induction n generalizing v print tail with
  | zero =>
    refine ⟨by simp [fmtFracLoop], 0, 0, le_refl _, by norm_num, by simp [Nat.mod_one], ?_, ?_,
      ?_, ?_⟩
    · intro _; rfl
    · simp [fmtFracLoop]
    · intro _; exact ⟨rfl, rfl⟩
    · simp [fmtFracLoop]
  | succ n ih =>
    have hn' : n ≤ 9 := by omega
    have hmod : v % 10 ^ (n + 1) = (v / 10 % 10 ^ n) * 10 + v % 10 := by
      rw [pow_succ, Nat.mul_comm (10 ^ n) 10, Nat.mod_mul]
      omega
    have hdiv : v / 10 ^ (n + 1) = v / 10 / 10 ^ n := by
      rw [pow_succ, Nat.mul_comm (10 ^ n) 10, Nat.div_div_eq_div_mul]
    by_cases hp : (print || v % 10 != 0) = true
    · -- the digit is written
      have hstep : fmtFracLoop (n + 1) v print tail
          = fmtFracLoop n (v / 10) true (digitChar (v % 10) :: tail) := by
        simp only [fmtFracLoop, hp, if_true]
      obtain ⟨hq, k', f', hk', hf', hval, hkn, hpr, -, hparse⟩ :=
        ih (v / 10) true (digitChar (v % 10) :: tail) hn'
      have hk : k' = n := hkn rfl
      subst hk
      rw [hstep]
      refine ⟨by rw [hq, hdiv], k' + 1, f' * 10 + v % 10, le_refl _, ?_, ?_, fun _ => rfl, ?_,
        ?_, ?_⟩
      · rw [pow_succ]; omega
      · simp only [Nat.sub_self, pow_zero, Nat.mul_one] at hval ⊢
        rw [hmod, hval]
      · rw [hpr]
        simp only [Bool.true_or]
        cases hprint : print with
        | true => rfl
        | false =>
          rw [hprint] at hp
          simp only [Bool.false_or, bne_iff_ne, ne_eq] at hp
          have : f' * 10 + v % 10 ≠ 0 := by omega
          simp [this]
      · rw [hpr]; simp
      · rw [hparse]
        have hd : digitValue (digitChar (v % 10)) = some (v % 10) := by
          rw [digitValue_digitChar]; simp
        have hb : f' < 10 ^ 9 := lt_of_lt_of_le hf' (Nat.pow_le_pow_right (by norm_num) hn')
        have h1 : ¬ f' > (2 ^ 63 - 1) / 10 := by norm_num at hb ⊢; omega
        have h2 : ¬ f' * 10 + v % 10 > 2 ^ 63 := by norm_num at hb ⊢; omega
        simp only [leadingFraction, hd, Bool.false_eq_true, if_false]
        rw [if_neg h1, if_neg h2, pow_succ 10 k']
    · -- a trailing zero is left out
      have hp' : (print || v % 10 != 0) = false := by simpa using hp
      have hprint : print = false := by
        cases print <;> simp_all
      have hdig : v % 10 = 0 := by
        rw [hprint] at hp'
        simpa using hp'
      have hstep : fmtFracLoop (n + 1) v print tail = fmtFracLoop n (v / 10) false tail := by
        simp only [fmtFracLoop, hp', Bool.false_eq_true, if_false]
      obtain ⟨hq, k', f', hk', hf', hval, -, hpr, hnone, hparse⟩ :=
        ih (v / 10) false tail hn'
      rw [hstep]
      refine ⟨by rw [hq, hdiv], k', f', by omega, hf', ?_, ?_, ?_, hnone, hparse⟩
      · rw [hmod, hdig, ← hval]
        have : n + 1 - k' = (n - k') + 1 := by omega
        rw [this, pow_succ]
        ring
      · intro h; rw [hprint] at h; cases h
      · rw [hpr, hprint]
/-- Parsing a fraction stops at a character that is no digit. -/
theorem leadingFraction_stop (c : Char) (rest : List Char) (x scale : Nat)
    (h : digitValue c = none) :
    leadingFraction (c :: rest) x scale false = (x, scale, c :: rest) := by
  simp [leadingFraction, h]

theorem fmtInt_length (v : Nat) (tail : List Char) :
    tail.length + 1 ≤ (fmtInt v tail).length := by
  obtain ⟨c, ds, h, -⟩ := fmtInt_digits v tail
  rw [h]
  simp

/-- One pass of the parsing loop over a number without fraction and its unit. -/
theorem parseLoop_whole (fuel v d uv : Nat) (c0 : Char) (cs0 rest : List Char)
    (hfuel : 1 ≤ fuel) (hc0 : digitValue c0 = none) (hp : c0 ≠ '.')
    (hspan : spanUnit (c0 :: (cs0 ++ rest)) = (c0 :: cs0, rest))
    (hunit : unitOf (c0 :: cs0) = some uv) (huv : 0 < uv)
    (hsum : d + v * uv ≤ 2 ^ 63) :
    parseLoop fuel (fmtInt v (c0 :: (cs0 ++ rest))) d
      = parseLoop (fuel - 1) rest (d + v * uv) := by
  obtain ⟨fuel', rfl⟩ : ∃ f, fuel = f + 1 := ⟨fuel - 1, by omega⟩
  have hvu : v * uv ≤ 2 ^ 63 := by omega
  have hv : v ≤ 2 ^ 63 := le_trans (Nat.le_mul_of_pos_right v huv) hvu
  have hv2 : ¬ v > 2 ^ 63 / uv := by
    rw [not_lt]
    exact (Nat.le_div_iff_mul_le huv).mpr hvu
  have hint := leadingInt_fmtInt v (c0 :: (cs0 ++ rest)) hv
  rw [leadingInt_stop c0 _ v hc0] at hint
  have hlen := fmtInt_length v (c0 :: (cs0 ++ rest))
  obtain ⟨c, ds, hfmt, hdig⟩ := fmtInt_digits v (c0 :: (cs0 ++ rest))
  rw [hfmt] at hint hlen ⊢
  have hhead : ((c0 :: (cs0 ++ rest)).head? = some '.') = False := by
    simp [hp]
  have hpre : ((c0 :: (cs0 ++ rest)).length != (c :: (ds ++ c0 :: (cs0 ++ rest))).length)
      = true := by
    simp only [bne_iff_ne, ne_eq]
    omega
  simp only [parseLoop, hdig, or_true, not_true_eq_false, if_false, hint, hhead, hpre,
    Bool.not_true, Bool.false_and, Bool.false_eq_true, hspan, hunit, hv2,
    Nat.lt_irrefl, gt_iff_lt, Nat.add_sub_cancel]
  rw [if_neg (by simp), if_neg (by omega), if_neg (by omega)]
theorem parseLoop_nil (fuel d : Nat) (hfuel : 1 ≤ fuel) : parseLoop fuel [] d = some d := by
  obtain ⟨fuel', rfl⟩ : ∃ f, fuel = f + 1 := ⟨fuel - 1, by omega⟩
  rfl

/-- The last pass of the parsing loop, over a number, the fraction `fmtFrac` printed and
the unit: the number in units plus the fraction's remainder. -/
theorem parseLoop_fraction (fuel v w d prec : Nat) (c0 : Char) (cs0 : List Char)
    (hfuel : 2 ≤ fuel) (hprec : prec ≤ 9) (hc0 : digitValue c0 = none) (hp : c0 ≠ '.')
    (hspan : spanUnit (c0 :: cs0) = (c0 :: cs0, []))
    (hunit : unitOf (c0 :: cs0) = some (10 ^ prec))
    (hsum : d + (v * 10 ^ prec + w % 10 ^ prec) ≤ 2 ^ 63) :
    parseLoop fuel (fmtInt v (fmtFrac prec w (c0 :: cs0)).1) d
      = some (d + (v * 10 ^ prec + w % 10 ^ prec)) := by
  obtain ⟨-, k, f, hk, hf, hval, -, hpr, hnone, hparse⟩ :=
    fmtFracLoop_spec prec w false (c0 :: cs0) hprec
  have hpos : 0 < 10 ^ prec := pow_pos (by norm_num) _
  cases hprint : (fmtFracLoop prec w false (c0 :: cs0)).2.1 with
  | false =>
    obtain ⟨htail, -⟩ := hnone hprint
    have hf0 : f = 0 := by
      rw [hprint] at hpr
      simpa using hpr.symm
    have hw : w % 10 ^ prec = 0 := by rw [← hval, hf0]; simp
    have hstr : (fmtFrac prec w (c0 :: cs0)).1 = c0 :: (cs0 ++ []) := by
      simp only [fmtFrac, hprint, Bool.false_eq_true, if_false, htail, List.append_nil]
    rw [hstr, hw, Nat.add_zero]
    rw [parseLoop_whole fuel v d (10 ^ prec) c0 cs0 [] (by omega) hc0 hp
      (by rw [List.append_nil]; exact hspan) hunit hpos (by rw [hw] at hsum; exact hsum)]
    exact parseLoop_nil _ _ (by omega)
  | true =>
    obtain ⟨fuel', rfl⟩ : ∃ g, fuel = g + 1 := ⟨fuel - 1, by omega⟩
    have hf0 : 0 < f := by
      rw [hprint] at hpr
      have : f ≠ 0 := by simpa using hpr.symm
      omega
    have hstr : (fmtFrac prec w (c0 :: cs0)).1
        = '.' :: (fmtFracLoop prec w false (c0 :: cs0)).1 := by
      simp only [fmtFrac, hprint, if_true]
    rw [hstr]
    generalize (fmtFracLoop prec w false (c0 :: cs0)).1 = frac at hparse
    rw [leadingFraction_stop c0 cs0 f (10 ^ k) hc0] at hparse
    have hvu : v * 10 ^ prec ≤ 2 ^ 63 := by omega
    have hv : v ≤ 2 ^ 63 := le_trans (Nat.le_mul_of_pos_right v hpos) hvu
    have hv2 : ¬ v > 2 ^ 63 / 10 ^ prec := by
      rw [not_lt]
      exact (Nat.le_div_iff_mul_le hpos).mpr hvu
    have hint := leadingInt_fmtInt v ('.' :: frac) hv
    rw [leadingInt_stop '.' _ v rfl] at hint
    have hlen := fmtInt_length v ('.' :: frac)
    obtain ⟨c, ds, hfmt, hdig⟩ := fmtInt_digits v ('.' :: frac)
    rw [hfmt] at hint hlen ⊢
    have hpre : (('.' :: frac).length != (c :: (ds ++ '.' :: frac)).length) = true := by
      simp only [bne_iff_ne, ne_eq]
      omega
    have hfrac : f * 10 ^ prec / 10 ^ k = w % 10 ^ prec := by
      have hpow : 10 ^ prec = 10 ^ (prec - k) * 10 ^ k := by
        rw [← pow_add]
        congr 1
        omega
      calc f * 10 ^ prec / 10 ^ k
          = f * 10 ^ (prec - k) * 10 ^ k / 10 ^ k := by rw [Nat.mul_assoc, ← hpow]
        _ = f * 10 ^ (prec - k) := Nat.mul_div_cancel _ (pow_pos (by norm_num) _)
        _ = w % 10 ^ prec := hval
    simp only [parseLoop, hdig, or_true, not_true_eq_false, if_false, hint, List.head?_cons,
      if_true, List.tail_cons, hparse, hpre, Bool.not_true, Bool.false_and,
      Bool.false_eq_true, hspan, hunit, hv2, gt_iff_lt, hf0, hfrac]
    rw [if_neg (by simp), if_neg (by omega), if_neg (by omega)]
    exact parseLoop_nil _ _ (by omega)
theorem fmtFracLoop_length (n v : Nat) (print : Bool) (tail : List Char) :
    tail.length ≤ (fmtFracLoop n v print tail).1.length := by
  induction n generalizing v print tail with
  | zero => simp [fmtFracLoop]
  | succ n ih =>
    simp only [fmtFracLoop]
    refine le_trans ?_ (ih _ _ _)
    split <;> simp

theorem fmtFrac_quotient (prec v : Nat) (tail : List Char) (hprec : prec ≤ 9) :
    (fmtFrac prec v tail).2 = v / 10 ^ prec :=
  (fmtFracLoop_spec prec v false tail hprec).1

theorem spanUnit_single (c0 : Char) (rest : List Char) (hc0 : digitValue c0 = none)
    (hp : c0 ≠ '.') (hrest : ∃ c ds, rest = c :: ds ∧ (digitValue c).isSome = true) :
    spanUnit (c0 :: ([] ++ rest)) = ([c0], rest) := by
  obtain ⟨c, ds, rfl, hc⟩ := hrest
  simp [spanUnit, hc0, hp, hc]

/-- Parsing the text printed for a magnitude of at most `2^63` nanoseconds gives it back. -/
theorem parseLoop_durationBody (u : Nat) (hu : u ≤ 2 ^ 63) :
    parseLoop ((durationBody u).length + 1) (durationBody u) 0 = some u := by
  have hn : digitValue 'n' = none := rfl
  have hm : digitValue 'm' = none := rfl
  have hs : digitValue 's' = none := rfl
  have hh : digitValue 'h' = none := rfl
  have hmu : digitValue 'µ' = none := rfl
  unfold durationBody
  by_cases h1 : u < Second
  · rw [if_pos h1]
    unfold Second at h1
    by_cases h0 : u = 0
    · subst h0; rfl
    rw [if_neg h0]
    by_cases h2 : u < 1000
    · rw [if_pos h2]
      have hlen := fmtInt_length u ['n', 's']
      have := parseLoop_whole ((fmtInt u ['n', 's']).length + 1) u 0 1 'n' ['s'] []
        (by omega) hn (by decide) rfl rfl (by norm_num) (by omega)
      simp only [List.append_nil, Nat.zero_add, Nat.mul_one] at this
      rw [this]
      exact parseLoop_nil _ _ (by simp only [List.length_cons] at hlen; omega)
    rw [if_neg h2]
    by_cases h3 : u < 1000000
    · rw [if_pos h3]
      simp only []
      rw [fmtFrac_quotient 3 u _ (by norm_num)]
      have hlen := fmtInt_length (u / 10 ^ 3) (fmtFrac 3 u ['µ', 's']).1
      rw [parseLoop_fraction _ (u / 10 ^ 3) u 0 3 'µ' ['s'] (by omega) (by norm_num) hmu
        (by decide) rfl rfl (by norm_num; omega)]
      congr 1
      norm_num
      omega
    · rw [if_neg h3]
      simp only []
      rw [fmtFrac_quotient 6 u _ (by norm_num)]
      have hlen := fmtInt_length (u / 10 ^ 6) (fmtFrac 6 u ['m', 's']).1
      rw [parseLoop_fraction _ (u / 10 ^ 6) u 0 6 'm' ['s'] (by omega) (by norm_num) hm
        (by decide) rfl rfl (by norm_num; omega)]
      congr 1
      norm_num
      omega
  · rw [if_neg h1]
    unfold Second at h1
    simp only []
    rw [fmtFrac_quotient 9 u _ (by norm_num)]
    have hu' : u ≤ 9223372036854775808 := by norm_num at hu; exact hu
    have hS := fmtInt_length (u / 10 ^ 9 % 60) (fmtFrac 9 u ['s']).1
    obtain ⟨cS, dsS, hSfmt, hSdig⟩ := fmtInt_digits (u / 10 ^ 9 % 60) (fmtFrac 9 u ['s']).1
    by_cases hmin : u / 10 ^ 9 / 60 > 0
    · rw [if_pos hmin]
      have hM := fmtInt_length (u / 10 ^ 9 / 60 % 60)
        ('m' :: fmtInt (u / 10 ^ 9 % 60) (fmtFrac 9 u ['s']).1)
      obtain ⟨cM, dsM, hMfmt, hMdig⟩ := fmtInt_digits (u / 10 ^ 9 / 60 % 60)
        ('m' :: fmtInt (u / 10 ^ 9 % 60) (fmtFrac 9 u ['s']).1)
      have stepM : ∀ fuel d, 1 ≤ fuel →
          d + u / 10 ^ 9 / 60 % 60 * 60000000000 ≤ 2 ^ 63 →
          parseLoop fuel (fmtInt (u / 10 ^ 9 / 60 % 60)
              ('m' :: fmtInt (u / 10 ^ 9 % 60) (fmtFrac 9 u ['s']).1)) d
            = parseLoop (fuel - 1) (fmtInt (u / 10 ^ 9 % 60) (fmtFrac 9 u ['s']).1)
                (d + u / 10 ^ 9 / 60 % 60 * 60000000000) := by
        intro fuel d hf hd
        exact parseLoop_whole fuel _ d 60000000000 'm' [] _ hf hm (by decide)
          (spanUnit_single 'm' _ hm (by decide) ⟨cS, _, hSfmt, hSdig⟩) rfl (by norm_num) hd
      have stepS : ∀ fuel d, 2 ≤ fuel →
          d + (u / 10 ^ 9 % 60 * 10 ^ 9 + u % 10 ^ 9) ≤ 2 ^ 63 →
          parseLoop fuel (fmtInt (u / 10 ^ 9 % 60) (fmtFrac 9 u ['s']).1) d
            = some (d + (u / 10 ^ 9 % 60 * 10 ^ 9 + u % 10 ^ 9)) := by
        intro fuel d hf hd
        exact parseLoop_fraction fuel _ u d 9 's' [] hf (by norm_num) hs (by decide) rfl rfl hd
      by_cases hhr : u / 10 ^ 9 / 60 / 60 > 0
      · rw [if_pos hhr]
        have hH := fmtInt_length (u / 10 ^ 9 / 60 / 60)
          ('h' :: fmtInt (u / 10 ^ 9 / 60 % 60)
            ('m' :: fmtInt (u / 10 ^ 9 % 60) (fmtFrac 9 u ['s']).1))
        have stepH := parseLoop_whole
          ((fmtInt (u / 10 ^ 9 / 60 / 60)
            ('h' :: fmtInt (u / 10 ^ 9 / 60 % 60)
              ('m' :: fmtInt (u / 10 ^ 9 % 60) (fmtFrac 9 u ['s']).1))).length + 1)
          (u / 10 ^ 9 / 60 / 60) 0 3600000000000 'h' []
          (fmtInt (u / 10 ^ 9 / 60 % 60)
            ('m' :: fmtInt (u / 10 ^ 9 % 60) (fmtFrac 9 u ['s']).1))
          (by omega) hh (by decide)
          (spanUnit_single 'h' _ hh (by decide) ⟨cM, _, hMfmt, hMdig⟩) rfl (by norm_num)
          (by norm_num at hhr ⊢; omega)
        simp only [List.nil_append] at stepH
        rw [stepH, stepM _ _ (by simp only [List.length_cons] at hH hM ⊢; omega)
          (by norm_num; omega),
          stepS _ _ (by simp only [List.length_cons] at hH hM ⊢; omega) (by norm_num; omega)]
        congr 1
        norm_num
        omega
      · rw [if_neg hhr]
        have stepM0 := stepM
          ((fmtInt (u / 10 ^ 9 / 60 % 60)
            ('m' :: fmtInt (u / 10 ^ 9 % 60) (fmtFrac 9 u ['s']).1)).length + 1) 0
          (by omega) (by norm_num; omega)
        rw [stepM0, stepS _ _ (by simp only [List.length_cons] at hM ⊢; omega)
          (by norm_num at hhr ⊢; omega)]
        congr 1
        norm_num at hhr ⊢
        omega
    · rw [if_neg hmin]
      rw [parseLoop_fraction _ _ u 0 9 's' [] (by omega) (by norm_num) hs (by decide) rfl rfl
        (by norm_num at hmin ⊢; omega)]
      congr 1
      norm_num at hmin ⊢
      omega
theorem fmtFrac_ne_nil (prec v : Nat) (c0 : Char) (cs0 : List Char) :
    (fmtFrac prec v (c0 :: cs0)).1 ≠ [] := by
  have h := fmtFracLoop_length prec v false (c0 :: cs0)
  unfold fmtFrac
  simp only []
  split
  · simp
  · intro h0
    rw [h0] at h
    simp at h

theorem fmtInt_shape (v : Nat) (tail : List Char) (ht : tail ≠ []) :
    ∃ c rest, fmtInt v tail = c :: rest ∧ (digitValue c).isSome = true ∧ rest ≠ [] := by
  obtain ⟨c, ds, h, hc⟩ := fmtInt_digits v tail
  exact ⟨c, ds ++ tail, h, hc, by simp [ht]⟩

/-- The text printed for a magnitude starts with a digit and goes on after it. -/
theorem durationBody_shape (u : Nat) :
    ∃ c rest, durationBody u = c :: rest ∧ (digitValue c).isSome = true ∧ rest ≠ [] := by
  unfold durationBody
  split
  · split
    · exact ⟨'0', ['s'], rfl, rfl, by simp⟩
    · split
      · exact fmtInt_shape _ _ (by simp)
      · split
        · exact fmtInt_shape _ _ (fmtFrac_ne_nil _ _ _ _)
        · exact fmtInt_shape _ _ (fmtFrac_ne_nil _ _ _ _)
  · simp only []
    split
    · split
      · exact fmtInt_shape _ _ (by simp)
      · exact fmtInt_shape _ _ (by simp)
    · exact fmtInt_shape _ _ (fmtFrac_ne_nil _ _ _ _)

/-- `time.ParseDuration` gives back every 64-bit duration that `Duration.String` printed. -/
theorem parseDuration_durationString (n : Int) (hlo : -(2 : Int) ^ 63 ≤ n)
    (hhi : n < (2 : Int) ^ 63) : parseDuration (durationString n) = some n := by
  have hu : n.natAbs ≤ 2 ^ 63 := by omega
  have hloop := parseLoop_durationBody n.natAbs hu
  obtain ⟨c, rest, hbody, hc, hrest⟩ := durationBody_shape n.natAbs
  have hminus : c ≠ '-' := by
    rintro rfl
    exact absurd hc (by decide)
  have hplus : c ≠ '+' := by
    rintro rfl
    exact absurd hc (by decide)
  have hne0 : c :: rest ≠ ['0'] := by
    intro h
    simp only [List.cons.injEq] at h
    exact hrest h.2
  by_cases hneg : n < 0
  · have hdata : (durationString n).data = '-' :: durationBody n.natAbs := by
      simp only [durationString, if_pos hneg]
    simp only [parseDuration, hdata, List.head?_cons, true_or, if_true, List.tail_cons,
      decide_True, hloop]
    rw [hbody, if_neg hne0, if_neg (by simp)]
    congr 1
    omega
  · have hdata : (durationString n).data = c :: rest := by
      simp only [durationString, if_neg hneg, hbody]
    rw [hbody] at hloop
    have h1 : ¬ ((some c = some '-') ∨ (some c = some '+')) := by
      simp [hminus, hplus]
    have h2 : (decide (some c = some '-')) = false := by simp [hminus]
    simp only [parseDuration, hdata, List.head?_cons, h1, if_false, h2, hloop]
    rw [if_neg hne0, if_neg (by simp)]
    simp only [Bool.false_eq_true, if_false]
    rw [if_neg (by omega)]
    congr 1
    omega

/-! ## Durations in JSON -/

/-- C13: for every `Duration` `d` (a count of nanoseconds in 64 bits), decoding the JSON
string produced by encoding `d` gives `d`; the literal `"12.1ms"` decodes to 12 ms + 100 µs,
that is 12,100 microseconds, and encoding that value gives the literal `"12.1ms"` again. -/
theorem duration_round_trip (d cur : Duration) (hlo : -(2 : Int) ^ 63 ≤ d.ns)
    (hhi : d.ns < (2 : Int) ^ 63) :
    decodeDuration (encodeDuration d) cur = (d, none)
    ∧ decodeDuration (.string "12.1ms") cur = (⟨12 * 1000000 + 100 * 1000⟩, none)
    ∧ (12 * 1000000 + 100 * 1000 : Int) = 12100 * 1000
    ∧ encodeDuration ⟨12 * 1000000 + 100 * 1000⟩ = .string "12.1ms" := by
  refine ⟨?_, ?_, by norm_num, ?_⟩
  · simp only [encodeDuration, decodeDuration, parseDuration_durationString d.ns hlo hhi]
  · have h : parseDuration "12.1ms" = some 12100000 := by decide
    simp only [decodeDuration, h]
    norm_num
  · have h : durationString 12100000 = "12.1ms" := by decide
    simp only [encodeDuration]
    norm_num
    exact h

/-- C13 at the round-trip time of `TestLoadBalancerPoolHealthDetails`. -/
theorem duration_round_trip_witness :
    (-(2 : Int) ^ 63 ≤ 12100000 ∧ (12100000 : Int) < (2 : Int) ^ 63)
    ∧ decodeDuration (encodeDuration ⟨12100000⟩) ⟨0⟩ = (⟨12100000⟩, none) :=
  ⟨by decide, (duration_round_trip ⟨12100000⟩ ⟨0⟩ (by decide) (by decide)).1⟩

/-! ## Keys of an encoded fallback domain -/

/-- The keys of an encoded fallback domain, in order: each of the three when its field is
not empty. -/
theorem keys_encodeFallbackDomain (d : FallbackDomain) :
    (encodeFallbackDomain d).keys
      = (if (d.Suffix == "") = true then [] else ["suffix"])
        ++ (if (d.Description == "") = true then [] else ["description"])
        ++ (if (d.DNSServer.len == 0) = true then [] else ["dns_server"]) := by
  simp only [encodeFallbackDomain, JSON.keys, JSON.members, List.map_append, keys_omitEmpty]

/-- C21: for every `FallbackDomain` `d`, the JSON object encoding `d` has the key `suffix`
exactly when `d.Suffix` is not empty, the key `description` exactly when `d.Description` is
not empty, and the key `dns_server` exactly when `d.DNSServer` has at least one element; it
has no other key and no key twice, each key holds its field, and a domain with all three
fields empty encodes to the empty object. -/
theorem keys_present_iff_fields_non_empty (d : FallbackDomain) :
    ("suffix" ∈ (encodeFallbackDomain d).keys ↔ d.Suffix ≠ "")
    ∧ ("description" ∈ (encodeFallbackDomain d).keys ↔ d.Description ≠ "")
    ∧ ("dns_server" ∈ (encodeFallbackDomain d).keys ↔ 0 < d.DNSServer.len)
    ∧ (∀ key ∈ (encodeFallbackDomain d).keys,
        key = "suffix" ∨ key = "description" ∨ key = "dns_server")
    ∧ (encodeFallbackDomain d).keys.Nodup
    ∧ (∀ key v, (key, v) ∈ (encodeFallbackDomain d).members →
        (key = "suffix" ∧ v = .string d.Suffix)
        ∨ (key = "description" ∧ v = .string d.Description)
        ∨ (key = "dns_server" ∧ v = .array (d.DNSServer.toList.map .string)))
    ∧ (d.Suffix = "" ∧ d.Description = "" ∧ d.DNSServer.len = 0 →
        encodeFallbackDomain d = .object []) := by
  have hk := keys_encodeFallbackDomain d
  obtain ⟨s, t, n⟩ := d
  have hn : n.len = 0 ∨ 0 < n.len := Nat.eq_zero_or_pos _
  refine ⟨?_, ?_, ?_, ?_, ?_, ?_, ?_⟩
  · rw [hk]
    by_cases h1 : s = "" <;> by_cases h2 : t = "" <;> rcases hn with h3 | h3 <;>
      simp [h1, h2, h3, Nat.ne_of_gt]
  · rw [hk]
    by_cases h1 : s = "" <;> by_cases h2 : t = "" <;> rcases hn with h3 | h3 <;>
      simp [h1, h2, h3, Nat.ne_of_gt]
  · rw [hk]
    by_cases h1 : s = "" <;> by_cases h2 : t = "" <;> rcases hn with h3 | h3 <;>
      simp [h1, h2, h3, Nat.ne_of_gt]
  · rw [hk]
    intro key hkey
    by_cases h1 : s = "" <;> by_cases h2 : t = "" <;> rcases hn with h3 | h3 <;>
      simp [h1, h2, h3, Nat.ne_of_gt] at hkey ⊢ <;> tauto
  · rw [hk]
    by_cases h1 : s = "" <;> by_cases h2 : t = "" <;> rcases hn with h3 | h3 <;>
      simp [h1, h2, h3, Nat.ne_of_gt]
  · intro key v hv
    simp only [encodeFallbackDomain, JSON.members, omitEmpty, List.mem_append] at hv
    rcases hv with (hv | hv) | hv
    · split at hv
      · simp at hv
      · simp at hv
        exact Or.inl hv
    · split at hv
      · simp at hv
      · simp at hv
        exact Or.inr (Or.inl hv)
    · split at hv
      · simp at hv
      · rename_i h3
        simp at hv
        refine Or.inr (Or.inr ⟨hv.1, ?_⟩)
        rw [hv.2]
        cases n with
        | nil => simp [Slice.len, Slice.toList] at h3
        | elems xs => rfl
  · rintro ⟨h1, h2, h3⟩
    simp only at h1 h2 h3
    simp [encodeFallbackDomain, omitEmpty, h1, h2, h3]

/-! ## The arguments of an update and its result -/

/-- C23: what `UpdateFallbackDomain` returns is determined by the outcome of its request
alone: for any two `domains` arguments `d1` and `d2` (and any client states), if the request
layer returns the same `([]byte, error)` pair for both, the two calls return the same list
and the same error. -/
theorem update_result_ignores_domains {σ : Type} (api : Package σ) (ctx : Context)
    (accountID : String) (d1 d2 : Slice FallbackDomain) (s1 s2 : σ)
    (h : (api.makeRequestContext ctx MethodPut
          (Sprintf "/%s/%s/devices/policy/fallback_domains" [api.AccountRouteRoot, accountID])
          (Params.fallbackDomains d1) s1).1
        = (api.makeRequestContext ctx MethodPut
          (Sprintf "/%s/%s/devices/policy/fallback_domains" [api.AccountRouteRoot, accountID])
          (Params.fallbackDomains d2) s2).1) :
    (UpdateFallbackDomain api ctx accountID d1 s1).1
      = (UpdateFallbackDomain api ctx accountID d2 s2).1 :=
  update_result_congr api api ctx ctx accountID accountID d1 d2 s1 s2 rfl h

/-- An update with the nil list and an update with one domain, both answered with the body
of two domains, return the same pair: the two domains of the answer and a nil error. -/
theorem update_result_ignores_domains_witness :
    ((Package.answering twoDomains none).makeRequestContext ⟨0⟩ MethodPut
        (Sprintf "/%s/%s/devices/policy/fallback_domains" ["accounts", "abc"])
        (Params.fallbackDomains .nil) ()).1
      = ((Package.answering twoDomains none).makeRequestContext ⟨0⟩ MethodPut
        (Sprintf "/%s/%s/devices/policy/fallback_domains" ["accounts", "abc"])
        (Params.fallbackDomains (.elems [noServers])) ()).1
    ∧ (UpdateFallbackDomain (Package.answering twoDomains none) ⟨0⟩ "abc" .nil ()).1
      = (UpdateFallbackDomain (Package.answering twoDomains none) ⟨0⟩ "abc"
          (.elems [noServers]) ()).1
    ∧ (UpdateFallbackDomain (Package.answering twoDomains none) ⟨0⟩ "abc"
          (.elems [noServers]) ()).1
      = (.elems [⟨"example.com", "first", .nil⟩,
                 ⟨"corp.test", "", .elems ["10.0.0.1", "10.0.0.2"]⟩], none) :=
  ⟨rfl,
   update_result_ignores_domains (Package.answering twoDomains none) ⟨0⟩ "abc" .nil
     (.elems [noServers]) () () rfl,
   by decide⟩

/-! ## A body without a result -/

theorem isNull_iff (v : JSON) : v.isNull = true ↔ v = .null := by
  cases v <;> simp [JSON.isNull]

/-- Storing a member that is not a non-null `result` leaves a nil `Result` nil. -/
theorem storeMember_result_nil (acc : FallbackDomainResponse × Option JsonError)
    (m : String × JSON) (hm : (!equalFold "result" m.1 || m.2.isNull) = true)
    (hacc : acc.1.Result = .nil) :
    (storeMember FallbackDomainResponse.field acc m).1.Result = .nil := by
  unfold storeMember FallbackDomainResponse.field
  by_cases h1 : equalFold "success" m.1 = true
  · rw [if_pos h1]; exact hacc
  · rw [if_neg h1]
    by_cases h2 : equalFold "errors" m.1 = true
    · rw [if_pos h2]; exact hacc
    · rw [if_neg h2]
      by_cases h3 : equalFold "messages" m.1 = true
      · rw [if_pos h3]; exact hacc
      · rw [if_neg h3]
        by_cases h4 : equalFold "result" m.1 = true
        · rw [if_pos h4]
          have hn : m.2 = .null := by
            rw [h4] at hm
            exact (isNull_iff m.2).1 (by simpa using hm)
          simp [hn, decodeSlice]
        · rw [if_neg h4]; exact hacc

theorem foldl_result_nil (members : List (String × JSON))
    (acc : FallbackDomainResponse × Option JsonError)
    (h : resultAbsentOrNull members = true) (hacc : acc.1.Result = .nil) :
    (members.foldl (storeMember FallbackDomainResponse.field) acc).1.Result = .nil := by
  induction members generalizing acc with
  | nil => exact hacc
  | cons m ms ih =>
    simp only [resultAbsentOrNull, List.all_cons, Bool.and_eq_true] at h
    rw [List.foldl_cons]
    exact ih _ h.2 (storeMember_result_nil acc m h.1 hacc)

/-- Decoding an object in which `result` is absent or null leaves `Result` the nil slice,
whatever the other members are. -/
theorem jsonUnmarshal_result_nil (members : List (String × JSON))
    (h : resultAbsentOrNull members = true) :
    (jsonUnmarshal (.text (.object members)) FallbackDomainResponse.zero).1.Result = .nil :=
  foldl_result_nil members _ h rfl

/-- C24 (counterexample): the body whose only member is `success`, holding the string
`yes`, is a valid JSON object without `result`; handed back by the request layer without error, it makes both methods return the
wrapped type error of the decoder and the allocated empty list, not a nil error. -/
theorem ill_typed_envelope_is_an_error :
    resultAbsentOrNull [("success", .string "yes")] = true
    ∧ (ListFallbackDomains (Package.answering successAsText none) ⟨0⟩ "abc" ()).1
        = (.elems [], some (.withMessage (.json (.unmarshalTypeError "string" "bool"))
            "error unmarshalling the JSON response"))
    ∧ (UpdateFallbackDomain (Package.answering successAsText none) ⟨0⟩ "abc" .nil ()).1
        = (.elems [], some (.withMessage (.json (.unmarshalTypeError "string" "bool"))
            "error unmarshalling the JSON response"))
    ∧ (ListFallbackDomains (Package.answering successAsText none) ⟨0⟩ "abc" ()).1.2 ≠ none
    ∧ (UpdateFallbackDomain (Package.answering successAsText none) ⟨0⟩ "abc" .nil ()).1.2
        ≠ none := by
  decide

/-- C24 (amended): for every response body that is a JSON object in which `result` is absent
or null, handed back by the request layer without error, `ListFallbackDomains` and
`UpdateFallbackDomain` return a list with no elements, whatever the other members are
(`success`, `errors`, `messages`, `result_info`, unknown keys); the error is nil, and the
list the nil slice, exactly when the body decodes, and otherwise the error is the wrapped
decode error and the list the allocated empty one. -/
theorem absent_or_null_result_gives_no_elements {σ : Type} (api : Package σ) (ctx : Context)
    (accountID : String) (domains : Slice FallbackDomain) (s : σ)
    (members : List (String × JSON)) (h : resultAbsentOrNull members = true) :
    (∀ s', api.makeRequestContext ctx MethodGet
          (Sprintf "/%s/%s/devices/policy/fallback_domains" [api.AccountRouteRoot, accountID])
          Params.nil s = ((.text (.object members), none), s') →
        (ListFallbackDomains api ctx accountID s).1.1.toList = []
        ∧ ((jsonUnmarshal (.text (.object members)) FallbackDomainResponse.zero).2 = none →
            ListFallbackDomains api ctx accountID s = ((.nil, none), s'))
        ∧ (∀ je, (jsonUnmarshal (.text (.object members)) FallbackDomainResponse.zero).2
              = some je →
            ListFallbackDomains api ctx accountID s
              = ((.elems [], some (.withMessage (.json je) api.errUnmarshalError)), s')))
    ∧ (∀ s', api.makeRequestContext ctx MethodPut
          (Sprintf "/%s/%s/devices/policy/fallback_domains" [api.AccountRouteRoot, accountID])
          (Params.fallbackDomains domains) s = ((.text (.object members), none), s') →
        (UpdateFallbackDomain api ctx accountID domains s).1.1.toList = []
        ∧ ((jsonUnmarshal (.text (.object members)) FallbackDomainResponse.zero).2 = none →
            UpdateFallbackDomain api ctx accountID domains s = ((.nil, none), s'))
        ∧ (∀ je, (jsonUnmarshal (.text (.object members)) FallbackDomainResponse.zero).2
              = some je →
            UpdateFallbackDomain api ctx accountID domains s
              = ((.elems [], some (.withMessage (.json je) api.errUnmarshalError)), s'))) := by
  have hnil := jsonUnmarshal_result_nil members h
  constructor
  · intro s' hreq
    have hok : (jsonUnmarshal (.text (.object members)) FallbackDomainResponse.zero).2 = none →
        ListFallbackDomains api ctx accountID s = ((.nil, none), s') := by
      intro hd
      rw [list_of_decoded api ctx accountID s s' _ hreq hd, hnil]
    have herr : ∀ je, (jsonUnmarshal (.text (.object members)) FallbackDomainResponse.zero).2
          = some je →
        ListFallbackDomains api ctx accountID s
          = ((.elems [], some (.withMessage (.json je) api.errUnmarshalError)), s') :=
      fun je hd => list_of_decode_error api ctx accountID s s' _ je hreq hd
    refine ⟨?_, hok, herr⟩
    cases hd : (jsonUnmarshal (.text (.object members)) FallbackDomainResponse.zero).2 with
    | none => rw [hok hd]; rfl
    | some je => rw [herr je hd]; rfl
  · intro s' hreq
    have hok : (jsonUnmarshal (.text (.object members)) FallbackDomainResponse.zero).2 = none →
        UpdateFallbackDomain api ctx accountID domains s = ((.nil, none), s') := by
      intro hd
      rw [update_of_decoded api ctx accountID domains s s' _ hreq hd, hnil]
    have herr : ∀ je, (jsonUnmarshal (.text (.object members)) FallbackDomainResponse.zero).2
          = some je →
        UpdateFallbackDomain api ctx accountID domains s
          = ((.elems [], some (.withMessage (.json je) api.errUnmarshalError)), s') :=
      fun je hd => update_of_decode_error api ctx accountID domains s s' _ je hreq hd
    refine ⟨?_, hok, herr⟩
    cases hd : (jsonUnmarshal (.text (.object members)) FallbackDomainResponse.zero).2 with
    | none => rw [hok hd]; rfl
    | some je => rw [herr je hd]; rfl

/-- A body with `success`, `errors`, `messages`, a null `result`, `result_info` and an
unknown key decodes, and both methods return the nil slice and a nil error for it. -/
theorem absent_or_null_result_gives_no_elements_witness :
    resultAbsentOrNull nullResultMembers = true
    ∧ ListFallbackDomains (Package.answering (.text (.object nullResultMembers)) none)
        ⟨0⟩ "abc" () = ((.nil, none), ())
    ∧ UpdateFallbackDomain (Package.answering (.text (.object nullResultMembers)) none)
        ⟨0⟩ "abc" (.elems [noServers]) () = ((.nil, none), ()) :=
  ⟨by decide,
   ((absent_or_null_result_gives_no_elements
      (Package.answering (.text (.object nullResultMembers)) none) ⟨0⟩ "abc"
      (.elems [noServers]) () nullResultMembers (by decide)).1 () rfl).2.1 (by decide),
   ((absent_or_null_result_gives_no_elements
      (Package.answering (.text (.object nullResultMembers)) none) ⟨0⟩ "abc"
      (.elems [noServers]) () nullResultMembers (by decide)).2 () rfl).2.1 (by decide)⟩

/-! ## UTF-8 in Go strings -/

theorem first_ascii (b : Nat) (h : b < 0x80) : utf8.first b = 0xF0 := by
  unfold utf8.first; rw [if_pos h]

theorem first_invalid (b : Nat) (h : 0x80 ≤ b ∧ b < 0xC2 ∨ 0xF5 ≤ b) : utf8.first b = 0xF1 := by
  unfold utf8.first; split_ifs <;> first | rfl | omega

theorem first_two (b : Nat) (h : 0xC2 ≤ b ∧ b < 0xE0) : utf8.first b = 0x02 := by
  unfold utf8.first; split_ifs <;> first | rfl | omega

theorem first_E0 : utf8.first 0xE0 = 0x13 := by decide

theorem first_three (b : Nat) (h : 0xE1 ≤ b ∧ b < 0xED ∨ b = 0xEE ∨ b = 0xEF) :
    utf8.first b = 0x03 := by
  unfold utf8.first; split_ifs <;> first | rfl | omega

theorem first_ED : utf8.first 0xED = 0x23 := by decide

theorem first_F0 : utf8.first 0xF0 = 0x34 := by decide

theorem first_four (b : Nat) (h : 0xF1 ≤ b ∧ b < 0xF4) : utf8.first b = 0x04 := by
  unfold utf8.first; split_ifs <;> first | rfl | omega

theorem first_F4 : utf8.first 0xF4 = 0x44 := by decide

theorem byte_cases (b : Nat) :
    b < 0x80 ∨ (0x80 ≤ b ∧ b < 0xC2 ∨ 0xF5 ≤ b) ∨ (0xC2 ≤ b ∧ b < 0xE0) ∨ b = 0xE0
    ∨ (0xE1 ≤ b ∧ b < 0xED ∨ b = 0xEE ∨ b = 0xEF) ∨ b = 0xED ∨ b = 0xF0
    ∨ (0xF1 ≤ b ∧ b < 0xF4) ∨ b = 0xF4 := by
  omega

theorem ofNat_eq_of_toNat (b : UInt8) (n : Nat) (h : n = b.toNat) : UInt8.ofNat n = b := by
  apply UInt8.toNat.inj
  rw [UInt8.toNat_ofNat_of_lt (by rw [h]; exact UInt8.toNat_lt_size b), h]

theorem toNat_ofNat_valid (n : Nat) (h : n.isValidChar) : (Char.ofNat n).toNat = n := by
  simp [Char.ofNat, h, Char.ofNatAux, Char.toNat, UInt32.toNat]

theorem length_pos_of_byteAt {s : List UInt8} (h : 0 < utf8.byteAt s 0) : ¬ s.length < 1 := by
  intro hlt
  have : s = [] := List.length_eq_zero.1 (by omega)
  subst this
  simp [utf8.byteAt] at h

theorem decode_class_ascii (s : List UInt8) (hs : ¬ s.length < 1) (h : utf8.byteAt s 0 < 0x80) :
    utf8.DecodeRuneInString s = (utf8.byteAt s 0, 1) := by
  simp [utf8.DecodeRuneInString, first_ascii _ h, hs]

theorem decode_class_invalid (s : List UInt8) (hs : ¬ s.length < 1)
    (h : 0x80 ≤ utf8.byteAt s 0 ∧ utf8.byteAt s 0 < 0xC2 ∨ 0xF5 ≤ utf8.byteAt s 0) :
    utf8.DecodeRuneInString s = (utf8.RuneError, 1) := by
  simp [utf8.DecodeRuneInString, first_invalid _ h, hs]

theorem decode_class_two (s : List UInt8) (h : 0xC2 ≤ utf8.byteAt s 0 ∧ utf8.byteAt s 0 < 0xE0) :
    utf8.DecodeRuneInString s
      = if s.length < 2 then (utf8.RuneError, 1)
        else if utf8.byteAt s 1 < 0x80 ∨ 0xBF < utf8.byteAt s 1 then (utf8.RuneError, 1)
        else (utf8.byteAt s 0 % 32 * 64 + utf8.byteAt s 1 % 64, 2) := by
  simp [utf8.DecodeRuneInString, first_two _ h, utf8.acceptRanges, length_pos_of_byteAt (by omega : 0 < utf8.byteAt s 0)]

theorem decode_class_E0 (s : List UInt8) (h : utf8.byteAt s 0 = 0xE0) :
    utf8.DecodeRuneInString s
      = if s.length < 3 then (utf8.RuneError, 1)
        else if utf8.byteAt s 1 < 0xA0 ∨ 0xBF < utf8.byteAt s 1 then (utf8.RuneError, 1)
        else if utf8.byteAt s 2 < 0x80 ∨ 0xBF < utf8.byteAt s 2 then (utf8.RuneError, 1)
        else (utf8.byteAt s 0 % 16 * 4096 + utf8.byteAt s 1 % 64 * 64 + utf8.byteAt s 2 % 64, 3) := by
  simp [utf8.DecodeRuneInString, h, first_E0, utf8.acceptRanges, length_pos_of_byteAt (by omega : 0 < utf8.byteAt s 0)]

theorem decode_class_three (s : List UInt8)
    (h : 0xE1 ≤ utf8.byteAt s 0 ∧ utf8.byteAt s 0 < 0xED ∨ utf8.byteAt s 0 = 0xEE ∨ utf8.byteAt s 0 = 0xEF) :
    utf8.DecodeRuneInString s
      = if s.length < 3 then (utf8.RuneError, 1)
        else if utf8.byteAt s 1 < 0x80 ∨ 0xBF < utf8.byteAt s 1 then (utf8.RuneError, 1)
        else if utf8.byteAt s 2 < 0x80 ∨ 0xBF < utf8.byteAt s 2 then (utf8.RuneError, 1)
        else (utf8.byteAt s 0 % 16 * 4096 + utf8.byteAt s 1 % 64 * 64 + utf8.byteAt s 2 % 64, 3) := by
  simp [utf8.DecodeRuneInString, first_three _ h, utf8.acceptRanges, length_pos_of_byteAt (by omega : 0 < utf8.byteAt s 0)]

theorem decode_class_ED (s : List UInt8) (h : utf8.byteAt s 0 = 0xED) :
    utf8.DecodeRuneInString s
      = if s.length < 3 then (utf8.RuneError, 1)
        else if utf8.byteAt s 1 < 0x80 ∨ 0x9F < utf8.byteAt s 1 then (utf8.RuneError, 1)
        else if utf8.byteAt s 2 < 0x80 ∨ 0xBF < utf8.byteAt s 2 then (utf8.RuneError, 1)
        else (utf8.byteAt s 0 % 16 * 4096 + utf8.byteAt s 1 % 64 * 64 + utf8.byteAt s 2 % 64, 3) := by
  simp [utf8.DecodeRuneInString, h, first_ED, utf8.acceptRanges, length_pos_of_byteAt (by omega : 0 < utf8.byteAt s 0)]

theorem decode_class_F0 (s : List UInt8) (h : utf8.byteAt s 0 = 0xF0) :
    utf8.DecodeRuneInString s
      = if s.length < 4 then (utf8.RuneError, 1)
        else if utf8.byteAt s 1 < 0x90 ∨ 0xBF < utf8.byteAt s 1 then (utf8.RuneError, 1)
        else if utf8.byteAt s 2 < 0x80 ∨ 0xBF < utf8.byteAt s 2 then (utf8.RuneError, 1)
        else if utf8.byteAt s 3 < 0x80 ∨ 0xBF < utf8.byteAt s 3 then (utf8.RuneError, 1)
        else (utf8.byteAt s 0 % 8 * 262144 + utf8.byteAt s 1 % 64 * 4096 + utf8.byteAt s 2 % 64 * 64
                + utf8.byteAt s 3 % 64, 4) := by
  simp [utf8.DecodeRuneInString, h, first_F0, utf8.acceptRanges, length_pos_of_byteAt (by omega : 0 < utf8.byteAt s 0)]

theorem decode_class_four (s : List UInt8) (h : 0xF1 ≤ utf8.byteAt s 0 ∧ utf8.byteAt s 0 < 0xF4) :
    utf8.DecodeRuneInString s
      = if s.length < 4 then (utf8.RuneError, 1)
        else if utf8.byteAt s 1 < 0x80 ∨ 0xBF < utf8.byteAt s 1 then (utf8.RuneError, 1)
        else if utf8.byteAt s 2 < 0x80 ∨ 0xBF < utf8.byteAt s 2 then (utf8.RuneError, 1)
        else if utf8.byteAt s 3 < 0x80 ∨ 0xBF < utf8.byteAt s 3 then (utf8.RuneError, 1)
        else (utf8.byteAt s 0 % 8 * 262144 + utf8.byteAt s 1 % 64 * 4096 + utf8.byteAt s 2 % 64 * 64
                + utf8.byteAt s 3 % 64, 4) := by
  simp [utf8.DecodeRuneInString, first_four _ h, utf8.acceptRanges, length_pos_of_byteAt (by omega : 0 < utf8.byteAt s 0)]

theorem decode_class_F4 (s : List UInt8) (h : utf8.byteAt s 0 = 0xF4) :
    utf8.DecodeRuneInString s
      = if s.length < 4 then (utf8.RuneError, 1)
        else if utf8.byteAt s 1 < 0x80 ∨ 0x8F < utf8.byteAt s 1 then (utf8.RuneError, 1)
        else if utf8.byteAt s 2 < 0x80 ∨ 0xBF < utf8.byteAt s 2 then (utf8.RuneError, 1)
        else if utf8.byteAt s 3 < 0x80 ∨ 0xBF < utf8.byteAt s 3 then (utf8.RuneError, 1)
        else (utf8.byteAt s 0 % 8 * 262144 + utf8.byteAt s 1 % 64 * 4096 + utf8.byteAt s 2 % 64 * 64
                + utf8.byteAt s 3 % 64, 4) := by
  simp [utf8.DecodeRuneInString, h, first_F4, utf8.acceptRanges, length_pos_of_byteAt (by omega : 0 < utf8.byteAt s 0)]

theorem append_one (b0 : UInt8) (h0 : b0.toNat < 0x80) :
    utf8.AppendRune b0.toNat = [b0] ∧ b0.toNat.isValidChar := by
  refine ⟨?_, Or.inl (by omega)⟩
  unfold utf8.AppendRune
  rw [if_pos (by omega), ofNat_eq_of_toNat b0 _ rfl]

theorem append_two (b0 b1 : UInt8) (h0 : 0xC2 ≤ b0.toNat ∧ b0.toNat < 0xE0)
    (h1 : ¬ (b1.toNat < 0x80 ∨ 0xBF < b1.toNat)) :
    utf8.AppendRune (b0.toNat % 32 * 64 + b1.toNat % 64) = [b0, b1]
    ∧ (b0.toNat % 32 * 64 + b1.toNat % 64).isValidChar := by
  refine ⟨?_, Or.inl (by omega)⟩
  unfold utf8.AppendRune
  rw [if_neg (by omega), if_pos (by omega),
    ofNat_eq_of_toNat b0 _ (by omega), ofNat_eq_of_toNat b1 _ (by omega)]

theorem append_three (b0 b1 b2 : UInt8) (h0 : 0xE0 ≤ b0.toNat ∧ b0.toNat < 0xF0)
    (h1 : ¬ (b1.toNat < 0x80 ∨ 0xBF < b1.toNat))
    (h2 : ¬ (b2.toNat < 0x80 ∨ 0xBF < b2.toNat))
    (hlo : b0.toNat = 0xE0 → 0xA0 ≤ b1.toNat) (hhi : b0.toNat = 0xED → b1.toNat ≤ 0x9F) :
    utf8.AppendRune (b0.toNat % 16 * 4096 + b1.toNat % 64 * 64 + b2.toNat % 64)
      = [b0, b1, b2]
    ∧ (b0.toNat % 16 * 4096 + b1.toNat % 64 * 64 + b2.toNat % 64).isValidChar := by
  have hv : (b0.toNat % 16 * 4096 + b1.toNat % 64 * 64 + b2.toNat % 64).isValidChar := by
    unfold Nat.isValidChar; omega
  refine ⟨?_, hv⟩
  unfold utf8.AppendRune
  rw [if_neg (by omega), if_neg (by omega), if_neg (by unfold Nat.isValidChar at hv; omega),
    if_pos (by omega),
    ofNat_eq_of_toNat b0 _ (by omega), ofNat_eq_of_toNat b1 _ (by omega),
    ofNat_eq_of_toNat b2 _ (by omega)]

theorem append_four (b0 b1 b2 b3 : UInt8) (h0 : 0xF0 ≤ b0.toNat ∧ b0.toNat ≤ 0xF4)
    (h1 : ¬ (b1.toNat < 0x80 ∨ 0xBF < b1.toNat))
    (h2 : ¬ (b2.toNat < 0x80 ∨ 0xBF < b2.toNat))
    (h3 : ¬ (b3.toNat < 0x80 ∨ 0xBF < b3.toNat))
    (hlo : b0.toNat = 0xF0 → 0x90 ≤ b1.toNat) (hhi : b0.toNat = 0xF4 → b1.toNat ≤ 0x8F) :
    utf8.AppendRune (b0.toNat % 8 * 262144 + b1.toNat % 64 * 4096 + b2.toNat % 64 * 64
        + b3.toNat % 64) = [b0, b1, b2, b3]
    ∧ (b0.toNat % 8 * 262144 + b1.toNat % 64 * 4096 + b2.toNat % 64 * 64
        + b3.toNat % 64).isValidChar := by
  have hv : (b0.toNat % 8 * 262144 + b1.toNat % 64 * 4096 + b2.toNat % 64 * 64
        + b3.toNat % 64).isValidChar := by
    unfold Nat.isValidChar; omega
  refine ⟨?_, hv⟩
  unfold utf8.AppendRune
  rw [if_neg (by omega), if_neg (by omega), if_neg (by omega), if_neg (by omega),
    ofNat_eq_of_toNat b0 _ (by omega), ofNat_eq_of_toNat b1 _ (by omega),
    ofNat_eq_of_toNat b2 _ (by omega), ofNat_eq_of_toNat b3 _ (by omega)]

theorem shape_two (s : List UInt8) (h : ¬ s.length < 2) : ∃ b0 b1 tl, s = b0 :: b1 :: tl := by
  match s, h with
  | b0 :: b1 :: tl, _ => exact ⟨b0, b1, tl, rfl⟩
  | [_], h => simp at h
  | [], h => simp at h

theorem shape_three (s : List UInt8) (h : ¬ s.length < 3) :
    ∃ b0 b1 b2 tl, s = b0 :: b1 :: b2 :: tl := by
  match s, h with
  | b0 :: b1 :: b2 :: tl, _ => exact ⟨b0, b1, b2, tl, rfl⟩
  | [_, _], h => simp at h
  | [_], h => simp at h
  | [], h => simp at h

theorem shape_four (s : List UInt8) (h : ¬ s.length < 4) :
    ∃ b0 b1 b2 b3 tl, s = b0 :: b1 :: b2 :: b3 :: tl := by
  match s, h with
  | b0 :: b1 :: b2 :: b3 :: tl, _ => exact ⟨b0, b1, b2, b3, tl, rfl⟩
  | [_, _, _], h => simp at h
  | [_, _], h => simp at h
  | [_], h => simp at h
  | [], h => simp at h

/-- What `utf8.DecodeRuneInString` reports on a non-empty string: `utf8.RuneError` with width 1 at a
byte that is not ASCII, or a rune whose encoding is the first `width` bytes. -/
theorem decode_spec (s : List UInt8) (hs : ¬ s.length < 1) :
    (utf8.DecodeRuneInString s = (utf8.RuneError, 1) ∧ 0x80 ≤ utf8.byteAt s 0)
    ∨ (1 ≤ (utf8.DecodeRuneInString s).2 ∧ (utf8.DecodeRuneInString s).2 ≤ s.length
        ∧ utf8.AppendRune (utf8.DecodeRuneInString s).1 = s.take (utf8.DecodeRuneInString s).2
        ∧ (utf8.DecodeRuneInString s).1.isValidChar
        ∧ ((utf8.DecodeRuneInString s).2 = 1 → (utf8.DecodeRuneInString s).1 < 0x80)
        ∧ ((utf8.DecodeRuneInString s).2 = 1 ↔ utf8.byteAt s 0 < 0x80)) := by
  rcases byte_cases (utf8.byteAt s 0) with h | h | h | h | h | h | h | h | h
  · right
    rw [decode_class_ascii s hs h]
    match s, hs with
    | b0 :: tl, _ =>
      simp only [utf8.byteAt, List.getD_cons_zero] at h ⊢
      have := append_one b0 h
      simp [this, h]
  · left
    exact ⟨decode_class_invalid s hs h, by omega⟩
  · rw [decode_class_two s h]
    by_cases hl : s.length < 2
    · left; rw [if_pos hl]; exact ⟨rfl, by omega⟩
    · obtain ⟨b0, b1, tl, rfl⟩ := shape_two s hl
      simp only [utf8.byteAt, List.getD_cons_zero, List.getD_cons_succ] at h ⊢
      by_cases h1 : b1.toNat < 0x80 ∨ 0xBF < b1.toNat
      · left; rw [if_neg hl, if_pos h1]; exact ⟨rfl, by omega⟩
      · right; rw [if_neg hl, if_neg h1]
        have := append_two b0 b1 h h1
        simp [this]; omega
  · rw [decode_class_E0 s h]
    by_cases hl : s.length < 3
    · left; rw [if_pos hl]; exact ⟨rfl, by omega⟩
    · obtain ⟨b0, b1, b2, tl, rfl⟩ := shape_three s hl
      simp only [utf8.byteAt, List.getD_cons_zero, List.getD_cons_succ] at h ⊢
      by_cases h1 : b1.toNat < 0xA0 ∨ 0xBF < b1.toNat
      · left; rw [if_neg hl, if_pos h1]; exact ⟨rfl, by omega⟩
      · by_cases h2 : b2.toNat < 0x80 ∨ 0xBF < b2.toNat
        · left; rw [if_neg hl, if_neg h1, if_pos h2]; exact ⟨rfl, by omega⟩
        · right; rw [if_neg hl, if_neg h1, if_neg h2]
          have := append_three b0 b1 b2 (by omega) (by omega) h2 (by omega) (by omega)
          simp [this]; omega
  · rw [decode_class_three s h]
    by_cases hl : s.length < 3
    · left; rw [if_pos hl]; exact ⟨rfl, by omega⟩
    · obtain ⟨b0, b1, b2, tl, rfl⟩ := shape_three s hl
      simp only [utf8.byteAt, List.getD_cons_zero, List.getD_cons_succ] at h ⊢
      by_cases h1 : b1.toNat < 0x80 ∨ 0xBF < b1.toNat
      · left; rw [if_neg hl, if_pos h1]; exact ⟨rfl, by omega⟩
      · by_cases h2 : b2.toNat < 0x80 ∨ 0xBF < b2.toNat
        · left; rw [if_neg hl, if_neg h1, if_pos h2]; exact ⟨rfl, by omega⟩
        · right; rw [if_neg hl, if_neg h1, if_neg h2]
          have := append_three b0 b1 b2 (by omega) (by omega) h2 (by omega) (by omega)
          simp [this]; omega
  · rw [decode_class_ED s h]
    by_cases hl : s.length < 3
    · left; rw [if_pos hl]; exact ⟨rfl, by omega⟩
    · obtain ⟨b0, b1, b2, tl, rfl⟩ := shape_three s hl
      simp only [utf8.byteAt, List.getD_cons_zero, List.getD_cons_succ] at h ⊢
      by_cases h1 : b1.toNat < 0x80 ∨ 0x9F < b1.toNat
      · left; rw [if_neg hl, if_pos h1]; exact ⟨rfl, by omega⟩
      · by_cases h2 : b2.toNat < 0x80 ∨ 0xBF < b2.toNat
        · left; rw [if_neg hl, if_neg h1, if_pos h2]; exact ⟨rfl, by omega⟩
        · right; rw [if_neg hl, if_neg h1, if_neg h2]
          have := append_three b0 b1 b2 (by omega) (by omega) h2 (by omega) (by omega)
          simp [this]; omega
  · rw [decode_class_F0 s h]
    by_cases hl : s.length < 4
    · left; rw [if_pos hl]; exact ⟨rfl, by omega⟩
    · obtain ⟨b0, b1, b2, b3, tl, rfl⟩ := shape_four s hl
      simp only [utf8.byteAt, List.getD_cons_zero, List.getD_cons_succ] at h ⊢
      by_cases h1 : b1.toNat < 0x90 ∨ 0xBF < b1.toNat
      · left; rw [if_neg hl, if_pos h1]; exact ⟨rfl, by omega⟩
      · by_cases h2 : b2.toNat < 0x80 ∨ 0xBF < b2.toNat
        · left; rw [if_neg hl, if_neg h1, if_pos h2]; exact ⟨rfl, by omega⟩
        · by_cases h3 : b3.toNat < 0x80 ∨ 0xBF < b3.toNat
          · left; rw [if_neg hl, if_neg h1, if_neg h2, if_pos h3]; exact ⟨rfl, by omega⟩
          · right; rw [if_neg hl, if_neg h1, if_neg h2, if_neg h3]
            have := append_four b0 b1 b2 b3 (by omega) (by omega) h2 h3 (by omega) (by omega)
            simp [this]; omega
  · rw [decode_class_four s h]
    by_cases hl : s.length < 4
    · left; rw [if_pos hl]; exact ⟨rfl, by omega⟩
    · obtain ⟨b0, b1, b2, b3, tl, rfl⟩ := shape_four s hl
      simp only [utf8.byteAt, List.getD_cons_zero, List.getD_cons_succ] at h ⊢
      by_cases h1 : b1.toNat < 0x80 ∨ 0xBF < b1.toNat
      · left; rw [if_neg hl, if_pos h1]; exact ⟨rfl, by omega⟩
      · by_cases h2 : b2.toNat < 0x80 ∨ 0xBF < b2.toNat
        · left; rw [if_neg hl, if_neg h1, if_pos h2]; exact ⟨rfl, by omega⟩
        · by_cases h3 : b3.toNat < 0x80 ∨ 0xBF < b3.toNat
          · left; rw [if_neg hl, if_neg h1, if_neg h2, if_pos h3]; exact ⟨rfl, by omega⟩
          · right; rw [if_neg hl, if_neg h1, if_neg h2, if_neg h3]
            have := append_four b0 b1 b2 b3 (by omega) (by omega) h2 h3 (by omega) (by omega)
            simp [this]; omega
  · rw [decode_class_F4 s h]
    by_cases hl : s.length < 4
    · left; rw [if_pos hl]; exact ⟨rfl, by omega⟩
    · obtain ⟨b0, b1, b2, b3, tl, rfl⟩ := shape_four s hl
      simp only [utf8.byteAt, List.getD_cons_zero, List.getD_cons_succ] at h ⊢
      by_cases h1 : b1.toNat < 0x80 ∨ 0x8F < b1.toNat
      · left; rw [if_neg hl, if_pos h1]; exact ⟨rfl, by omega⟩
      · by_cases h2 : b2.toNat < 0x80 ∨ 0xBF < b2.toNat
        · left; rw [if_neg hl, if_neg h1, if_pos h2]; exact ⟨rfl, by omega⟩
        · by_cases h3 : b3.toNat < 0x80 ∨ 0xBF < b3.toNat
          · left; rw [if_neg hl, if_neg h1, if_neg h2, if_pos h3]; exact ⟨rfl, by omega⟩
          · right; rw [if_neg hl, if_neg h1, if_neg h2, if_neg h3]
            have := append_four b0 b1 b2 b3 (by omega) (by omega) h2 h3 (by omega) (by omega)
            simp [this]; omega

theorem valid_step (fuel : Nat) (s : List UInt8) (hs : ¬ s.length < 1) :
    utf8.validLoop (fuel + 1) s
      = if (utf8.DecodeRuneInString s).1 = utf8.RuneError ∧ (utf8.DecodeRuneInString s).2 = 1 then false
        else utf8.validLoop fuel (s.drop (utf8.DecodeRuneInString s).2) := by
  rcases byte_cases (utf8.byteAt s 0) with h | h | h | h | h | h | h | h | h
  · have hne : utf8.byteAt s 0 ≠ utf8.RuneError := by unfold utf8.RuneError; omega
    simp [utf8.validLoop, decode_class_ascii s hs h, utf8.RuneSelf, hs, h, hne]
  · have h1 : ¬ utf8.byteAt s 0 < 0x80 := by omega
    simp [utf8.validLoop, decode_class_invalid s hs h, utf8.RuneSelf, hs, h1, first_invalid _ h]
  · have h1 : ¬ utf8.byteAt s 0 < 0x80 := by omega
    rw [decode_class_two s h]
    by_cases hl : s.length < 2
    · simp [utf8.validLoop, utf8.RuneSelf, hs, h1, first_two _ h, utf8.acceptRanges, hl]
    · by_cases hb : utf8.byteAt s 1 < 0x80 ∨ 0xBF < utf8.byteAt s 1
      · rw [if_neg hl, if_pos hb]
        simp [utf8.validLoop, utf8.RuneSelf, hs, h1, first_two _ h, utf8.acceptRanges, hl]
        intros; omega
      · rw [if_neg hl, if_neg hb]
        have hb1 : ¬ utf8.byteAt s 1 < 0x80 := by omega
        have hb2 : ¬ 0xBF < utf8.byteAt s 1 := by omega
        simp [utf8.validLoop, utf8.RuneSelf, hs, h1, first_two _ h, utf8.acceptRanges, hl, hb1, hb2, utf8.RuneError]
  · have h1 : ¬ utf8.byteAt s 0 < 0x80 := by omega
    rw [decode_class_E0 s h]
    by_cases hl : s.length < 3
    · simp [utf8.validLoop, utf8.RuneSelf, hs, h1, first_E0, utf8.acceptRanges, hl, h]
    · by_cases hb : utf8.byteAt s 1 < 0xA0 ∨ 0xBF < utf8.byteAt s 1
      · rw [if_neg hl, if_pos hb]
        simp [utf8.validLoop, utf8.RuneSelf, hs, h1, first_E0, utf8.acceptRanges, hl, h]
        intros; omega
      · have hb1 : ¬ utf8.byteAt s 1 < 0xA0 := by omega
        have hb2 : ¬ 0xBF < utf8.byteAt s 1 := by omega
        by_cases hc : utf8.byteAt s 2 < 0x80 ∨ 0xBF < utf8.byteAt s 2
        · rw [if_neg hl, if_neg hb, if_pos hc]
          simp [utf8.validLoop, utf8.RuneSelf, hs, h1, first_E0, utf8.acceptRanges, hl, h, hb1, hb2]
          intros; omega
        · rw [if_neg hl, if_neg hb, if_neg hc]
          have hc1 : ¬ utf8.byteAt s 2 < 0x80 := by omega
          have hc2 : ¬ 0xBF < utf8.byteAt s 2 := by omega
          simp [utf8.validLoop, utf8.RuneSelf, hs, h1, first_E0, utf8.acceptRanges, hl, h, hb1, hb2, hc1, hc2, utf8.RuneError]
  · have h1 : ¬ utf8.byteAt s 0 < 0x80 := by omega
    rw [decode_class_three s h]
    by_cases hl : s.length < 3
    · simp [utf8.validLoop, utf8.RuneSelf, hs, h1, first_three _ h, utf8.acceptRanges, hl]
    · by_cases hb : utf8.byteAt s 1 < 0x80 ∨ 0xBF < utf8.byteAt s 1
      · rw [if_neg hl, if_pos hb]
        simp [utf8.validLoop, utf8.RuneSelf, hs, h1, first_three _ h, utf8.acceptRanges, hl]
        intros; omega
      · have hb1 : ¬ utf8.byteAt s 1 < 0x80 := by omega
        have hb2 : ¬ 0xBF < utf8.byteAt s 1 := by omega
        by_cases hc : utf8.byteAt s 2 < 0x80 ∨ 0xBF < utf8.byteAt s 2
        · rw [if_neg hl, if_neg hb, if_pos hc]
          simp [utf8.validLoop, utf8.RuneSelf, hs, h1, first_three _ h, utf8.acceptRanges, hl, hb1, hb2]
          intros; omega
        · rw [if_neg hl, if_neg hb, if_neg hc]
          have hc1 : ¬ utf8.byteAt s 2 < 0x80 := by omega
          have hc2 : ¬ 0xBF < utf8.byteAt s 2 := by omega
          simp [utf8.validLoop, utf8.RuneSelf, hs, h1, first_three _ h, utf8.acceptRanges, hl, hb1, hb2, hc1, hc2, utf8.RuneError]
  · have h1 : ¬ utf8.byteAt s 0 < 0x80 := by omega
    rw [decode_class_ED s h]
    by_cases hl : s.length < 3
    · simp [utf8.validLoop, utf8.RuneSelf, hs, h1, first_ED, utf8.acceptRanges, hl, h]
    · by_cases hb : utf8.byteAt s 1 < 0x80 ∨ 0x9F < utf8.byteAt s 1
      · rw [if_neg hl, if_pos hb]
        simp [utf8.validLoop, utf8.RuneSelf, hs, h1, first_ED, utf8.acceptRanges, hl, h]
        intros; omega
      · have hb1 : ¬ utf8.byteAt s 1 < 0x80 := by omega
        have hb2 : ¬ 0x9F < utf8.byteAt s 1 := by omega
        by_cases hc : utf8.byteAt s 2 < 0x80 ∨ 0xBF < utf8.byteAt s 2
        · rw [if_neg hl, if_neg hb, if_pos hc]
          simp [utf8.validLoop, utf8.RuneSelf, hs, h1, first_ED, utf8.acceptRanges, hl, h, hb1, hb2]
          intros; omega
        · rw [if_neg hl, if_neg hb, if_neg hc]
          have hc1 : ¬ utf8.byteAt s 2 < 0x80 := by omega
          have hc2 : ¬ 0xBF < utf8.byteAt s 2 := by omega
          simp [utf8.validLoop, utf8.RuneSelf, hs, h1, first_ED, utf8.acceptRanges, hl, h, hb1, hb2, hc1, hc2, utf8.RuneError]
  · have h1 : ¬ utf8.byteAt s 0 < 0x80 := by omega
    rw [decode_class_F0 s h]
    by_cases hl : s.length < 4
    · simp [utf8.validLoop, utf8.RuneSelf, hs, h1, first_F0, utf8.acceptRanges, hl, h]
    · by_cases hb : utf8.byteAt s 1 < 0x90 ∨ 0xBF < utf8.byteAt s 1
      · rw [if_neg hl, if_pos hb]
        simp [utf8.validLoop, utf8.RuneSelf, hs, h1, first_F0, utf8.acceptRanges, hl, h]
        intros; omega
      · have hb1 : ¬ utf8.byteAt s 1 < 0x90 := by omega
        have hb2 : ¬ 0xBF < utf8.byteAt s 1 := by omega
        by_cases hc : utf8.byteAt s 2 < 0x80 ∨ 0xBF < utf8.byteAt s 2
        · rw [if_neg hl, if_neg hb, if_pos hc]
          simp [utf8.validLoop, utf8.RuneSelf, hs, h1, first_F0, utf8.acceptRanges, hl, h, hb1, hb2]
          intros; omega
        · have hc1 : ¬ utf8.byteAt s 2 < 0x80 := by omega
          have hc2 : ¬ 0xBF < utf8.byteAt s 2 := by omega
          by_cases hd : utf8.byteAt s 3 < 0x80 ∨ 0xBF < utf8.byteAt s 3
          · rw [if_neg hl, if_neg hb, if_neg hc, if_pos hd]
            simp [utf8.validLoop, utf8.RuneSelf, hs, h1, first_F0, utf8.acceptRanges, hl, h, hb1, hb2, hc1, hc2]
            intros; omega
          · rw [if_neg hl, if_neg hb, if_neg hc, if_neg hd]
            have hd1 : ¬ utf8.byteAt s 3 < 0x80 := by omega
            have hd2 : ¬ 0xBF < utf8.byteAt s 3 := by omega
            simp [utf8.validLoop, utf8.RuneSelf, hs, h1, first_F0, utf8.acceptRanges, hl, h, hb1, hb2, hc1, hc2, hd1, hd2, utf8.RuneError]
  · have h1 : ¬ utf8.byteAt s 0 < 0x80 := by omega
    rw [decode_class_four s h]
    by_cases hl : s.length < 4
    · simp [utf8.validLoop, utf8.RuneSelf, hs, h1, first_four _ h, utf8.acceptRanges, hl]
    · by_cases hb : utf8.byteAt s 1 < 0x80 ∨ 0xBF < utf8.byteAt s 1
      · rw [if_neg hl, if_pos hb]
        simp [utf8.validLoop, utf8.RuneSelf, hs, h1, first_four _ h, utf8.acceptRanges, hl]
        intros; omega
      · have hb1 : ¬ utf8.byteAt s 1 < 0x80 := by omega
        have hb2 : ¬ 0xBF < utf8.byteAt s 1 := by omega
        by_cases hc : utf8.byteAt s 2 < 0x80 ∨ 0xBF < utf8.byteAt s 2
        · rw [if_neg hl, if_neg hb, if_pos hc]
          simp [utf8.validLoop, utf8.RuneSelf, hs, h1, first_four _ h, utf8.acceptRanges, hl, hb1, hb2]
          intros; omega
        · have hc1 : ¬ utf8.byteAt s 2 < 0x80 := by omega
          have hc2 : ¬ 0xBF < utf8.byteAt s 2 := by omega
          by_cases hd : utf8.byteAt s 3 < 0x80 ∨ 0xBF < utf8.byteAt s 3
          · rw [if_neg hl, if_neg hb, if_neg hc, if_pos hd]
            simp [utf8.validLoop, utf8.RuneSelf, hs, h1, first_four _ h, utf8.acceptRanges, hl, hb1, hb2, hc1, hc2]
            intros; omega
          · rw [if_neg hl, if_neg hb, if_neg hc, if_neg hd]
            have hd1 : ¬ utf8.byteAt s 3 < 0x80 := by omega
            have hd2 : ¬ 0xBF < utf8.byteAt s 3 := by omega
            simp [utf8.validLoop, utf8.RuneSelf, hs, h1, first_four _ h, utf8.acceptRanges, hl, hb1, hb2, hc1, hc2, hd1, hd2, utf8.RuneError]
  · have h1 : ¬ utf8.byteAt s 0 < 0x80 := by omega
    rw [decode_class_F4 s h]
    by_cases hl : s.length < 4
    · simp [utf8.validLoop, utf8.RuneSelf, hs, h1, first_F4, utf8.acceptRanges, hl, h]
    · by_cases hb : utf8.byteAt s 1 < 0x80 ∨ 0x8F < utf8.byteAt s 1
      · rw [if_neg hl, if_pos hb]
        simp [utf8.validLoop, utf8.RuneSelf, hs, h1, first_F4, utf8.acceptRanges, hl, h]
        intros; omega
      · have hb1 : ¬ utf8.byteAt s 1 < 0x80 := by omega
        have hb2 : ¬ 0x8F < utf8.byteAt s 1 := by omega
        by_cases hc : utf8.byteAt s 2 < 0x80 ∨ 0xBF < utf8.byteAt s 2
        · rw [if_neg hl, if_neg hb, if_pos hc]
          simp [utf8.validLoop, utf8.RuneSelf, hs, h1, first_F4, utf8.acceptRanges, hl, h, hb1, hb2]
          intros; omega
        · have hc1 : ¬ utf8.byteAt s 2 < 0x80 := by omega
          have hc2 : ¬ 0xBF < utf8.byteAt s 2 := by omega
          by_cases hd : utf8.byteAt s 3 < 0x80 ∨ 0xBF < utf8.byteAt s 3
          · rw [if_neg hl, if_neg hb, if_neg hc, if_pos hd]
            simp [utf8.validLoop, utf8.RuneSelf, hs, h1, first_F4, utf8.acceptRanges, hl, h, hb1, hb2, hc1, hc2]
            intros; omega
          · rw [if_neg hl, if_neg hb, if_neg hc, if_neg hd]
            have hd1 : ¬ utf8.byteAt s 3 < 0x80 := by omega
            have hd2 : ¬ 0xBF < utf8.byteAt s 3 := by omega
            simp [utf8.validLoop, utf8.RuneSelf, hs, h1, first_F4, utf8.acceptRanges, hl, h, hb1, hb2, hc1, hc2, hd1, hd2, utf8.RuneError]

theorem byteAt_take_four (s : List UInt8) (i : Nat) (h : i < 4) :
    utf8.byteAt (s.take 4) i = utf8.byteAt s i := by
  simp [utf8.byteAt, List.getD_eq_getElem?_getD, List.getElem?_take, h]

theorem lt_min_four (n k : Nat) (hk : k ≤ 4) : (min 4 n < k) = (n < k) := by
  apply propext
  omega

/-- The decoder reads no more than four bytes. -/
theorem decode_take_four (s : List UInt8) :
    utf8.DecodeRuneInString (s.take 4) = utf8.DecodeRuneInString s := by
  by_cases hs : s.length < 1
  · have : s = [] := List.length_eq_zero.1 (by omega)
    subst this
    rfl
  · have hs4 : ¬ (s.take 4).length < 1 := by rw [List.length_take]; omega
    have e0 := byteAt_take_four s 0 (by omega)
    have e1 := byteAt_take_four s 1 (by omega)
    have e2 := byteAt_take_four s 2 (by omega)
    have e3 := byteAt_take_four s 3 (by omega)
    rcases byte_cases (utf8.byteAt s 0) with h | h | h | h | h | h | h | h | h
    · rw [decode_class_ascii s hs h, decode_class_ascii _ hs4 (by rw [e0]; exact h), e0]
    · rw [decode_class_invalid s hs h, decode_class_invalid _ hs4 (by rw [e0]; exact h)]
    · rw [decode_class_two s h, decode_class_two _ (by rw [e0]; exact h), e0, e1, List.length_take]
      simp only [lt_min_four s.length 2 (by omega)]
    · rw [decode_class_E0 s h, decode_class_E0 _ (by rw [e0]; exact h), e0, e1, e2, List.length_take]
      simp only [lt_min_four s.length 3 (by omega)]
    · rw [decode_class_three s h, decode_class_three _ (by rw [e0]; exact h), e0, e1, e2, List.length_take]
      simp only [lt_min_four s.length 3 (by omega)]
    · rw [decode_class_ED s h, decode_class_ED _ (by rw [e0]; exact h), e0, e1, e2, List.length_take]
      simp only [lt_min_four s.length 3 (by omega)]
    · rw [decode_class_F0 s h, decode_class_F0 _ (by rw [e0]; exact h), e0, e1, e2, e3, List.length_take]
      simp only [lt_min_four s.length 4 (by omega)]
    · rw [decode_class_four s h, decode_class_four _ (by rw [e0]; exact h), e0, e1, e2, e3, List.length_take]
      simp only [lt_min_four s.length 4 (by omega)]
    · rw [decode_class_F4 s h, decode_class_F4 _ (by rw [e0]; exact h), e0, e1, e2, e3, List.length_take]
      simp only [lt_min_four s.length 4 (by omega)]

theorem append_step (fuel : Nat) (s : List UInt8) (hs : ¬ s.length < 1) :
    appendStringLoop (fuel + 1) s
      = if (utf8.DecodeRuneInString s).1 = utf8.RuneError ∧ (utf8.DecodeRuneInString s).2 = 1 then
          Char.ofNat 0xFFFD :: appendStringLoop fuel (s.drop 1)
        else Char.ofNat (utf8.DecodeRuneInString s).1
          :: appendStringLoop fuel (s.drop (utf8.DecodeRuneInString s).2) := by
  rw [appendStringLoop, if_neg hs]
  by_cases h : utf8.byteAt s 0 < utf8.RuneSelf
  · rw [if_pos h, decode_class_ascii s hs h]
    have hne : ¬ (utf8.byteAt s 0 = utf8.RuneError ∧ 1 = 1) := by
      unfold utf8.RuneSelf at h; unfold utf8.RuneError; omega
    rw [if_neg hne]
  · rw [if_neg h]
    simp only [decode_take_four]
    by_cases hc : (utf8.DecodeRuneInString s).1 = utf8.RuneError ∧ (utf8.DecodeRuneInString s).2 = 1
    · rw [if_pos hc, if_pos hc, hc.2]
    · rw [if_neg hc, if_neg hc]

theorem replacement_bytes :
    utf8.AppendRune (Char.ofNat 0xFFFD).toNat
      = [UInt8.ofNat 0xEF, UInt8.ofNat 0xBF, UInt8.ofNat 0xBD] := by
  decide

/-- Writing a valid string and reading it back gives the string. -/
theorem unquote_loop_of_valid (fuel : Nat) :
    ∀ s : List UInt8, s.length ≤ fuel → utf8.validLoop fuel s = true →
      (appendStringLoop fuel s).flatMap (fun c => utf8.AppendRune c.toNat) = s := by
  induction fuel with
  | zero =>
    intro s hl _
    have : s = [] := List.length_eq_zero.1 (by omega)
    subst this
    rfl
  | succ fuel ih =>
    intro s hl hv
    by_cases hs : s.length < 1
    · have : s = [] := List.length_eq_zero.1 (by omega)
      subst this
      rfl
    · rw [valid_step fuel s hs] at hv
      rw [append_step fuel s hs]
      by_cases hc : (utf8.DecodeRuneInString s).1 = utf8.RuneError ∧ (utf8.DecodeRuneInString s).2 = 1
      · rw [if_pos hc] at hv
        exact absurd hv (by decide)
      · rw [if_neg hc] at hv
        rw [if_neg hc]
        rcases decode_spec s hs with hd | ⟨h1, h2, h3, h4, -, -⟩
        · exact absurd (by rw [hd.1]; exact ⟨rfl, rfl⟩) hc
        · rw [List.flatMap_cons, toNat_ofNat_valid _ h4, h3,
            ih _ (by rw [List.length_drop]; omega) hv, List.take_append_drop]

/-- Writing a string and reading it back never gives fewer bytes, and gives more when the
string is not valid UTF-8. -/
theorem unquote_loop_length (fuel : Nat) :
    ∀ s : List UInt8, s.length ≤ fuel →
      s.length ≤ ((appendStringLoop fuel s).flatMap (fun c => utf8.AppendRune c.toNat)).length
      ∧ (utf8.validLoop fuel s = false →
          s.length < ((appendStringLoop fuel s).flatMap
            (fun c => utf8.AppendRune c.toNat)).length) := by
  induction fuel with
  | zero =>
    intro s hl
    have : s = [] := List.length_eq_zero.1 (by omega)
    subst this
    exact ⟨Nat.le_refl _, fun h => absurd h (by decide)⟩
  | succ fuel ih =>
    intro s hl
    by_cases hs : s.length < 1
    · have : s = [] := List.length_eq_zero.1 (by omega)
      subst this
      exact ⟨Nat.zero_le _, fun h => absurd h (by simp [utf8.validLoop])⟩
    · rw [valid_step fuel s hs, append_step fuel s hs]
      rcases decode_spec s hs with hd | ⟨h1, h2, h3, h4, h5, -⟩
      · have hc : (utf8.DecodeRuneInString s).1 = utf8.RuneError ∧ (utf8.DecodeRuneInString s).2 = 1 := by
          rw [hd.1]; exact ⟨rfl, rfl⟩
        have := (ih (s.drop 1) (by rw [List.length_drop]; omega)).1
        rw [List.length_drop] at this
        rw [if_pos hc, if_pos hc, List.flatMap_cons, replacement_bytes, List.length_append]
        simp only [List.length_cons, List.length_nil]
        exact ⟨by omega, fun _ => by omega⟩
      · have hc : ¬ ((utf8.DecodeRuneInString s).1 = utf8.RuneError
            ∧ (utf8.DecodeRuneInString s).2 = 1) := by
          rintro ⟨ha, hb⟩
          have := h5 hb
          rw [ha] at this
          exact absurd this (by decide)
        have := ih (s.drop (utf8.DecodeRuneInString s).2) (by rw [List.length_drop]; omega)
        rw [List.length_drop] at this
        rw [if_neg hc, if_neg hc, List.flatMap_cons, toNat_ofNat_valid _ h4, h3,
          List.length_append, List.length_take, Nat.min_eq_left h2]
        exact ⟨by omega, fun hv => by have := this.2 hv; omega⟩

/-- Writing a Go string into a document and reading it back gives the same bytes exactly
when the string is valid UTF-8. -/
theorem unquote_appendString_eq_iff (s : List UInt8) :
    unquote (appendString s) = s ↔ utf8.ValidString s = true := by
  constructor
  · intro h
    by_contra hv
    have hf : utf8.validLoop s.length s = false := by
      simpa [utf8.ValidString] using hv
    have := (unquote_loop_length s.length s (Nat.le_refl _)).2 hf
    have hlen := congrArg List.length h
    simp only [unquote, appendString] at hlen
    omega
  · intro h
    exact unquote_loop_of_valid s.length s (Nat.le_refl _) h

/-! ## Decoding the encoding of a fallback domain, byte for byte -/

theorem appendString_beq_empty (s : List UInt8) :
    (appendString s == "") = (s.length == 0) := by
  cases s with
  | nil => rfl
  | cons b t =>
    have hs : ¬ (b :: t).length < 1 := by simp
    have h : appendString (b :: t) ≠ "" := by
      intro h
      have hd := congrArg String.data h
      simp only [appendString, List.length_cons] at hd
      rw [append_step _ _ hs] at hd
      split at hd <;> simp at hd
    simp [h]

theorem map_eq_self_iff {α : Type} (f : α → α) (xs : List α) :
    xs.map f = xs ↔ ∀ x ∈ xs, f x = x := by
  induction xs with
  | nil => simp
  | cons x xs ih => simp [ih]

/-- Marshalling the Go value is encoding the value with every string as written. -/
theorem marshal_eq_encode_text (d : FallbackDomainBytes) :
    marshalFallbackDomain d = encodeFallbackDomain d.text := by
  obtain ⟨s, t, n⟩ := d
  cases n with
  | nil =>
    simp [marshalFallbackDomain, encodeFallbackDomain, FallbackDomainBytes.text,
      appendString_beq_empty, encodeSlice, Slice.len, Slice.toList]
  | elems xs =>
    simp [marshalFallbackDomain, encodeFallbackDomain, FallbackDomainBytes.text,
      appendString_beq_empty, encodeSlice, Slice.len, Slice.toList, List.map_map,
      Function.comp_def]

/-- What Go holds after marshalling `d` and unmarshalling the document into a fresh value:
every string written and read back, and an empty `DNSServer` as the nil slice. -/
theorem unmarshal_marshalFallbackDomain (d : FallbackDomainBytes) :
    unmarshalFallbackDomain (marshalFallbackDomain d)
      = ({ Suffix := unquote (appendString d.Suffix)
           Description := unquote (appendString d.Description)
           DNSServer :=
             if d.DNSServer.len = 0 then .nil
             else .elems (d.DNSServer.toList.map fun x => unquote (appendString x)) },
         none) := by
  rw [unmarshalFallbackDomain, marshal_eq_encode_text, decode_encodeFallbackDomain]
  obtain ⟨s, t, n⟩ := d
  cases n with
  | nil => simp [FallbackDomainBytes.text, FallbackDomain.bytes, Slice.len, Slice.toList]
  | elems xs =>
    by_cases h : xs = []
    · subst h
      simp [FallbackDomainBytes.text, FallbackDomain.bytes, Slice.len, Slice.toList]
    · simp [FallbackDomainBytes.text, FallbackDomain.bytes, Slice.len, Slice.toList, h,
        List.map_map, Function.comp_def]


/-- C22 (counterexample): two fallback domains that do not come back equal.  The first has
the allocated empty slice `[]string{}` as `DNSServer`: it encodes without the key
`dns_server`, and decoding that gives a domain whose `DNSServer` is the nil slice.  The
second has the single byte `0xff` as `Suffix` and a nil `DNSServer`: the byte is not valid
UTF-8, is written as U+FFFD, and comes back as the three bytes `ef bf bd`. -/
theorem empty_servers_and_invalid_bytes_change :
    (encodeFallbackDomain noServers
        = .object [("suffix", .string "example.com"), ("description", .string "internal")]
      ∧ decodeFallbackDomain (encodeFallbackDomain noServers) FallbackDomain.zero
        = (⟨"example.com", "internal", .nil⟩, none)
      ∧ (decodeFallbackDomain (encodeFallbackDomain noServers) FallbackDomain.zero).1
        ≠ noServers
      ∧ noServers.DNSServer.isNil = false
      ∧ (decodeFallbackDomain (encodeFallbackDomain noServers)
          FallbackDomain.zero).1.DNSServer.isNil = true)
    ∧ (marshalFallbackDomain noServersBytes = encodeFallbackDomain noServers
      ∧ (unmarshalFallbackDomain (marshalFallbackDomain noServersBytes)).2 = none
      ∧ (unmarshalFallbackDomain (marshalFallbackDomain noServersBytes)).1 ≠ noServersBytes
      ∧ (unmarshalFallbackDomain (marshalFallbackDomain noServersBytes)).1.DNSServer = .nil)
    ∧ (utf8.ValidString invalidSuffix.Suffix = false
      ∧ invalidSuffix.DNSServer = .nil
      ∧ marshalFallbackDomain invalidSuffix = .object [("suffix", .string "�")]
      ∧ unmarshalFallbackDomain (marshalFallbackDomain invalidSuffix)
        = (⟨[0xef, 0xbf, 0xbd], [], .nil⟩, none)
      ∧ (unmarshalFallbackDomain (marshalFallbackDomain invalidSuffix)).1
        ≠ invalidSuffix) :=
  ⟨⟨rfl, by decide, by decide, by decide, by decide⟩,
   ⟨rfl, by decide, by decide, by decide⟩,
   ⟨by decide, by decide, rfl, by decide, by decide⟩⟩

/-- C22 (amended): for every `FallbackDomain` `d`, with its strings as the byte sequences Go
holds, decoding the JSON encoding of `d` into a fresh value succeeds.  `Suffix` and
`Description` come back unchanged exactly when they are valid UTF-8; the DNS servers come
back in the same number and order, each written and read back, so unchanged exactly when
all are valid UTF-8.  The decoded value is `d` itself exactly when every string of `d` is
valid UTF-8 and `d.DNSServer` is not the allocated empty slice, which comes back as the nil
slice. -/
theorem decode_of_encode_preserves_fields (d : FallbackDomainBytes) :
    (unmarshalFallbackDomain (marshalFallbackDomain d)).2 = none
    ∧ ((unmarshalFallbackDomain (marshalFallbackDomain d)).1.Suffix = d.Suffix
        ↔ utf8.ValidString d.Suffix = true)
    ∧ ((unmarshalFallbackDomain (marshalFallbackDomain d)).1.Description = d.Description
        ↔ utf8.ValidString d.Description = true)
    ∧ (unmarshalFallbackDomain (marshalFallbackDomain d)).1.DNSServer.toList
        = d.DNSServer.toList.map (fun x => unquote (appendString x))
    ∧ ((unmarshalFallbackDomain (marshalFallbackDomain d)).1.DNSServer.toList
          = d.DNSServer.toList
        ↔ ∀ x ∈ d.DNSServer.toList, utf8.ValidString x = true)
    ∧ ((unmarshalFallbackDomain (marshalFallbackDomain d)).1 = d
        ↔ utf8.ValidString d.Suffix = true ∧ utf8.ValidString d.Description = true
          ∧ (∀ x ∈ d.DNSServer.toList, utf8.ValidString x = true)
          ∧ d.DNSServer ≠ .elems [])
    ∧ (d.DNSServer = .elems [] →
        (unmarshalFallbackDomain (marshalFallbackDomain d)).1.DNSServer = .nil) := by
  rw [unmarshal_marshalFallbackDomain]
  obtain ⟨s, t, n⟩ := d
  cases n with
  | nil =>
    simp [Slice.len, Slice.toList, unquote_appendString_eq_iff]
  | elems xs =>
    by_cases h : xs = []
    · subst h
      simp [Slice.len, Slice.toList, unquote_appendString_eq_iff]
    · simp [Slice.len, Slice.toList, h, unquote_appendString_eq_iff, map_eq_self_iff]

end Cloudflare
